import Mathlib

/-!
# blockbot: cascade funding, swap, mint and task-set runner

A shallow embedding of the services of the bot
(`src/services/fundingService.js`, `swapService.js`, `nftService.js`,
`taskExecutor.js`) and the properties proved about them.

Conventions of the embedding.

* A rejected promise or a thrown exception is `Except.error msg`, where `msg`
  is the `message` of the JavaScript error.
* Every external collaborator (JSON-RPC provider, Solana connection, database,
  contract) is a record of functions.  A call that is made once per loop
  iteration takes the iteration index as its first argument, so that the
  collaborator may answer differently on every call.
* Every function that talks to a collaborator returns, next to its value, the
  list of calls it made, in the order it made them.
* `bigint` values are `Int`; `/` on `bigint` truncates towards zero
  (`Int.tdiv`) and raises on a zero divisor.
-/

namespace Blockbot

/-! ## Values shared by the services -/

/-- Value and call log of one run of an asynchronous function. -/
structure Run (κ α : Type) where
  out : Except String α
  calls : List κ

/-- An amount argument (`amountPerWallet`, `totalAmount`) as the funding code
observes it.  The code looks at such a value in three ways only:
`truthy` is its JavaScript truthiness, `parseEther` is the outcome of
`ethers.parseEther(String(v))` in wei, and `number` is its numeric value,
which the Solana path multiplies by `LAMPORTS_PER_SOL`. -/
structure JsAmount where
  truthy : Bool
  parseEther : Except String Int
  number : ℚ

/-- The value `undefined`: falsy, and `parseEther("undefined")` throws. -/
def JsAmount.undefined : JsAmount :=
  ⟨false, .error "invalid FixedNumber string value", 0⟩

/-- A number of ether that is worth `wei` wei, for instance `0.5` for
`500000000000000000`.  Zero is falsy, every other number is truthy. -/
def JsAmount.ofWei (wei : Int) : JsAmount :=
  ⟨decide (wei ≠ 0), .ok wei, (wei : ℚ) / 10 ^ 18⟩

/-- Division of `bigint` values: truncation towards zero, `RangeError` on
a zero divisor. -/
def bigIntDiv (a b : Int) : Except String Int :=
  if b = 0 then .error "Division by zero" else .ok (a.tdiv b)

/-! ## fundingService.js -/

/-- The value of `ethers.parseEther('0.001')`. -/
def milliEther : Int := 10 ^ 15

/-- The value of `ethers.parseUnits('5', 'gwei')`. -/
def fiveGwei : Int := 5 * 10 ^ 9

/-- The constant `LAMPORTS_PER_SOL` of `@solana/web3.js`. -/
def LAMPORTS_PER_SOL : ℚ := 1000000000

/-- The object returned by `provider.getFeeData()`; `gasPrice` may be null. -/
structure FeeData where
  gasPrice : Option Int

/-- The request handed to `masterWallet.sendTransaction`; `toAddress` is its
field `to`. -/
structure TxRequest where
  toAddress : String
  value : Int
  nonce : Nat
deriving DecidableEq, Repr

/-- The JSON-RPC provider and signer used by `cascadeFundEVM`. -/
structure EvmProvider where
  /-- Outcome of `new ethers.Wallet(masterPrivateKey, provider)`: the address. -/
  wallet : String → Except String String
  /-- Outcome of `provider.getBalance(address)`, in wei. -/
  getBalance : String → Except String Nat
  /-- Outcome of `provider.getFeeData()`. -/
  getFeeData : Except String FeeData
  /-- Outcome of `provider.getTransactionCount(master, 'pending')` in iteration `k`. -/
  getTransactionCount : Nat → Except String Nat
  /-- Outcome of `masterWallet.sendTransaction(tx)` in iteration `k`: the hash. -/
  sendTransaction : Nat → TxRequest → Except String String
  /-- Outcome of `tx.wait()` in iteration `k`. -/
  wait : Nat → String → Except String Unit

/-- The calls `cascadeFundEVM` makes on its provider. -/
inductive EvmCall where
  | getBalance (address : String)
  | getFeeData
  | getTransactionCount (address : String)
  | sendTransaction (tx : TxRequest)
  | wait (hash : String)
deriving DecidableEq, Repr

/-- The transfers among a list of provider calls. -/
def EvmCall.transfers : List EvmCall → List TxRequest
  | [] => []
  | .sendTransaction tx :: cs => tx :: EvmCall.transfers cs
  | _ :: cs => EvmCall.transfers cs

/-- The number of nonce lookups among a list of provider calls. -/
def EvmCall.nonceLookups : List EvmCall → Nat
  | [] => 0
  | .getTransactionCount _ :: cs => EvmCall.nonceLookups cs + 1
  | _ :: cs => EvmCall.nonceLookups cs

/-- What the `message` of a funding result says; the amounts are kept as
numbers instead of being rendered with `formatEther` or `toFixed`. -/
inductive FundingMessage where
  | insufficient (balance needed : ℚ) (wallets : Nat)
  | funded (address : String) (amount : Int)
  | failed (address : String) (error : String)
  | noTargets
deriving DecidableEq

/-- One element of the array returned by the cascade functions. -/
structure FundingResult where
  success : Bool
  address : Option String
  amount : Option Int
  txHash : Option String
  message : FundingMessage
deriving DecidableEq

/-- The object pushed in the `catch` block of the funding loops. -/
def FundingResult.failure (targetAddress error : String) : FundingResult :=
  ⟨false, some targetAddress, none, none, .failed targetAddress error⟩

/-- The object pushed at the end of the `try` block of the funding loops. -/
def FundingResult.funded (targetAddress : String) (amount : Int) (txHash : String) :
    FundingResult :=
  ⟨true, some targetAddress, some amount, some txHash, .funded targetAddress amount⟩

/-- The single object returned when the master balance is too small. -/
def FundingResult.insufficient (balance needed : ℚ) (wallets : Nat) : FundingResult :=
  ⟨false, none, none, none, .insufficient balance needed wallets⟩

/-- Function `estimateGasAmount(chain, rpcUrl)`, with the call it makes on the
provider.  A gas price of `0n` or `null` is falsy and replaced by 5 gwei. -/
def estimateGasAmount (p : EvmProvider) (chain : String) : Int × List EvmCall :=
  if chain = "evm" then
    match p.getFeeData with
    | .ok feeData =>
      let gasPrice :=
        match feeData.gasPrice with
        | some g => if g ≠ 0 then g else fiveGwei
        | none => fiveGwei
      let gasLimit : Int := 21000 * 3
      (gasPrice * gasLimit, [.getFeeData])
    | .error _ => (milliEther, [.getFeeData])
  else if chain = "solana" then (10000000, [])
  else if chain = "aptos" then (1000, [])
  else (milliEther, [])

/-- The amount per wallet of `cascadeFundEVM` (lines 43-53), for `n` target
wallets, with the provider calls made while computing it. -/
def sendAmountEVM (p : EvmProvider) (mode : String) (amountPerWallet totalAmount : JsAmount)
    (n : Nat) : Except String Int × List EvmCall :=
  if mode = "equal" ∧ totalAmount.truthy = true then
    (match totalAmount.parseEther with
     | .ok total => bigIntDiv total (n : Int)
     | .error e => .error e, [])
  else if mode = "fixed" ∧ amountPerWallet.truthy = true then
    (amountPerWallet.parseEther, [])
  else if mode = "gas_only" then
    ((.ok (estimateGasAmount p "evm").1), (estimateGasAmount p "evm").2)
  else
    (if amountPerWallet.truthy = true then amountPerWallet.parseEther else .ok milliEther, [])

/-- One iteration of the loop of `cascadeFundEVM` (lines 65-89) for the target
at position `k`: the result pushed and the provider calls made. -/
def fundTargetEVM (p : EvmProvider) (master : String) (sendAmount : Int) (k : Nat)
    (targetAddress : String) : FundingResult × List EvmCall :=
  match p.getTransactionCount k with
  | .error e => (.failure targetAddress e, [.getTransactionCount master])
  | .ok nonce =>
    let tx : TxRequest := ⟨targetAddress, sendAmount, nonce⟩
    match p.sendTransaction k tx with
    | .error e =>
      (.failure targetAddress e, [.getTransactionCount master, .sendTransaction tx])
    | .ok hash =>
      match p.wait k hash with
      | .error e =>
        (.failure targetAddress e,
          [.getTransactionCount master, .sendTransaction tx, .wait hash])
      | .ok () =>
        (.funded targetAddress sendAmount hash,
          [.getTransactionCount master, .sendTransaction tx, .wait hash])

/-- The loop `for (const targetAddress of targetWallets)` of `cascadeFundEVM`,
started at iteration `k`. -/
def fundLoopEVM (p : EvmProvider) (master : String) (sendAmount : Int) :
    Nat → List String → List FundingResult × List EvmCall
  | _, [] => ([], [])
  | k, targetAddress :: rest =>
    let step := fundTargetEVM p master sendAmount k targetAddress
    let tail := fundLoopEVM p master sendAmount (k + 1) rest
    (step.1 :: tail.1, step.2 ++ tail.2)

/-- Function `cascadeFundEVM`. -/
def cascadeFundEVM (p : EvmProvider) (masterPrivateKey : String) (targetWallets : List String)
    (mode : String) (amountPerWallet totalAmount : JsAmount) :
    Run EvmCall (List FundingResult) :=
  match p.wallet masterPrivateKey with
  | .error e => ⟨.error e, []⟩
  | .ok master =>
    match p.getBalance master with
    | .error e => ⟨.error e, [.getBalance master]⟩
    | .ok masterBalance =>
      let amount := sendAmountEVM p mode amountPerWallet totalAmount targetWallets.length
      match amount.1 with
      | .error e => ⟨.error e, .getBalance master :: amount.2⟩
      | .ok sendAmount =>
        let totalNeeded : Int := sendAmount * (targetWallets.length : Int)
        if (masterBalance : Int) < totalNeeded then
          ⟨.ok [.insufficient masterBalance totalNeeded targetWallets.length],
            .getBalance master :: amount.2⟩
        else
          let loop := fundLoopEVM p master sendAmount 0 targetWallets
          ⟨.ok loop.1, .getBalance master :: amount.2 ++ loop.2⟩

/-- The Solana connection and key handling used by `cascadeFundSolana`.
JavaScript numbers are the rationals they denote; `round` is the rounding of
an exact result to the nearest double, applied after every `*` and `/`. -/
structure SolanaConnection where
  round : ℚ → ℚ
  /-- Outcome of `Keypair.fromSecretKey(bs58.decode(key))`: the public key. -/
  fromSecretKey : String → Except String String
  /-- Outcome of `connection.getBalance(publicKey)`, in lamports. -/
  getBalance : String → Except String Nat
  /-- Outcome of `new PublicKey(targetAddress)`. -/
  publicKey : String → Except String String
  /-- Outcome of `connection.sendTransaction(tx, [masterKeypair])` in iteration `k`. -/
  sendTransaction : Nat → String → ℚ → Except String String
  /-- Outcome of `connection.confirmTransaction(sig)` in iteration `k`. -/
  confirmTransaction : Nat → String → Except String Unit

/-- The calls `cascadeFundSolana` makes on its connection. -/
inductive SolanaCall where
  | getBalance (publicKey : String)
  | sendTransaction (toPubkey : String) (lamports : ℚ)
  | confirmTransaction (signature : String)
deriving DecidableEq

/-- The transfers among a list of connection calls: destination and lamports. -/
def SolanaCall.transfers : List SolanaCall → List (String × ℚ)
  | [] => []
  | .sendTransaction toPubkey lamports :: cs => (toPubkey, lamports) :: SolanaCall.transfers cs
  | _ :: cs => SolanaCall.transfers cs

/-- The lamports per wallet of `cascadeFundSolana` (lines 104-113).  The
constant `Math.floor(0.005 * LAMPORTS_PER_SOL)` is the double `5000000`.  For
an empty target list JavaScript divides by zero and the product computed for
the balance check is `NaN`; the embedding divides to `0`, and both take the
same branch of the check when `round 0 = 0`. -/
def lamportsEachSolana (c : SolanaConnection) (mode : String)
    (amountPerWallet totalAmount : JsAmount) (n : Nat) : ℚ :=
  if mode = "equal" ∧ totalAmount.truthy = true then
    (⌊c.round (c.round (totalAmount.number * LAMPORTS_PER_SOL) / (n : ℚ))⌋ : Int)
  else if mode = "fixed" ∧ amountPerWallet.truthy = true then
    (⌊c.round (amountPerWallet.number * LAMPORTS_PER_SOL)⌋ : Int)
  else if mode = "gas_only" then
    5000000
  else
    (⌊c.round ((if amountPerWallet.truthy = true then amountPerWallet.number else 1 / 100)
        * LAMPORTS_PER_SOL)⌋ : Int)

/-- One iteration of the loop of `cascadeFundSolana` (lines 124-152). -/
def fundTargetSolana (c : SolanaConnection) (lamportsEach : ℚ) (k : Nat)
    (targetAddress : String) : FundingResult × List SolanaCall :=
  match c.publicKey targetAddress with
  | .error e => (.failure targetAddress e, [])
  | .ok toPubkey =>
    match c.sendTransaction k toPubkey lamportsEach with
    | .error e => (.failure targetAddress e, [.sendTransaction toPubkey lamportsEach])
    | .ok sig =>
      match c.confirmTransaction k sig with
      | .error e =>
        (.failure targetAddress e,
          [.sendTransaction toPubkey lamportsEach, .confirmTransaction sig])
      | .ok () =>
        (.funded targetAddress ⌊lamportsEach⌋ sig,
          [.sendTransaction toPubkey lamportsEach, .confirmTransaction sig])

/-- The loop `for (const targetAddress of targetWallets)` of
`cascadeFundSolana`, started at iteration `k`. -/
def fundLoopSolana (c : SolanaConnection) (lamportsEach : ℚ) :
    Nat → List String → List FundingResult × List SolanaCall
  | _, [] => ([], [])
  | k, targetAddress :: rest =>
    let step := fundTargetSolana c lamportsEach k targetAddress
    let tail := fundLoopSolana c lamportsEach (k + 1) rest
    (step.1 :: tail.1, step.2 ++ tail.2)

/-- Function `cascadeFundSolana`. -/
def cascadeFundSolana (c : SolanaConnection) (masterPrivateKeyBase58 : String)
    (targetWallets : List String) (mode : String) (amountPerWallet totalAmount : JsAmount) :
    Run SolanaCall (List FundingResult) :=
  match c.fromSecretKey masterPrivateKeyBase58 with
  | .error e => ⟨.error e, []⟩
  | .ok master =>
    match c.getBalance master with
    | .error e => ⟨.error e, [.getBalance master]⟩
    | .ok masterBalance =>
      let lamportsEach :=
        lamportsEachSolana c mode amountPerWallet totalAmount targetWallets.length
      let totalNeeded : ℚ := c.round (lamportsEach * (targetWallets.length : ℚ))
      if (masterBalance : ℚ) < totalNeeded then
        ⟨.ok [.insufficient masterBalance totalNeeded targetWallets.length],
          [.getBalance master]⟩
      else
        let loop := fundLoopSolana c lamportsEach 0 targetWallets
        ⟨.ok loop.1, .getBalance master :: loop.2⟩

/-- The submission for the target at position `k` succeeds: the nonce lookup,
the transfer built from it and the wait for its confirmation all return. -/
def EvmProvider.confirms (p : EvmProvider) (sendAmount : Int) (k : Nat)
    (targetAddress : String) : Prop :=
  ∃ nonce hash, p.getTransactionCount k = .ok nonce ∧
    p.sendTransaction k ⟨targetAddress, sendAmount, nonce⟩ = .ok hash ∧
    p.wait k hash = .ok ()

/-- A provider for the examples: the master wallet holds `balance` wei, the
nonce of iteration `k` is `k`, and the transfer to `rejected` is refused. -/
def sampleProvider (balance : Nat) (rejected : String) : EvmProvider where
  wallet := fun _ => .ok "0xMaster"
  getBalance := fun _ => .ok balance
  getFeeData := .ok ⟨some 2⟩
  getTransactionCount := fun k => .ok k
  sendTransaction := fun _ tx =>
    if tx.toAddress = rejected then .error "insufficient funds for gas" else .ok tx.toAddress
  wait := fun _ _ => .ok ()

/-- A connection for the examples: the master holds `balance` lamports and
every transfer is accepted; small numbers are doubles, so `round` is exact. -/
def sampleConnection (balance : Nat) : SolanaConnection where
  round := fun q => q
  fromSecretKey := fun _ => .ok "Master"
  getBalance := fun _ => .ok balance
  publicKey := fun a => .ok a
  sendTransaction := fun _ a _ => .ok a
  confirmTransaction := fun _ _ => .ok ()

/-! ## swapService.js -/

/-- A router configuration as `resolveDex` returns it.  The interface
description `abi` is a list of fragments; `weth` is null for a saved router
without a wrapped-native address. -/
structure Dex where
  name : String
  router : String
  weth : Option String
  abi : List String
deriving DecidableEq, Repr

/-- The constant `UNISWAP_V2_ROUTER_ABI`. -/
def UNISWAP_V2_ROUTER_ABI : List String :=
  ["function swapExactETHForTokens(uint amountOutMin, address[] calldata path, address to, uint deadline) external payable returns (uint[] memory amounts)",
   "function swapExactTokensForETH(uint amountIn, uint amountOutMin, address[] calldata path, address to, uint deadline) external returns (uint[] memory amounts)",
   "function swapExactTokensForTokens(uint amountIn, uint amountOutMin, address[] calldata path, address to, uint deadline) external returns (uint[] memory amounts)",
   "function getAmountsOut(uint amountIn, address[] calldata path) external view returns (uint[] memory amounts)",
   "function WETH() external pure returns (address)"]

/-- An entry of the constant `BUILTIN_DEX`. -/
structure BuiltinDex where
  name : String
  router : String
  weth : String
deriving DecidableEq, Repr

/-- The constant `BUILTIN_DEX`: its own properties, keyed by chain id.  Chain
ids are decimal numerals, so names inherited from `Object.prototype` are no
keys here. -/
def BUILTIN_DEX : List (String × BuiltinDex) :=
  [("1", ⟨"Uniswap V2", "0x7a250d5630B4cF539739dF2C5dAcb4c659F2488D",
      "0xC02aaA39b223FE8D0A0e5C4F27eAD9083C756Cc2"⟩),
   ("56", ⟨"PancakeSwap V2", "0x10ED43C718714eb63d5aA57B78B54704E256024E",
      "0xbb4CdB9CBd36B01bD1cBaEBF2De08d9173bc095c"⟩),
   ("137", ⟨"QuickSwap", "0xa5E0829CaCEd8fFDD4De3c43696c57F7D7A678ff",
      "0x0d500B1d8E8eF31E21C99d1Db9A6444d3ADf1270"⟩),
   ("42161", ⟨"Uniswap V2 Arbitrum", "0x4752ba5DBc23f44D87826276BF6Fd6b1C372aD24",
      "0x82aF49447D8a07e3bd95BD0d56f35241523fBab1"⟩),
   ("8453", ⟨"Uniswap V2 Base", "0x4752ba5DBc23f44D87826276BF6Fd6b1C372aD24",
      "0x4200000000000000000000000000000000000006"⟩),
   ("10", ⟨"Uniswap V2 Optimism", "0x4A7b5Da61326A6379179b40d00F57E5bbDC962c2",
      "0x4200000000000000000000000000000000000006"⟩),
   ("97", ⟨"PancakeSwap Testnet", "0xD99D1c33F9fC3444f8101754aBC46c52416550D1",
      "0xae13d989daC2f0dEbFf460aC112a837C89BAa7cd"⟩),
   ("11155111", ⟨"Uniswap V2 Sepolia", "0xC532a74256D3Db42D0Bf7a0400fEFDbad7694008",
      "0x7b79995e5f793A07Bc00c21412e50Ecae098E7f9"⟩),
   ("80001", ⟨"QuickSwap Mumbai", "0xa5E0829CaCEd8fFDD4De3c43696c57F7D7A678ff",
      "0x9c3C9283D3e44854697Cd22D3Faa240Cfb032889"⟩)]

/-- A row of the table `custom_dexes`, as `db.getCustomDex` returns it. -/
structure CustomDexRow where
  name : String
  router_address : String
  weth_address : Option String
  abi : String
deriving DecidableEq, Repr

/-- The amount `amountIn` of a swap as the code observes it: the outcome of
`ethers.parseUnits(String(amountIn), decimals)`; `parseEther` is the case of
18 decimals. -/
structure AmountIn where
  parseUnits : Nat → Except String Int

/-- The value `ethers.MaxUint256`. -/
def MaxUint256 : Int := 2 ^ 256 - 1

/-- The chain calls `swapEVM` makes. -/
inductive SwapCall where
  | decimals (token : String)
  | allowance (token owner spender : String)
  | approve (token spender : String) (amount : Int)
  | wait (tx : String)
  | getAmountsOut (router : String) (amountIn : Int) (path : List (Option String))
  | swapExactETHForTokens (router : String) (amountOutMin : Int) (path : List (Option String))
      (recipient : String) (deadline : Nat) (value : Int)
  | swapExactTokensForETH (router : String) (amountIn amountOutMin : Int)
      (path : List (Option String)) (recipient : String) (deadline : Nat)
  | swapExactTokensForTokens (router : String) (amountIn amountOutMin : Int)
      (path : List (Option String)) (recipient : String) (deadline : Nat)
deriving DecidableEq, Repr

/-- The collaborators of `swapService.js`: the store, the JSON parser, the
signer, the token contract and the router.  `round` rounds an exact result to
the nearest double and `now` is `Date.now()`. -/
structure SwapEnv where
  round : ℚ → ℚ
  now : Nat
  /-- Value of `db.getCustomDex(userId, chainId)`; null on any store error. -/
  getCustomDex : String → String → Option CustomDexRow
  /-- Outcome of `JSON.parse(text)` on a stored interface description. -/
  jsonParse : String → Except String (List String)
  /-- Outcome of `new ethers.Wallet(privateKey, provider)`: the address. -/
  wallet : String → Except String String
  /-- Outcome of `tokenContract.decimals()` on the token. -/
  decimals : String → Except String Nat
  /-- Outcome of `tokenContract.allowance(owner, spender)` on the token. -/
  allowance : String → String → String → Except String Int
  /-- Outcome of `tokenContract.approve(spender, amount)`: the transaction. -/
  approve : String → String → Int → Except String String
  /-- Outcome of `router.getAmountsOut(amountIn, path)` on the router. -/
  getAmountsOut : String → Int → List (Option String) → Except String (List Nat)
  /-- Outcome of `router.swapExact...(...)`: the transaction. -/
  submitSwap : SwapCall → Except String String
  /-- Outcome of `tx.wait()`: the hash of the receipt. -/
  wait : String → Except String String

/-- The three trade shapes of `swapEVM`. -/
inductive TradeShape where
  | nativeToToken
  | tokenToNative
  | tokenToToken
deriving DecidableEq, Repr

/-- What the `message` of a swap result says. -/
inductive SwapMessage where
  | noDex (chainId : String)
  | swapped (shape : TradeShape) (dexName : String)
  | error (message : String)
deriving DecidableEq, Repr

/-- The object returned by `swapEVM`. -/
structure SwapResult where
  success : Bool
  txHash : Option String
  needsDexInfo : Bool
  message : SwapMessage
deriving DecidableEq, Repr

/-- Function `resolveDex(chainId, userId)`: the built-in entry first, then the
router saved by the user, then null.  `JSON.parse` of a stored description
that is no JSON raises. -/
def resolveDex (env : SwapEnv) (chainId userId : String) : Except String (Option Dex) :=
  match BUILTIN_DEX.lookup chainId with
  | some b => .ok (some ⟨b.name, b.router, some b.weth, UNISWAP_V2_ROUTER_ABI⟩)
  | none =>
    match env.getCustomDex userId chainId with
    | some custom =>
      match env.jsonParse custom.abi with
      | .ok abi => .ok (some ⟨custom.name, custom.router_address, custom.weth_address, abi⟩)
      | .error e => .error e
    | none => .ok none

/-- Method `toLowerCase` of a string, on the letters `A` to `Z`; no other
character has a lower case among the letters of `native`, `eth` and `bnb`
that JavaScript would compare equal here. -/
def toLowerCase (s : String) : String := ⟨s.data.map Char.toLower⟩

/-- The test `!token || token.toLowerCase() === 'native' || ... === 'eth' ||
... === 'bnb'` of `swapEVM`; a missing token and the empty string are falsy. -/
def isNative (token : Option String) : Bool :=
  match token with
  | none => true
  | some t =>
    t = "" || toLowerCase t = "native" || toLowerCase t = "eth" || toLowerCase t = "bnb"

/-- The value `BigInt(Math.floor((100 - slippage) * 100))`: the subtraction and
the product are double operations, each rounded. -/
def slippageFactor (round : ℚ → ℚ) (slippage : ℚ) : Int :=
  ⌊round (round (100 - slippage) * 100)⌋

/-- The expression `amounts[i] * BigInt(Math.floor((100 - slippage) * 100)) /
10000n`; a missing `amounts[i]` raises a `TypeError`. -/
def amountOutMin (round : ℚ → ℚ) (amounts : List Nat) (i : Nat) (slippage : ℚ) :
    Except String Int :=
  match amounts[i]? with
  | some amountOut => .ok (((amountOut : Int) * slippageFactor round slippage).tdiv 10000)
  | none => .error "Cannot mix BigInt and other types"

/-- The token a path element names when it is present (`path` elements that
are null come from a saved router without a wrapped-native address). -/
def tokenText (token : Option String) : String := token.getD ""

/-- The swap among the chain calls: amount in, minimum amount out and path of
a call of one of the three `swapExact...` methods. -/
def SwapCall.swapArgs : SwapCall → Option (Int × Int × List (Option String))
  | .swapExactETHForTokens _ amountOutMin path _ _ value => some (value, amountOutMin, path)
  | .swapExactTokensForETH _ amountIn amountOutMin path _ _ => some (amountIn, amountOutMin, path)
  | .swapExactTokensForTokens _ amountIn amountOutMin path _ _ =>
    some (amountIn, amountOutMin, path)
  | _ => none

/-- The approval step of the two token branches of `swapEVM` (lines 107-111
and 128-132): read the allowance of the router and, when it is below the
amount, approve `MaxUint256` and wait for the confirmation. -/
def ensureAllowance (env : SwapEnv) (token owner spender : String) (amountInWei : Int) :
    Run SwapCall Unit :=
  match env.allowance token owner spender with
  | .error e => ⟨.error e, [.allowance token owner spender]⟩
  | .ok allowance =>
    if allowance < amountInWei then
      match env.approve token spender MaxUint256 with
      | .error e =>
        ⟨.error e, [.allowance token owner spender, .approve token spender MaxUint256]⟩
      | .ok approveTx =>
        match env.wait approveTx with
        | .error e =>
          ⟨.error e, [.allowance token owner spender, .approve token spender MaxUint256,
            .wait approveTx]⟩
        | .ok _ =>
          ⟨.ok (), [.allowance token owner spender, .approve token spender MaxUint256,
            .wait approveTx]⟩
    else ⟨.ok (), [.allowance token owner spender]⟩

/-- The last four statements of every branch of `swapEVM`: quote the path,
compute the minimum from `amounts[index]`, submit the swap built by `mkSwap`
from that minimum, wait for the receipt. -/
def quoteAndSwap (env : SwapEnv) (dex : Dex) (amountInWei : Int) (path : List (Option String))
    (index : Nat) (slippage : ℚ) (mkSwap : Int → SwapCall) (shape : TradeShape) :
    Run SwapCall (Option SwapResult) :=
  match env.getAmountsOut dex.router amountInWei path with
  | .error e => ⟨.error e, [.getAmountsOut dex.router amountInWei path]⟩
  | .ok amounts =>
    match amountOutMin env.round amounts index slippage with
    | .error e => ⟨.error e, [.getAmountsOut dex.router amountInWei path]⟩
    | .ok minOut =>
      match env.submitSwap (mkSwap minOut) with
      | .error e => ⟨.error e, [.getAmountsOut dex.router amountInWei path, mkSwap minOut]⟩
      | .ok tx =>
        match env.wait tx with
        | .error e =>
          ⟨.error e, [.getAmountsOut dex.router amountInWei path, mkSwap minOut, .wait tx]⟩
        | .ok hash =>
          ⟨.ok (some ⟨true, some hash, false, .swapped shape dex.name⟩),
            [.getAmountsOut dex.router amountInWei path, mkSwap minOut, .wait tx]⟩

/-- The statements the two token branches of `swapEVM` share: read the
decimals of the input token, convert the amount, make sure of the allowance,
then quote and swap. -/
def swapFromToken (env : SwapEnv) (dex : Dex) (walletAddress token : String)
    (amountIn : AmountIn) (path : List (Option String)) (index : Nat) (slippage : ℚ)
    (mkSwap : Int → Int → SwapCall) (shape : TradeShape) : Run SwapCall (Option SwapResult) :=
  match env.decimals token with
  | .error e => ⟨.error e, [.decimals token]⟩
  | .ok decimals =>
    match amountIn.parseUnits decimals with
    | .error e => ⟨.error e, [.decimals token]⟩
    | .ok amountInWei =>
      match (ensureAllowance env token walletAddress dex.router amountInWei).out with
      | .error e =>
        ⟨.error e,
          .decimals token :: (ensureAllowance env token walletAddress dex.router amountInWei).calls⟩
      | .ok _ =>
        ⟨(quoteAndSwap env dex amountInWei path index slippage (mkSwap amountInWei) shape).out,
          .decimals token ::
            (ensureAllowance env token walletAddress dex.router amountInWei).calls ++
            (quoteAndSwap env dex amountInWei path index slippage (mkSwap amountInWei)
              shape).calls⟩

/-- The body of the `try` block of `swapEVM` (lines 88-141): `none` when no
trade shape matches, an error when a step throws. -/
def swapEVMBody (env : SwapEnv) (dex : Dex) (walletAddress : String)
    (fromToken toToken : Option String) (amountIn : AmountIn) (slippage : ℚ) (deadline : Nat) :
    Run SwapCall (Option SwapResult) :=
  if isNative fromToken = true ∧ isNative toToken = false then
    match amountIn.parseUnits 18 with
    | .error e => ⟨.error e, []⟩
    | .ok amountInWei =>
      quoteAndSwap env dex amountInWei [dex.weth, toToken] 1 slippage
        (fun amountOutMin => .swapExactETHForTokens dex.router amountOutMin
          [dex.weth, toToken] walletAddress deadline amountInWei)
        .nativeToToken
  else if isNative fromToken = false ∧ isNative toToken = true then
    swapFromToken env dex walletAddress (tokenText fromToken) amountIn
      [fromToken, dex.weth] 1 slippage
      (fun amountInWei amountOutMin => .swapExactTokensForETH dex.router amountInWei
        amountOutMin [fromToken, dex.weth] walletAddress deadline)
      .tokenToNative
  else if isNative fromToken = false ∧ isNative toToken = false then
    swapFromToken env dex walletAddress (tokenText fromToken) amountIn
      [fromToken, dex.weth, toToken] 2 slippage
      (fun amountInWei amountOutMin => .swapExactTokensForTokens dex.router amountInWei
        amountOutMin [fromToken, dex.weth, toToken] walletAddress deadline)
      .tokenToToken
  else ⟨.ok none, []⟩

/-- Function `swapEVM`; `slippage` is the argument after its default of `1`
has been applied, `none` standing for `undefined`.  The value is `none` when
the function returns `undefined`. -/
def swapEVM (env : SwapEnv) (privateKey : String) (fromToken toToken : Option String)
    (amountIn : AmountIn) (slippage : Option ℚ) (chainId userId : String) :
    Run SwapCall (Option SwapResult) :=
  match env.wallet privateKey with
  | .error e => ⟨.error e, []⟩
  | .ok walletAddress =>
    match resolveDex env chainId userId with
    | .error e => ⟨.error e, []⟩
    | .ok none => ⟨.ok (some ⟨false, none, true, .noDex chainId⟩), []⟩
    | .ok (some dex) =>
      let deadline := env.now / 1000 + 60 * 20
      let body := swapEVMBody env dex walletAddress fromToken toToken amountIn
        (slippage.getD 1) deadline
      match body.out with
      | .ok r => ⟨.ok r, body.calls⟩
      | .error e => ⟨.ok (some ⟨false, none, false, .error e⟩), body.calls⟩

/-- Collaborators for the examples: user `alice` saved a router for the chains
`999` and `1`, every token has 18 decimals and no allowance, the router quotes
1000 units out for every path, and every transaction confirms. -/
def sampleSwapEnv : SwapEnv where
  round := fun q => q
  now := 1700000000000
  getCustomDex := fun userId chainId =>
    if userId = "alice" ∧ (chainId = "999" ∨ chainId = "1") then
      some ⟨"MyDex", "0xRouter", some "0xWrapped", "[]"⟩
    else none
  jsonParse := fun text => if text = "[]" then .ok [] else .error "Unexpected token"
  wallet := fun _ => .ok "0xWallet"
  decimals := fun _ => .ok 18
  allowance := fun _ _ _ => .ok 0
  approve := fun _ _ _ => .ok "0xApproveTx"
  getAmountsOut := fun _ amountIn path =>
    .ok (amountIn.toNat :: List.replicate (path.length - 1) 1000)
  submitSwap := fun _ => .ok "0xSwapTx"
  wait := fun tx => .ok tx

/-- An amount of one ether (or one token of 18 decimals). -/
def oneUnit : AmountIn := ⟨fun decimals => .ok (10 ^ decimals)⟩

/-- The constant `SOL_MINT` of `swapSolana`. -/
def SOL_MINT : String := "So11111111111111111111111111111111111111112"

/-- The query of the Jupiter quote request: the mints (absent when the caller
passed none), the amount in lamports and the value put after `slippageBps=`. -/
structure JupiterQuoteRequest where
  inputMint : Option String
  outputMint : Option String
  amount : Int
  slippageBps : ℚ
deriving DecidableEq

/-- The quote Jupiter answers with; `outAmount` is absent when no route exists. -/
structure JupiterQuote where
  outAmount : Option String
deriving DecidableEq, Repr

/-- The collaborators of `swapSolana`: key handling, the Jupiter API and the
Solana connection.  `round` rounds an exact result to the nearest double. -/
structure JupiterEnv where
  round : ℚ → ℚ
  /-- Outcome of `Keypair.fromSecretKey(bs58.decode(key))`: the public key. -/
  fromSecretKey : String → Except String String
  /-- Outcome of fetching and decoding the quote. -/
  quote : JupiterQuoteRequest → Except String JupiterQuote
  /-- Outcome of fetching the swap transaction for a quote and a public key,
  decoding and signing it. -/
  swapTransaction : JupiterQuote → String → Except String String
  /-- Outcome of `connection.sendRawTransaction(tx.serialize())`. -/
  sendRawTransaction : String → Except String String
  /-- Outcome of `connection.confirmTransaction(sig, 'confirmed')`. -/
  confirmTransaction : String → Except String Unit

/-- The calls `swapSolana` makes. -/
inductive JupiterCall where
  | quote (request : JupiterQuoteRequest)
  | swapTransaction (quote : JupiterQuote) (userPublicKey : String)
  | sendRawTransaction (tx : String)
  | confirmTransaction (signature : String)
deriving DecidableEq

/-- The object returned by `swapSolana`. -/
structure JupiterResult where
  success : Bool
  txHash : Option String
  message : String
deriving DecidableEq, Repr

/-- The expression `mint === 'native' || mint === 'SOL' ? SOL_MINT : mint`. -/
def solanaMint (mint : Option String) : Option String :=
  if mint = some "native" ∨ mint = some "SOL" then some SOL_MINT else mint

/-- The body of the `try` block of `swapSolana` (lines 151-191). -/
def swapSolanaBody (env : JupiterEnv) (privateKeyBase58 : String)
    (fromMint toMint : Option String) (amountIn : ℚ) (slippage : ℚ) :
    Run JupiterCall JupiterResult :=
  match env.fromSecretKey privateKeyBase58 with
  | .error e => ⟨.error e, []⟩
  | .ok publicKey =>
    let request : JupiterQuoteRequest :=
      ⟨solanaMint fromMint, solanaMint toMint, ⌊env.round (amountIn * LAMPORTS_PER_SOL)⌋,
        slippage⟩
    match env.quote request with
    | .error e => ⟨.error e, [.quote request]⟩
    | .ok quote =>
      if quote.outAmount = none ∨ quote.outAmount = some "" then
        ⟨.error "No route found on Jupiter", [.quote request]⟩
      else
        match env.swapTransaction quote publicKey with
        | .error e => ⟨.error e, [.quote request, .swapTransaction quote publicKey]⟩
        | .ok tx =>
          match env.sendRawTransaction tx with
          | .error e =>
            ⟨.error e, [.quote request, .swapTransaction quote publicKey,
              .sendRawTransaction tx]⟩
          | .ok sig =>
            match env.confirmTransaction sig with
            | .error e =>
              ⟨.error e, [.quote request, .swapTransaction quote publicKey,
                .sendRawTransaction tx, .confirmTransaction sig]⟩
            | .ok _ =>
              ⟨.ok ⟨true, some sig,
                  "✅ Jupiter swap complete!\nTX: " ++ String.mk (sig.data.take 16) ++ "..."⟩,
                [.quote request, .swapTransaction quote publicKey,
                  .sendRawTransaction tx, .confirmTransaction sig]⟩

/-- Function `swapSolana`; `slippage` is the argument, `none` standing for
`undefined`, which the default `50` replaces.  Every error is caught. -/
def swapSolana (env : JupiterEnv) (privateKeyBase58 : String)
    (fromMint toMint : Option String) (amountIn : ℚ) (slippage : Option ℚ) :
    JupiterResult × List JupiterCall :=
  let body := swapSolanaBody env privateKeyBase58 fromMint toMint amountIn (slippage.getD 50)
  match body.out with
  | .ok r => (r, body.calls)
  | .error e => (⟨false, none, "Jupiter swap failed: " ++ e⟩, body.calls)

/-- The amount `amountIn` handed to `swap`: one JavaScript number, which the
EVM path converts with `parseUnits` and the Solana path multiplies as a
number. -/
structure SwapAmount where
  units : AmountIn
  number : ℚ

/-- The value of `swap`: what `swapEVM` or `swapSolana` returned. -/
inductive SwapOutcome where
  | evm (result : Option SwapResult)
  | solana (result : JupiterResult)
deriving DecidableEq

/-- The calls of `swap`: those of `swapEVM` or those of `swapSolana`. -/
inductive SwapServiceCall where
  | evm (call : SwapCall)
  | jupiter (call : JupiterCall)
deriving DecidableEq

/-- Function `swap`: the entry point, which hands `slippage` over unchanged. -/
def swap (senv : SwapEnv) (jenv : JupiterEnv) (chain privateKey : String)
    (fromToken toToken : Option String) (amountIn : SwapAmount) (slippage : Option ℚ)
    (chainId userId : String) : Run SwapServiceCall SwapOutcome :=
  if chain = "solana" then
    let r := swapSolana jenv privateKey fromToken toToken amountIn.number slippage
    ⟨.ok (.solana r.1), r.2.map .jupiter⟩
  else
    let r := swapEVM senv privateKey fromToken toToken amountIn.units slippage chainId userId
    ⟨match r.out with
      | .ok v => .ok (.evm v)
      | .error e => .error e,
     r.calls.map .evm⟩

/-- The values put after `slippageBps=` in the Jupiter quote requests among
the calls of `swap`. -/
def SwapServiceCall.quotedSlippage : List SwapServiceCall → List ℚ
  | [] => []
  | .jupiter (.quote request) :: cs => request.slippageBps :: SwapServiceCall.quotedSlippage cs
  | _ :: cs => SwapServiceCall.quotedSlippage cs

/-- Jupiter and a Solana connection for the examples: a route always exists
and every transaction confirms. -/
def sampleJupiterEnv : JupiterEnv where
  round := fun q => q
  fromSecretKey := fun _ => .ok "SoLWallet"
  quote := fun _ => .ok ⟨some "1000"⟩
  swapTransaction := fun _ _ => .ok "signedTx"
  sendRawTransaction := fun _ => .ok "5ig"
  confirmTransaction := fun _ => .ok ()

/-- One unit of the native currency, as a swap amount. -/
def oneSwapUnit : SwapAmount := ⟨oneUnit, 1⟩

/-! ## nftService.js -/

/-- An argument of a mint call: a number, or a string (the placeholder
`'WALLET'` before substitution, an address after it). -/
inductive JsArg where
  | number (n : Nat)
  | string (s : String)
deriving DecidableEq, Repr

/-- An entry of the constant `MINT_SIGNATURES`. -/
structure MintSignature where
  name : String
  args : List JsArg
  value : Bool
deriving DecidableEq, Repr

/-- The constant `MINT_SIGNATURES`, in the order of the source. -/
def MINT_SIGNATURES : List MintSignature :=
  [⟨"mint()", [], true⟩,
   ⟨"mint(uint256)", [.number 1], true⟩,
   ⟨"publicMint()", [], true⟩,
   ⟨"publicMint(uint256)", [.number 1], true⟩,
   ⟨"claim()", [], true⟩,
   ⟨"claim(uint256)", [.number 1], true⟩,
   ⟨"safeMint(address)", [.string "WALLET"], true⟩]

/-- The call `contract[method](...args, opts)`: the method, the arguments and
the payment of `opts` (`none` for the empty options object). -/
structure MintRequest where
  method : String
  args : List JsArg
  value : Option Int
deriving DecidableEq, Repr

/-- The NFT contract as `autoMint` uses it. -/
structure MintContract where
  /-- Outcome of `contract[method](...args, opts)` in attempt `k`: the transaction. -/
  call : Nat → MintRequest → Except String String
  /-- Outcome of `tx.wait()` in attempt `k`: the hash of the receipt. -/
  wait : Nat → String → Except String String

/-- The calls `autoMint` makes on the contract. -/
inductive MintCall where
  | call (request : MintRequest)
  | wait (tx : String)
deriving DecidableEq, Repr

/-- The mint calls attempted, among a list of contract calls. -/
def MintCall.attempts : List MintCall → List MintRequest
  | [] => []
  | .call request :: cs => request :: MintCall.attempts cs
  | .wait _ :: cs => MintCall.attempts cs

/-- The object returned by `autoMint`; `message` is present on failure. -/
structure MintResult where
  success : Bool
  txHash : Option String
  message : Option String
deriving DecidableEq, Repr

/-- The expression `sig.name.split('(')[0]`: the text before the first `(`. -/
def methodName (name : String) : String := ⟨name.data.takeWhile (fun ch => ch != '(')⟩

/-- The call `autoMint` builds for a signature (lines 79-82): `'WALLET'` is
replaced by the wallet address, and the price is attached when the signature
takes a payment and the price is positive. -/
def mintRequest (walletAddress : String) (mintPrice : Int) (sig : MintSignature) : MintRequest :=
  { method := methodName sig.name
    args := sig.args.map (fun a => if a = .string "WALLET" then .string walletAddress else a)
    value := if sig.value = true ∧ mintPrice > 0 then some mintPrice else none }

/-- The loop of `autoMint` over the signatures that are left, started at
attempt `k`; after the last signature the failure object is returned. -/
def autoMintLoop (c : MintContract) (walletAddress : String) (mintPrice : Int) :
    Nat → List MintSignature → MintResult × List MintCall
  | _, [] =>
    (⟨false, none, some "Could not find working mint function. Please provide the ABI."⟩, [])
  | k, sig :: rest =>
    let request := mintRequest walletAddress mintPrice sig
    match c.call k request with
    | .error _ =>
      let tail := autoMintLoop c walletAddress mintPrice (k + 1) rest
      (tail.1, .call request :: tail.2)
    | .ok tx =>
      match c.wait k tx with
      | .error _ =>
        let tail := autoMintLoop c walletAddress mintPrice (k + 1) rest
        (tail.1, .call request :: .wait tx :: tail.2)
      | .ok hash => (⟨true, some hash, none⟩, [.call request, .wait tx])

/-- Function `autoMint(contract, walletAddress, mintPrice)`. -/
def autoMint (c : MintContract) (walletAddress : String) (mintPrice : Int) :
    MintResult × List MintCall :=
  autoMintLoop c walletAddress mintPrice 0 MINT_SIGNATURES

/-- Attempt `k`, made with `request`, succeeds with receipt hash `hash`: the
call returns a transaction and the wait for it returns the receipt. -/
def MintContract.mints (c : MintContract) (k : Nat) (request : MintRequest) (hash : String) :
    Prop :=
  ∃ tx, c.call k request = .ok tx ∧ c.wait k tx = .ok hash

/-- A contract for the examples: it knows the method `claim` only, and its
transactions confirm. -/
def claimOnlyContract : MintContract where
  call := fun _ request => if request.method = "claim" then .ok "0xTx" else .error "no method"
  wait := fun _ tx => .ok tx

/-- The constant `ERC721_MINT_ABI`. -/
def ERC721_MINT_ABI : List String :=
  ["function mint(address to) external payable",
   "function mint(uint256 quantity) external payable",
   "function mint() external payable",
   "function publicMint(uint256 quantity) external payable",
   "function publicMint() external payable",
   "function safeMint(address to) external payable",
   "function claim(uint256 quantity) external payable",
   "function claim() external payable",
   "function price() external view returns (uint256)",
   "function mintPrice() external view returns (uint256)",
   "function cost() external view returns (uint256)",
   "function totalSupply() external view returns (uint256)",
   "function maxSupply() external view returns (uint256)",
   "function balanceOf(address owner) external view returns (uint256)",
   "function name() external view returns (string)",
   "function symbol() external view returns (string)"]

/-- The constant `priceFns` of `detectMintPrice`. -/
def priceFns : List String := ["price", "mintPrice", "cost", "PRICE", "MINT_PRICE"]

/-- The loop of `detectMintPrice` over the accessors that are left; `read fn`
is the outcome of `contract[fn]()`.  The value is the price returned and the
accessors called, in order. -/
def detectMintPriceLoop (read : String → Except String Int) : List String → Int × List String
  | [] => (0, [])
  | fn :: rest =>
    match read fn with
    | .ok price => (price, [fn])
    | .error _ =>
      ((detectMintPriceLoop read rest).1, fn :: (detectMintPriceLoop read rest).2)

/-- Function `detectMintPrice(contract)`. -/
def detectMintPrice (read : String → Except String Int) : Int × List String :=
  detectMintPriceLoop read priceFns

/-- The contract object of `mintERC721`. -/
structure Erc721Contract where
  /-- Outcome of `contract.name()`. -/
  name : Except String String
  /-- Outcome of `contract[fn]()` for a price accessor. -/
  read : String → Except String Int
  /-- The mint methods of the contract. -/
  methods : MintContract

/-- The calls `mintERC721` makes on the contract. -/
inductive Erc721Call where
  | name
  | read (fn : String)
  | mint (call : MintCall)
deriving DecidableEq, Repr

/-- The mint calls attempted, among the calls of `mintERC721`. -/
def Erc721Call.attempts : List Erc721Call → List MintRequest
  | [] => []
  | .mint (.call request) :: cs => request :: Erc721Call.attempts cs
  | _ :: cs => Erc721Call.attempts cs

/-- What the `message` of a result of `mintERC721` says: the success message
with the quantity, the collection name and the cost in wei, the message of
`autoMint`, or the error caught. -/
inductive Erc721Message where
  | minted (quantity : Nat) (collectionName : String) (cost : Int)
  | note (message : Option String)
  | failed (error : String)
deriving DecidableEq, Repr

/-- The object returned by `mintERC721`. -/
structure Erc721Result where
  success : Bool
  txHash : Option String
  message : Erc721Message
deriving DecidableEq, Repr

/-- The signer, the JSON parser and the contract factory of `mintERC721`. -/
structure MintEnv where
  /-- Outcome of `new ethers.Wallet(privateKey, provider)`: the address. -/
  wallet : String → Except String String
  /-- Outcome of `JSON.parse(customAbi)`. -/
  jsonParse : String → Except String (List String)
  /-- Outcome of `new ethers.Contract(contractAddress, abi, wallet)`. -/
  contract : String → List String → Except String Erc721Contract

/-- The collection name of `mintERC721` (lines 105-106): the name the contract
reports, or the first ten characters of its address. -/
def collectionName (c : Erc721Contract) (contractAddress : String) : String :=
  match c.name with
  | .ok name => name
  | .error _ => ⟨contractAddress.data.take 10⟩

/-- The body of the `try` block of `mintERC721` (lines 104-131).  A missing or
empty `mintFunctionName` is falsy. -/
def mintERC721Body (c : Erc721Contract) (walletAddress contractAddress : String)
    (quantity : Nat) (mintFunctionName : Option String) : Run Erc721Call Erc721Result :=
  let detected := detectMintPrice c.read
  let mintPrice := detected.1
  let totalValue := mintPrice * (quantity : Int)
  let before : List Erc721Call := .name :: detected.2.map .read
  let explicit (fn : String) : Run Erc721Call Erc721Result :=
    let request : MintRequest := ⟨fn, [.number quantity], some totalValue⟩
    match c.methods.call 0 request with
    | .error e => ⟨.error e, before ++ [.mint (.call request)]⟩
    | .ok tx =>
      match c.methods.wait 0 tx with
      | .error e => ⟨.error e, before ++ [.mint (.call request), .mint (.wait tx)]⟩
      | .ok hash =>
        ⟨.ok ⟨true, some hash, .minted quantity (collectionName c contractAddress) totalValue⟩,
          before ++ [.mint (.call request), .mint (.wait tx)]⟩
  let automatic : Run Erc721Call Erc721Result :=
    let result := autoMint c.methods walletAddress mintPrice
    if result.1.success = true then
      ⟨.ok ⟨true, result.1.txHash,
          .minted quantity (collectionName c contractAddress) totalValue⟩,
        before ++ result.2.map .mint⟩
    else ⟨.ok ⟨false, result.1.txHash, .note result.1.message⟩, before ++ result.2.map .mint⟩
  match mintFunctionName with
  | some fn => if fn = "" then automatic else explicit fn
  | none => automatic

/-- The interface description of `mintERC721` (line 100): the parsed custom
description when one is given, else `ERC721_MINT_ABI`. -/
def mintAbi (env : MintEnv) (customAbi : Option String) : Except String (List String) :=
  match customAbi with
  | some text => if text = "" then .ok ERC721_MINT_ABI else env.jsonParse text
  | none => .ok ERC721_MINT_ABI

/-- Function `mintERC721`; `quantity` is `none` when the caller passes none,
and the default `1` replaces it.  The signer and the contract object are built
before the `try` block. -/
def mintERC721 (env : MintEnv) (privateKey contractAddress : String) (quantity : Option Nat)
    (customAbi mintFunctionName : Option String) : Run Erc721Call Erc721Result :=
  match env.wallet privateKey with
  | .error e => ⟨.error e, []⟩
  | .ok walletAddress =>
    match mintAbi env customAbi with
    | .error e => ⟨.error e, []⟩
    | .ok abi =>
      match env.contract contractAddress abi with
      | .error e => ⟨.error e, []⟩
      | .ok c =>
        let body := mintERC721Body c walletAddress contractAddress (quantity.getD 1)
          mintFunctionName
        match body.out with
        | .ok r => ⟨.ok r, body.calls⟩
        | .error e => ⟨.ok ⟨false, none, .failed e⟩, body.calls⟩

/-- A contract for the examples: it is called `Apes`, reports a price of 5 wei
through `cost`, and knows the method `claim` only. -/
def apesContract : Erc721Contract where
  name := .ok "Apes"
  read := fun fn => if fn = "cost" then .ok 5 else .error "no such function"
  methods := claimOnlyContract

/-- A signer and a contract factory for the examples. -/
def sampleMintEnv : MintEnv where
  wallet := fun _ => .ok "0xWallet"
  jsonParse := fun _ => .error "Unexpected token"
  contract := fun _ _ => .ok apesContract

/-! ## taskExecutor.js -/

/-- A row of the table `wallets`. -/
structure WalletRow where
  address : String
  chain : String
  encrypted_private_key : String
deriving DecidableEq, Repr

/-- The network snapshot `chain_info` of a task set, with both spellings of
the fields the executor reads. -/
structure ChainConfig where
  rpcUrl : Option String
  rpc_url : Option String
  chainId : Option String
  chain_id : Option String
  symbol : Option String
  currency_symbol : Option String
  isTestnet : Bool
  is_testnet : Bool
  explorerUrl : Option String
  explorer_url : Option String
deriving DecidableEq, Repr

/-- A row of the table `task_sets`; `tasks` and `repeat_schedule` may be null. -/
structure TaskSet where
  id : String
  user_id : String
  chain_info : Option ChainConfig
  tasks : Option (List String)
  repeat_schedule : Option String
deriving DecidableEq, Repr

/-- The object returned by `executeTask`. -/
structure TaskResult where
  success : Bool
  txHash : Option String
  message : String
deriving DecidableEq, Repr

/-- An element of the array returned by `runTaskSet`: the result of
`executeTask` with the wallet prefix and the task, which are absent in the two
aggregate failures. -/
structure RunResult where
  wallet : Option String
  task : Option String
  success : Bool
  txHash : Option String
  message : String
deriving DecidableEq, Repr

/-- The record handed to `db.logTaskHistory`. -/
structure HistoryRecord where
  task_set_id : String
  wallet_address : String
  task_name : String
  status : String
  result : String
  tx_hash : Option String
deriving DecidableEq, Repr

/-- The text of a progress notification: the one sent before a task and the
one sent after it, with the explorer link when there is one. -/
inductive Notification where
  | started (task walletPrefix : String)
  | finished (message : String) (txLink : Option String)
deriving DecidableEq, Repr

/-- The collaborators of `taskExecutor.js`: the store, the key handling of
`wallet.js`, the error explainer of `ai.js`, the clock, and the actions behind
the `try` block of `executeTask`. -/
structure RunnerEnv where
  /-- Outcome of `db.getUserWallets(userId)`. -/
  getUserWallets : String → Except String (List WalletRow)
  /-- Outcome of `walletService.getPrivateKey(encryptedKey)`. -/
  getPrivateKey : String → Except String String
  /-- Outcome of the body of the `try` block of `executeTask` (lines 19-85) in
  invocation `k`, for the task, the wallet, the snapshot, the key and the user:
  the object it returns or the error it throws. -/
  runAction : Nat → String → WalletRow → ChainConfig → String → String →
    Except String TaskResult
  /-- Value of `explainError(err.message, task)`, which never throws. -/
  explainError : String → String → String
  /-- Outcome of `db.updateTaskSet(id, updates)`. -/
  updateTaskSet : String → Int → Option Int → Except String Unit
  /-- The instant, in epoch milliseconds, of the `n`-th `new Date()` of a run. -/
  clock : Nat → Int

/-- The calls `runTaskSet` makes. -/
inductive RunnerCall where
  | getUserWallets (userId : String)
  | sendMessage (userId : String) (text : Notification)
  | executeTask (task : String) (wallet : WalletRow)
  | logTaskHistory (userId : String) (record : HistoryRecord)
  | updateTaskSet (id : String) (last_run : Int) (next_run : Option Int)
deriving DecidableEq, Repr

/-- The calls other than progress notifications. -/
def RunnerCall.work : List RunnerCall → List RunnerCall
  | [] => []
  | .sendMessage _ _ :: cs => RunnerCall.work cs
  | c :: cs => c :: RunnerCall.work cs

/-- The final updates among a list of calls. -/
def RunnerCall.updates : List RunnerCall → List RunnerCall
  | [] => []
  | .updateTaskSet id last_run next_run :: cs =>
    .updateTaskSet id last_run next_run :: RunnerCall.updates cs
  | _ :: cs => RunnerCall.updates cs

/-- Function `getNextRun(schedule)` evaluated at the instant `now` (epoch
milliseconds); the value is the instant that the source renders with
`toISOString()`.  A null, undefined or empty schedule is falsy. -/
def getNextRun (schedule : Option String) (now : Int) : Option Int :=
  match schedule with
  | none => none
  | some s =>
    if s = "" ∨ s = "none" then none
    else if s = "daily" then some (now + 86400000)
    else if s = "weekly" then some (now + 604800000)
    else if s = "hourly" then some (now + 3600000)
    else some (now + 86400000)

/-- Function `executeTask(task, walletData, chainConfig, userId)`, invocation
`k` of a run.  The key is decrypted before the `try` block (line 13), so a
failure there is raised; an error thrown inside the block becomes a failure
result with the explanation of `explainError`. -/
def executeTask (env : RunnerEnv) (k : Nat) (task : String) (walletData : WalletRow)
    (chainConfig : ChainConfig) (userId : String) : Except String TaskResult :=
  match env.getPrivateKey walletData.encrypted_private_key with
  | .error e => .error e
  | .ok pk =>
    match env.runAction k task walletData chainConfig pk userId with
    | .ok r => .ok r
    | .error err => .ok ⟨false, none, "❌ " ++ env.explainError err task⟩

/-- The expression `wallet.address.slice(0, 10)`. -/
def addressPrefix (address : String) : String := ⟨address.data.take 10⟩

/-- The record written for a result (lines 109-113); `r.txHash || null` turns
an empty hash into null. -/
def historyRecord (taskSet : TaskSet) (wallet : WalletRow) (task : String) (r : TaskResult) :
    HistoryRecord :=
  { task_set_id := taskSet.id
    wallet_address := wallet.address
    task_name := task
    status := if r.success = true then "success" else "failed"
    result := r.message
    tx_hash := r.txHash.filter (fun h => h != "") }

/-- The object pushed on `results` (line 114). -/
def runResult (wallet : WalletRow) (task : String) (r : TaskResult) : RunResult :=
  ⟨some (addressPrefix wallet.address), some task, r.success, r.txHash, r.message⟩

/-- The notification sent after a task (lines 116-120). -/
def finishedNotification (chainConfig : ChainConfig) (r : TaskResult) : Notification :=
  let explorerUrl := match chainConfig.explorerUrl with
    | some u => if u = "" then chainConfig.explorer_url else some u
    | none => chainConfig.explorer_url
  .finished r.message
    (match explorerUrl, r.txHash with
     | some u, some h => if u = "" ∨ h = "" then none else some (u ++ "/tx/" ++ h)
     | _, _ => none)

/-- The inner loop of `runTaskSet` over the tasks that are left for one wallet,
started at invocation `k`.  The notification outcomes are discarded by
`.catch(() => ...)`, so only the sending is recorded. -/
def runTasks (env : RunnerEnv) (taskSet : TaskSet) (telegramBot : Bool)
    (chainConfig : ChainConfig) (wallet : WalletRow) :
    Nat → List String → Except String (List RunResult) × List RunnerCall
  | _, [] => (.ok [], [])
  | k, task :: rest =>
    let before : List RunnerCall :=
      if telegramBot = true then
        [.sendMessage taskSet.user_id (.started task (addressPrefix wallet.address))]
      else []
    match executeTask env k task wallet chainConfig taskSet.user_id with
    | .error e => (.error e, before ++ [.executeTask task wallet])
    | .ok r =>
      let after : List RunnerCall :=
        if telegramBot = true then
          [.sendMessage taskSet.user_id (finishedNotification chainConfig r)]
        else []
      let here := before ++
        [.executeTask task wallet,
          .logTaskHistory taskSet.user_id (historyRecord taskSet wallet task r)] ++ after
      let tail := runTasks env taskSet telegramBot chainConfig wallet (k + 1) rest
      (match tail.1 with
       | .ok rs => .ok (runResult wallet task r :: rs)
       | .error e => .error e,
       here ++ tail.2)

/-- The outer loop of `runTaskSet` over the wallets that are left, started at
invocation `k`. -/
def runWallets (env : RunnerEnv) (taskSet : TaskSet) (telegramBot : Bool)
    (chainConfig : ChainConfig) (tasks : List String) :
    Nat → List WalletRow → Except String (List RunResult) × List RunnerCall
  | _, [] => (.ok [], [])
  | k, wallet :: rest =>
    let inner := runTasks env taskSet telegramBot chainConfig wallet k tasks
    match inner.1 with
    | .error e => (.error e, inner.2)
    | .ok rs =>
      let tail := runWallets env taskSet telegramBot chainConfig tasks (k + tasks.length) rest
      (match tail.1 with
       | .ok more => .ok (rs ++ more)
       | .error e => .error e,
       inner.2 ++ tail.2)

/-- Function `runTaskSet(taskSet, telegramBot)`; `telegramBot` tells whether a
bot was passed. -/
def runTaskSet (env : RunnerEnv) (taskSet : TaskSet) (telegramBot : Bool) :
    Run RunnerCall (List RunResult) :=
  match taskSet.chain_info with
  | none => ⟨.ok [⟨none, none, false, none, "No chain config for this task set."⟩], []⟩
  | some chainConfig =>
    match env.getUserWallets taskSet.user_id with
    | .error e => ⟨.error e, [.getUserWallets taskSet.user_id]⟩
    | .ok wallets =>
      if wallets.length = 0 then
        ⟨.ok [⟨none, none, false, none, "No wallets found."⟩],
          [.getUserWallets taskSet.user_id]⟩
      else
        let loop := runWallets env taskSet telegramBot chainConfig (taskSet.tasks.getD []) 0
          (wallets.take 5)
        match loop.1 with
        | .error e => ⟨.error e, .getUserWallets taskSet.user_id :: loop.2⟩
        | .ok results =>
          let nextRun := getNextRun taskSet.repeat_schedule (env.clock 0)
          let lastRun := env.clock 1
          let calls := .getUserWallets taskSet.user_id :: loop.2 ++
            [.updateTaskSet taskSet.id lastRun nextRun]
          match env.updateTaskSet taskSet.id lastRun nextRun with
          | .error e => ⟨.error e, calls⟩
          | .ok _ => ⟨.ok results, calls⟩

/-- The (account, task) pairs of a run in the order of the specification:
accounts outer, tasks inner, over the first five accounts at most. -/
def taskPairs (accounts : List WalletRow) (tasks : List String) : List (WalletRow × String) :=
  (accounts.take 5).flatMap (fun w => tasks.map (fun t => (w, t)))

/-- The results `rs` are what `executeTask` returned for the pairs `ps`, the
first pair in invocation `k`, the next in invocation `k + 1`, and so on. -/
def returnedFrom (env : RunnerEnv) (chainConfig : ChainConfig) (userId : String) :
    Nat → List (WalletRow × String) → List TaskResult → Prop
  | _, [], [] => True
  | k, p :: ps, r :: rs =>
    executeTask env k p.2 p.1 chainConfig userId = .ok r ∧
      returnedFrom env chainConfig userId (k + 1) ps rs
  | _, _, _ => False

/-- The calls of one (account, task) pair: the invocation of `executeTask` and
the history record written for its result. -/
def pairCalls (taskSet : TaskSet) (p : WalletRow × String) (r : TaskResult) : List RunnerCall :=
  [.executeTask p.2 p.1, .logTaskHistory taskSet.user_id (historyRecord taskSet p.1 p.2 r)]

/-- A store and key handling for the examples: the user has the wallets
`0xAlice000001` and `0xBob00000002`, the key `broken` does not decrypt, the
task `swap` throws inside the `try` block and every other task succeeds. -/
def sampleRunnerEnv (broken : String) : RunnerEnv where
  getUserWallets := fun _ =>
    .ok [⟨"0xAlice000001", "evm", "keyA"⟩, ⟨"0xBob00000002", "evm", "keyB"⟩]
  getPrivateKey := fun key =>
    if key = broken then .error "unable to authenticate data" else .ok key
  runAction := fun _ task _ _ _ _ =>
    if task = "swap" then .error "No route" else .ok ⟨true, none, "done"⟩
  explainError := fun _ _ => "Something went wrong."
  updateTaskSet := fun _ _ _ => .ok ()
  clock := fun n => 1700000000000 + n

/-- A task set for the examples: two tasks, repeated daily. -/
def sampleTaskSet : TaskSet where
  id := "set-1"
  user_id := "42"
  chain_info := some ⟨some "https://rpc", none, some "1", none, some "ETH", none, false, false,
    none, none⟩
  tasks := some ["check balance", "swap"]
  repeat_schedule := some "daily"

/-! ### The `try` block of `executeTask` -/

/-- The text starts with the pattern. -/
def startsWithChars : List Char → List Char → Bool
  | _, [] => true
  | [], _ :: _ => false
  | c :: cs, p :: ps => c == p && startsWithChars cs ps

/-- The pattern occurs in the text. -/
def includesChars : List Char → List Char → Bool
  | [], pattern => pattern.isEmpty
  | c :: cs, pattern => startsWithChars (c :: cs) pattern || includesChars cs pattern

/-- Method `includes` of a string. -/
def includes (text pattern : String) : Bool := includesChars text.data pattern.data

/-- The characters matched by `\s` in a regular expression. -/
def isJsSpace (c : Char) : Bool :=
  c.val = 0x09 || c.val = 0x0A || c.val = 0x0B || c.val = 0x0C || c.val = 0x0D ||
  c.val = 0x20 || c.val = 0xA0 || c.val = 0x1680 || (0x2000 ≤ c.val && c.val ≤ 0x200A) ||
  c.val = 0x2028 || c.val = 0x2029 || c.val = 0x202F || c.val = 0x205F || c.val = 0x3000 ||
  c.val = 0xFEFF

/-- The characters matched by `[a-fA-F0-9]`. -/
def isHexChar (c : Char) : Bool :=
  c.isDigit || ('a' ≤ c && c ≤ 'f') || ('A' ≤ c && c ≤ 'F')

/-- The characters matched by `[1-9A-HJ-NP-Za-km-z]` under the flag `i`: the
digits `1` to `9` and, case being ignored, every letter from `A` to `Z`. -/
def isBase58Char (c : Char) : Bool :=
  ('1' ≤ c && c ≤ '9') || c.isAlpha

/-- The text matched by `\d+\.?\d*` at the start of a text that starts with a
digit: the digits, a dot when one follows, and the digits after the dot. -/
def amountLiteral (cs : List Char) : List Char :=
  match cs.dropWhile Char.isDigit with
  | '.' :: rest => cs.takeWhile Char.isDigit ++ '.' :: rest.takeWhile Char.isDigit
  | _ => cs.takeWhile Char.isDigit

/-- The group of the first match of `/(\d+\.?\d*)/`, or none. -/
def matchAmount : List Char → Option (List Char)
  | [] => none
  | c :: cs => if c.isDigit = true then some (amountLiteral (c :: cs)) else matchAmount cs

/-- The text matched by `0x[a-fA-F0-9]{40}` at the start of a text; under the
flag `i` the `x` may be a capital. -/
def hexAddressAt (ignoreCase : Bool) : List Char → Option (List Char)
  | '0' :: x :: rest =>
    if (x = 'x' || (ignoreCase && x = 'X')) && (rest.take 40).length = 40 &&
        (rest.take 40).all isHexChar then
      some ('0' :: x :: rest.take 40)
    else none
  | _ => none

/-- The group of the first match of `/(0x[a-fA-F0-9]{40})/`, or none. -/
def matchContract : List Char → Option (List Char)
  | [] => none
  | c :: cs =>
    match hexAddressAt false (c :: cs) with
    | some address => some address
    | none => matchContract cs

/-- The rest of a text that starts with the keyword, case being ignored, and
one or more spaces: what follows the spaces. -/
def afterKeyword (keyword cs : List Char) : Option (List Char) :=
  if startsWithChars (cs.map Char.toLower) keyword = true then
    match cs.drop keyword.length with
    | s :: rest => if isJsSpace s = true then some (rest.dropWhile isJsSpace) else none
    | [] => none
  else none

/-- The group of the first match of `/for\s+(0x[a-fA-F0-9]{40})/i`, or none. -/
def matchFor : List Char → Option (List Char)
  | [] => none
  | c :: cs =>
    match (afterKeyword ['f', 'o', 'r'] (c :: cs)).bind (hexAddressAt true) with
    | some address => some address
    | none => matchFor cs

/-- The text matched by `0x[a-fA-F0-9]{40}|[1-9A-HJ-NP-Za-km-z]{32,44}` under
the flag `i` at the start of a text. -/
def destinationAt (cs : List Char) : Option (List Char) :=
  match hexAddressAt true cs with
  | some address => some address
  | none =>
    if 32 ≤ (cs.takeWhile isBase58Char).length then some ((cs.takeWhile isBase58Char).take 44)
    else none

/-- The group of the first match of
`/to\s+(0x[a-fA-F0-9]{40}|[1-9A-HJ-NP-Za-km-z]{32,44})/i`, or none. -/
def matchTo : List Char → Option (List Char)
  | [] => none
  | c :: cs =>
    match (afterKeyword ['t', 'o'] (c :: cs)).bind destinationAt with
    | some destination => some destination
    | none => matchTo cs

/-- The expression `a || b` on strings that may be missing: the first one that
is neither missing nor empty. -/
def orElse (a b : Option String) : Option String :=
  match a with
  | some s => if s = "" then b else some s
  | none => b

/-- The value `DEFAULT_CHAINS.ethereum.rpcUrl` of `config/chains.js`. -/
def DEFAULT_RPC_URL : String := "https://eth.llamarpc.com"

/-- The expression `chainConfig?.rpcUrl || chainConfig?.rpc_url ||
DEFAULT_CHAINS.ethereum.rpcUrl` (line 14). -/
def taskRpcUrl (chainConfig : ChainConfig) : String :=
  (orElse (orElse chainConfig.rpcUrl chainConfig.rpc_url) (some DEFAULT_RPC_URL)).getD
    DEFAULT_RPC_URL

/-- The expression `chainConfig?.chainId || chainConfig?.chain_id || '1'`
(line 15). -/
def taskChainId (chainConfig : ChainConfig) : String :=
  (orElse (orElse chainConfig.chainId chainConfig.chain_id) (some "1")).getD "1"

/-- The amount handed to the swap executor by a swap task: the number parsed
from the literal found in the text, or the constant `0.001` when the text has
none. -/
inductive TaskAmount where
  | parsed (literal : String)
  | preset
deriving DecidableEq, Repr

/-- The argument object of the call of `swap` in `executeTask` (lines 26-34). -/
structure SwapTaskArgs where
  chain : String
  privateKey : String
  fromToken : String
  toToken : String
  amountIn : TaskAmount
  slippage : ℚ
  rpcUrl : String
  chainId : String
  userId : String
deriving DecidableEq

/-- The argument object of the call of `mint` in `executeTask` (lines 41-46). -/
structure MintTaskArgs where
  type : String
  privateKey : String
  contractAddress : Option String
  rpcUrl : String
  chainId : String
  userId : String
deriving DecidableEq, Repr

/-- The functions the `try` block of `executeTask` calls: the swap and mint
executors and the chain adapter of `wallet.js`, each by its outcome, and the
case mapping of the runtime.  The swap executor may return `undefined`. -/
structure ActionEnv where
  toLowerCase : String → String
  swap : SwapTaskArgs → Except String (Option TaskResult)
  mint : MintTaskArgs → Except String TaskResult
  requestSolanaAirdrop : String → String → Except String String
  fundAptosTestnet : String → Except String Unit
  getBalance : String → String → String → Except String String
  sendSolanaTokens : String → String → String → String → Except String String
  sendEVMTokens : String → String → String → String → Except String String

/-- The calls the `try` block of `executeTask` makes.  The amount of a
transfer is the literal found in the text, which the source parses with
`parseFloat`. -/
inductive ActionCall where
  | swap (args : SwapTaskArgs)
  | mint (args : MintTaskArgs)
  | requestSolanaAirdrop (address rpcUrl : String)
  | fundAptosTestnet (address : String)
  | getBalance (address chain rpcUrl : String)
  | sendSolanaTokens (privateKey toAddress amount rpcUrl : String)
  | sendEVMTokens (privateKey toAddress amount rpcUrl : String)
deriving DecidableEq

/-- The argument object of the call of `swap` (lines 24-34): the token after
`for` or `'native'`, and the amount found in the text or `0.001`. -/
def swapTaskArgs (task : String) (walletData : WalletRow) (pk rpcUrl chainId userId : String) :
    SwapTaskArgs :=
  { chain := walletData.chain
    privateKey := pk
    fromToken := "native"
    toToken := match matchFor task.data with
      | some token => String.mk token
      | none => "native"
    amountIn := match matchAmount task.data with
      | some literal => .parsed (String.mk literal)
      | none => .preset
    slippage := 1
    rpcUrl := rpcUrl
    chainId := chainId
    userId := userId }

/-- The swap branch of `executeTask` (lines 23-36).  Reading `success` of an
undefined swap result raises a `TypeError`. -/
def swapTask (env : ActionEnv) (task : String) (walletData : WalletRow) (pk rpcUrl chainId
    userId : String) : Run ActionCall TaskResult :=
  match env.swap (swapTaskArgs task walletData pk rpcUrl chainId userId) with
  | .error e => ⟨.error e, [.swap (swapTaskArgs task walletData pk rpcUrl chainId userId)]⟩
  | .ok none =>
    ⟨.error "Cannot read properties of undefined (reading 'success')",
      [.swap (swapTaskArgs task walletData pk rpcUrl chainId userId)]⟩
  | .ok (some swapResult) =>
    ⟨.ok ⟨swapResult.success, swapResult.txHash, swapResult.message⟩,
      [.swap (swapTaskArgs task walletData pk rpcUrl chainId userId)]⟩

/-- The argument object of the call of `mint` (lines 40-46); `t` is the
lower-cased task. -/
def mintTaskArgs (task t : String) (pk rpcUrl chainId userId : String) : MintTaskArgs :=
  { type := if includes t "1155" = true then "ERC1155"
      else if includes t "domain" = true then "DOMAIN" else "ERC721"
    privateKey := pk
    contractAddress := (matchContract task.data).map String.mk
    rpcUrl := rpcUrl
    chainId := chainId
    userId := userId }

/-- The mint branch of `executeTask` (lines 39-48). -/
def mintTask (env : ActionEnv) (task t : String) (pk rpcUrl chainId userId : String) :
    Run ActionCall TaskResult :=
  match env.mint (mintTaskArgs task t pk rpcUrl chainId userId) with
  | .error e => ⟨.error e, [.mint (mintTaskArgs task t pk rpcUrl chainId userId)]⟩
  | .ok mintResult =>
    ⟨.ok ⟨mintResult.success, mintResult.txHash, mintResult.message⟩,
      [.mint (mintTaskArgs task t pk rpcUrl chainId userId)]⟩

/-- The faucet branch of `executeTask` (lines 51-61). -/
def faucetTask (env : ActionEnv) (walletData : WalletRow) (chainConfig : ChainConfig)
    (rpcUrl : String) : Run ActionCall TaskResult :=
  if walletData.chain = "solana" then
    match env.requestSolanaAirdrop walletData.address rpcUrl with
    | .error e => ⟨.error e, [.requestSolanaAirdrop walletData.address rpcUrl]⟩
    | .ok sig =>
      ⟨.ok ⟨true, some sig, "✅ Claimed 1 SOL faucet"⟩,
        [.requestSolanaAirdrop walletData.address rpcUrl]⟩
  else if walletData.chain = "aptos" ∧
      (chainConfig.isTestnet = true ∨ chainConfig.is_testnet = true) then
    match env.fundAptosTestnet walletData.address with
    | .error e => ⟨.error e, [.fundAptosTestnet walletData.address]⟩
    | .ok _ =>
      ⟨.ok ⟨true, none, "✅ Aptos testnet faucet claimed"⟩,
        [.fundAptosTestnet walletData.address]⟩
  else ⟨.ok ⟨false, none, "⚠️ EVM faucet needs contract address"⟩, []⟩

/-- The balance branch of `executeTask` (lines 64-67). -/
def balanceTask (env : ActionEnv) (walletData : WalletRow) (chainConfig : ChainConfig)
    (rpcUrl : String) : Run ActionCall TaskResult :=
  match env.getBalance walletData.address walletData.chain rpcUrl with
  | .error e => ⟨.error e, [.getBalance walletData.address walletData.chain rpcUrl]⟩
  | .ok bal =>
    ⟨.ok ⟨true, none, "💰 Balance: " ++ bal ++ " " ++
        ((orElse (orElse chainConfig.symbol chainConfig.currency_symbol) (some "")).getD "")⟩,
      [.getBalance walletData.address walletData.chain rpcUrl]⟩

/-- The send branch of `executeTask` (lines 70-80). -/
def sendTask (env : ActionEnv) (task : String) (walletData : WalletRow) (pk rpcUrl : String) :
    Run ActionCall TaskResult :=
  match matchAmount task.data, matchTo task.data with
  | some amount, some destination =>
    if walletData.chain = "solana" then
      match env.sendSolanaTokens pk (String.mk destination) (String.mk amount) rpcUrl with
      | .error e =>
        ⟨.error e, [.sendSolanaTokens pk (String.mk destination) (String.mk amount) rpcUrl]⟩
      | .ok sig =>
        ⟨.ok ⟨true, some sig, "✅ Sent " ++ String.mk amount ++ " SOL"⟩,
          [.sendSolanaTokens pk (String.mk destination) (String.mk amount) rpcUrl]⟩
    else
      match env.sendEVMTokens pk (String.mk destination) (String.mk amount) rpcUrl with
      | .error e =>
        ⟨.error e, [.sendEVMTokens pk (String.mk destination) (String.mk amount) rpcUrl]⟩
      | .ok hash =>
        ⟨.ok ⟨true, some hash, "✅ Sent " ++ String.mk amount ++ " ETH"⟩,
          [.sendEVMTokens pk (String.mk destination) (String.mk amount) rpcUrl]⟩
  | _, _ => ⟨.ok ⟨false, none, "⚠️ Specify amount and destination for send"⟩, []⟩

/-- The body of the `try` block of `executeTask` (lines 19-85): the value it
returns or the error it throws, and the calls it makes. -/
def executeTaskBody (env : ActionEnv) (task : String) (walletData : WalletRow)
    (chainConfig : ChainConfig) (pk userId : String) : Run ActionCall TaskResult :=
  let rpcUrl := taskRpcUrl chainConfig
  let chainId := taskChainId chainConfig
  let t := env.toLowerCase task
  if includes t "swap" = true then
    swapTask env task walletData pk rpcUrl chainId userId
  else if includes t "mint" = true ∨ includes t "nft" = true then
    mintTask env task t pk rpcUrl chainId userId
  else if includes t "faucet" = true ∨ includes t "claim" = true then
    faucetTask env walletData chainConfig rpcUrl
  else if includes t "balance" = true ∨ includes t "check" = true then
    balanceTask env walletData chainConfig rpcUrl
  else if includes t "send" = true ∨ includes t "transfer" = true then
    sendTask env task walletData pk rpcUrl
  else
    ⟨.ok ⟨true, none,
      "✅ Task noted: \"" ++ task ++ "\" — may need browser automation (V2 feature)"⟩, []⟩

/-- The collaborators of `taskExecutor.js` in which the `try` block of
invocation `k` of `executeTask` runs `executeTaskBody` on the functions
`actions k`. -/
def actionRunner (base : RunnerEnv) (actions : Nat → ActionEnv) : RunnerEnv :=
  { base with
    runAction := fun k task walletData chainConfig pk userId =>
      (executeTaskBody (actions k) task walletData chainConfig pk userId).out }

/-- The kinds of action of the task executor. -/
inductive ActionKind where
  | swap
  | mint
  | faucet
  | balance
  | send
  | generic
deriving DecidableEq, Repr

/-- The classification of a lower-cased task text as the specification states
it: the first rule that matches, in the order swap, mint, faucet, balance,
send, and the generic action when none does. -/
def classify (t : String) : ActionKind :=
  if includes t "swap" = true then .swap
  else if includes t "mint" = true ∨ includes t "nft" = true then .mint
  else if includes t "faucet" = true ∨ includes t "claim" = true then .faucet
  else if includes t "balance" = true ∨ includes t "check" = true then .balance
  else if includes t "send" = true ∨ includes t "transfer" = true then .send
  else .generic

/-- The kind of action a call of the `try` block belongs to. -/
def ActionCall.kind : ActionCall → ActionKind
  | .swap _ => .swap
  | .mint _ => .mint
  | .requestSolanaAirdrop _ _ => .faucet
  | .fundAptosTestnet _ => .faucet
  | .getBalance _ _ _ => .balance
  | .sendSolanaTokens _ _ _ _ => .send
  | .sendEVMTokens _ _ _ _ => .send

/-- Executors and a chain adapter for the examples: every call succeeds, the
swap executor returns nothing, and case mapping is that of the letters `A` to
`Z`. -/
def sampleActionEnv : ActionEnv where
  toLowerCase := toLowerCase
  swap := fun _ => .ok none
  mint := fun _ => .ok ⟨true, some "0xMintTx", "minted"⟩
  requestSolanaAirdrop := fun _ _ => .ok "airdropSig"
  fundAptosTestnet := fun _ => .ok ()
  getBalance := fun _ _ _ => .ok "1.5"
  sendSolanaTokens := fun _ _ _ _ => .ok "sendSig"
  sendEVMTokens := fun _ _ _ _ => .ok "0xSendTx"

/-- An EVM wallet and a network snapshot for the examples. -/
def sampleWallet : WalletRow := ⟨"0xAlice000001", "evm", "keyA"⟩

/-- A network snapshot without chain id, for the examples. -/
def sampleChainConfig : ChainConfig :=
  ⟨some "https://rpc", none, none, none, some "ETH", none, false, false, none, none⟩

/-! ### The notifications of `runTaskSet` -/

/-- What a call `telegramBot.sendMessage(...)` does: it returns a promise that
is fulfilled or rejected, or it raises instead of returning one, as the call of
a method the object does not have does. -/
inductive SendOutcome where
  | fulfilled
  | rejected (reason : String)
  | raised (error : String)
deriving DecidableEq, Repr

/-- The statement `await telegramBot.sendMessage(...).catch(() => ...)` (lines
105 and 119) for the send number `n` of a run, under the guard
`if (telegramBot)`: the handler of `.catch` swallows a rejection; an error
raised by the call itself is not a rejection and leaves `runTaskSet`. -/
def notify (channel : Option (Nat → SendOutcome)) (n : Nat) (userId : String)
    (text : Notification) : Except String Unit × List RunnerCall :=
  match channel with
  | none => (.ok (), [])
  | some send =>
    match send n with
    | .fulfilled => (.ok (), [.sendMessage userId text])
    | .rejected _ => (.ok (), [.sendMessage userId text])
    | .raised e => (.error e, [])

/-- The inner loop of `runTaskSet` with the outcomes of the notifications: the
sends of invocation `k` are the sends number `2 * k` and `2 * k + 1`. -/
def runTasksVia (env : RunnerEnv) (taskSet : TaskSet) (channel : Option (Nat → SendOutcome))
    (chainConfig : ChainConfig) (wallet : WalletRow) :
    Nat → List String → Except String (List RunResult) × List RunnerCall
  | _, [] => (.ok [], [])
  | k, task :: rest =>
    let before := notify channel (2 * k) taskSet.user_id
      (.started task (addressPrefix wallet.address))
    match before.1 with
    | .error e => (.error e, before.2)
    | .ok _ =>
      match executeTask env k task wallet chainConfig taskSet.user_id with
      | .error e => (.error e, before.2 ++ [.executeTask task wallet])
      | .ok r =>
        let after := notify channel (2 * k + 1) taskSet.user_id
          (finishedNotification chainConfig r)
        let here := before.2 ++
          [.executeTask task wallet,
            .logTaskHistory taskSet.user_id (historyRecord taskSet wallet task r)] ++ after.2
        match after.1 with
        | .error e => (.error e, here)
        | .ok _ =>
          let tail := runTasksVia env taskSet channel chainConfig wallet (k + 1) rest
          (match tail.1 with
           | .ok rs => .ok (runResult wallet task r :: rs)
           | .error e => .error e,
           here ++ tail.2)

/-- The outer loop of `runTaskSet` with the outcomes of the notifications. -/
def runWalletsVia (env : RunnerEnv) (taskSet : TaskSet) (channel : Option (Nat → SendOutcome))
    (chainConfig : ChainConfig) (tasks : List String) :
    Nat → List WalletRow → Except String (List RunResult) × List RunnerCall
  | _, [] => (.ok [], [])
  | k, wallet :: rest =>
    let inner := runTasksVia env taskSet channel chainConfig wallet k tasks
    match inner.1 with
    | .error e => (.error e, inner.2)
    | .ok rs =>
      let tail := runWalletsVia env taskSet channel chainConfig tasks (k + tasks.length) rest
      (match tail.1 with
       | .ok more => .ok (rs ++ more)
       | .error e => .error e,
       inner.2 ++ tail.2)

/-- Function `runTaskSet(taskSet, telegramBot)` with the outcomes of the
notifications: `channel` is `none` for a missing bot, and otherwise tells what
each call of `telegramBot.sendMessage` does. -/
def runTaskSetVia (env : RunnerEnv) (taskSet : TaskSet) (channel : Option (Nat → SendOutcome)) :
    Run RunnerCall (List RunResult) :=
  match taskSet.chain_info with
  | none => ⟨.ok [⟨none, none, false, none, "No chain config for this task set."⟩], []⟩
  | some chainConfig =>
    match env.getUserWallets taskSet.user_id with
    | .error e => ⟨.error e, [.getUserWallets taskSet.user_id]⟩
    | .ok wallets =>
      if wallets.length = 0 then
        ⟨.ok [⟨none, none, false, none, "No wallets found."⟩],
          [.getUserWallets taskSet.user_id]⟩
      else
        let loop := runWalletsVia env taskSet channel chainConfig (taskSet.tasks.getD []) 0
          (wallets.take 5)
        match loop.1 with
        | .error e => ⟨.error e, .getUserWallets taskSet.user_id :: loop.2⟩
        | .ok results =>
          let nextRun := getNextRun taskSet.repeat_schedule (env.clock 0)
          let lastRun := env.clock 1
          let calls := .getUserWallets taskSet.user_id :: loop.2 ++
            [.updateTaskSet taskSet.id lastRun nextRun]
          match env.updateTaskSet taskSet.id lastRun nextRun with
          | .error e => ⟨.error e, calls⟩
          | .ok _ => ⟨.ok results, calls⟩

/-- The `Telegraf` instance that `index.js` hands to `initScheduler` and the
scheduler hands to `runTaskSet`: the scheduler itself sends through
`bot.telegram.sendMessage`; the instance has no method `sendMessage`, so every
call `telegramBot.sendMessage(...)` raises a `TypeError`. -/
def telegrafBot : Nat → SendOutcome :=
  fun _ => .raised "telegramBot.sendMessage is not a function"

/-- A channel for the examples whose sends with an even number are rejected. -/
def flakyChannel : Nat → SendOutcome :=
  fun n => if n % 2 = 0 then .rejected "ETELEGRAM: 403 Forbidden" else .fulfilled

/-! ### The swap executor behind `executeTask` -/

/-- The text of the `message` of a result of `swapEVM`; `amountText` is the
rendering of `amountIn` in the template literal. -/
def SwapMessage.text (amountText : String) : SwapMessage → String
  | .noDex chainId =>
    "No DEX found for chain " ++ chainId ++ ". I need the router address to proceed."
  | .swapped .nativeToToken dexName =>
    "✅ Swapped " ++ amountText ++ " native → token\nDEX: " ++ dexName
  | .swapped .tokenToNative dexName =>
    "✅ Swapped " ++ amountText ++ " token → native\nDEX: " ++ dexName
  | .swapped .tokenToToken dexName => "✅ Swapped token → token\nDEX: " ++ dexName
  | .error message => message

/-- How the amount of a swap task reads as the JavaScript number handed to
`swap`: the observations the swap functions make of it, and its rendering in a
template literal. -/
structure AmountReader where
  amount : TaskAmount → SwapAmount
  text : TaskAmount → String

/-- The call of `swap` that `executeTask` makes with its argument object
(lines 26-34); the provider of `rpcUrl` is the one of the collaborators. -/
def swapRun (senv : SwapEnv) (jenv : JupiterEnv) (reader : AmountReader) (args : SwapTaskArgs) :
    Run SwapServiceCall SwapOutcome :=
  swap senv jenv args.chain args.privateKey (some args.fromToken) (some args.toToken)
    (reader.amount args.amountIn) (some args.slippage) args.chainId args.userId

/-- The fields `success`, `txHash` and `message` of the value of `swap`, as
`executeTask` reads them (line 35); nothing when the value is `undefined`. -/
def swapResultOf (amountText : String) : SwapOutcome → Option TaskResult
  | .evm none => none
  | .evm (some r) => some ⟨r.success, r.txHash, r.message.text amountText⟩
  | .solana r => some ⟨r.success, r.txHash, r.message⟩

/-- The functions behind the `try` block of `executeTask` in which the swap
executor is the function `swap` of `swapService.js`. -/
def swapAction (senv : SwapEnv) (jenv : JupiterEnv) (reader : AmountReader) (other : ActionEnv) :
    ActionEnv :=
  { other with
    swap := fun args =>
      match (swapRun senv jenv reader args).out with
      | .ok value => .ok (swapResultOf (reader.text args.amountIn) value)
      | .error e => .error e }

/-- An amount reader for the examples: every amount reads as one unit. -/
def sampleReader : AmountReader := ⟨fun _ => oneSwapUnit, fun _ => "1"⟩

/-! ## scheduler.js -/

/-- The object kept in the module variable `bot` and handed to `runTaskSet`.
The scheduler itself notifies through `bot.telegram.sendMessage`; `runTaskSet`
calls `telegramBot.sendMessage`, and `sendMessage` tells whether the object
has that method (the `ctx.telegram` client of `taskHandler.js` has it, the
`Telegraf` instance that `index.js` passes to `initScheduler` has not). -/
structure BotObject where
  sendMessage : Bool
deriving DecidableEq, Repr

/-- Function `runTaskSet(taskSet, telegramBot)` for any bot argument.  With an
object that has no method `sendMessage`, the first notification of the loop
(line 105) raises a `TypeError` before the first task is executed; without
tasks or accounts no notification is reached. -/
def runTaskSetWith (env : RunnerEnv) (taskSet : TaskSet) (telegramBot : Option BotObject) :
    Run RunnerCall (List RunResult) :=
  match telegramBot with
  | none => runTaskSet env taskSet false
  | some bot =>
    if bot.sendMessage = true then runTaskSet env taskSet true
    else
      match taskSet.chain_info, env.getUserWallets taskSet.user_id with
      | some _, .ok wallets =>
        if wallets.length = 0 ∨ (taskSet.tasks.getD []).length = 0 then
          runTaskSet env taskSet true
        else
          ⟨.error "telegramBot.sendMessage is not a function",
            [.getUserWallets taskSet.user_id]⟩
      | _, _ => runTaskSet env taskSet true

/-- The text of a notification of the scheduler: before a task set is run, and
after it with the numbers of successes and failures. -/
inductive SchedulerNotice where
  | running (taskSet : TaskSet)
  | completed (taskSet : TaskSet) (successCount failCount : Nat)
deriving DecidableEq, Repr

/-- The collaborators of a scheduler tick: the query for the due task sets and,
for the `n`-th task set of the tick, the collaborators of its run. -/
structure SchedulerEnv where
  /-- Outcome of `db.getActiveDueTaskSets()`. -/
  getActiveDueTaskSets : Except String (List TaskSet)
  runner : Nat → RunnerEnv

/-- What a scheduler tick does: the query, the notifications, the task sets it
hands to `runTaskSet` with the calls of each run, and the error it logs. -/
inductive SchedulerCall where
  | getActiveDueTaskSets
  | sendMessage (userId : String) (text : SchedulerNotice)
  | runTaskSet (taskSet : TaskSet) (calls : List RunnerCall)
  | logError (message : String)
deriving DecidableEq, Repr

/-- The task sets handed to `runTaskSet`, in order. -/
def SchedulerCall.handed : List SchedulerCall → List TaskSet
  | [] => []
  | .runTaskSet taskSet _ :: cs => taskSet :: SchedulerCall.handed cs
  | _ :: cs => SchedulerCall.handed cs

/-- The notifications sent by the scheduler itself. -/
def SchedulerCall.notices : List SchedulerCall → List SchedulerNotice
  | [] => []
  | .sendMessage _ text :: cs => text :: SchedulerCall.notices cs
  | _ :: cs => SchedulerCall.notices cs

/-- The calls made inside the runs of a tick (store, tasks, notifications). -/
def SchedulerCall.runnerCalls : List SchedulerCall → List RunnerCall
  | [] => []
  | .runTaskSet _ calls :: cs => calls ++ SchedulerCall.runnerCalls cs
  | _ :: cs => SchedulerCall.runnerCalls cs

/-- The loop `for (const taskSet of dueTasks)` of the tick (lines 16-42),
started at the `n`-th task set.  It sits inside the `try` block, so an error
raised by `runTaskSet` ends it. -/
def tickLoop (env : SchedulerEnv) (bot : Option BotObject) :
    Nat → List TaskSet → Except String Unit × List SchedulerCall
  | _, [] => (.ok (), [])
  | n, taskSet :: rest =>
    let before : List SchedulerCall :=
      if bot.isSome = true then [.sendMessage taskSet.user_id (.running taskSet)] else []
    let run := runTaskSetWith (env.runner n) taskSet bot
    match run.out with
    | .error e => (.error e, before ++ [.runTaskSet taskSet run.calls])
    | .ok results =>
      let successCount := (results.filter (fun r => r.success)).length
      let failCount := (results.filter (fun r => !r.success)).length
      let after : List SchedulerCall :=
        if bot.isSome = true then
          [.sendMessage taskSet.user_id (.completed taskSet successCount failCount)]
        else []
      let tail := tickLoop env bot (n + 1) rest
      (tail.1, before ++ [.runTaskSet taskSet run.calls] ++ after ++ tail.2)

/-- The callback of `cron.schedule` in `initScheduler`: one tick. -/
def schedulerTick (env : SchedulerEnv) (bot : Option BotObject) : List SchedulerCall :=
  match env.getActiveDueTaskSets with
  | .error e => [.getActiveDueTaskSets, .logError e]
  | .ok dueTasks =>
    let loop := tickLoop env bot 0 dueTasks
    match loop.1 with
    | .ok _ => .getActiveDueTaskSets :: loop.2
    | .error e => .getActiveDueTaskSets :: loop.2 ++ [.logError e]

/-- A store for the examples in which the wallets of user `7` cannot be read. -/
def failingWalletsEnv : RunnerEnv where
  getUserWallets := fun userId =>
    if userId = "7" then .error "connection refused"
    else .ok [⟨"0xAlice000001", "evm", "keyA"⟩]
  getPrivateKey := fun key => .ok key
  runAction := fun _ _ _ _ _ _ => .ok ⟨true, none, "done"⟩
  explainError := fun _ _ => "Something went wrong."
  updateTaskSet := fun _ _ _ => .ok ()
  clock := fun n => 1700000000000 + n

/-- Two due task sets for the examples: the first of user `7`, the second of
user `42`. -/
def sampleDueSets : List TaskSet :=
  [{ sampleTaskSet with id := "set-0", user_id := "7" }, sampleTaskSet]

/-- A tick for the examples: both task sets of `sampleDueSets` are due. -/
def sampleSchedulerEnv : SchedulerEnv where
  getActiveDueTaskSets := .ok sampleDueSets
  runner := fun _ => failingWalletsEnv

/-! ## fundingService.js: the entry point and its caller -/

/-- The store and the chain access used by `cascadeFund` and by
`handleCascadeFund`.  `getWalletByAddress` returns null when the query fails or
finds no single row; the provider and the connection are those the cascade
functions open on the given RPC URL. -/
structure FundingEnv where
  /-- Outcome of `db.getWalletByAddress(userId, address)`. -/
  getWalletByAddress : String → String → Option WalletRow
  /-- Outcome of `db.getUserWallets(userId, chain)`. -/
  getUserWallets : String → Option String → Except String (List WalletRow)
  /-- Outcome of `walletService.getPrivateKey(encryptedKey)`. -/
  getPrivateKey : String → Except String String
  provider : String → EvmProvider
  connection : String → SolanaConnection

/-- The calls `cascadeFund` makes, with those of the cascade function it hands
the request to. -/
inductive FundingCall where
  | getWalletByAddress (userId address : String)
  | getUserWallets (userId : String) (chain : Option String)
  | evm (call : EvmCall)
  | solana (call : SolanaCall)
deriving DecidableEq

/-- The destinations of the transfers among a list of calls, in order. -/
def FundingCall.destinations : List FundingCall → List String
  | [] => []
  | .evm (.sendTransaction tx) :: cs => tx.toAddress :: FundingCall.destinations cs
  | .solana (.sendTransaction toPubkey _) :: cs => toPubkey :: FundingCall.destinations cs
  | _ :: cs => FundingCall.destinations cs

/-- The targets of `cascadeFund` (lines 166-172): the list of the request when
it is given and not empty, and otherwise the addresses of the user's wallets of
the chain other than the master address. -/
def cascadeFundTargets (env : FundingEnv) (userId masterWalletAddress : String)
    (targetChain : Option String) (targetWalletAddresses : Option (List String)) :
    Except String (List String) × List FundingCall :=
  match targetWalletAddresses with
  | some (t :: ts) => (.ok (t :: ts), [])
  | _ =>
    match env.getUserWallets userId targetChain with
    | .error e => (.error e, [.getUserWallets userId targetChain])
    | .ok allWallets =>
      (.ok ((allWallets.filter (fun w => w.address != masterWalletAddress)).map
          WalletRow.address),
        [.getUserWallets userId targetChain])

/-- The single object returned when there is nothing to fund. -/
def FundingResult.noTargets : FundingResult := ⟨false, none, none, none, .noTargets⟩

/-- Function `cascadeFund`, the entry point of the funding service. -/
def cascadeFund (env : FundingEnv) (userId masterWalletAddress mode : String)
    (amountPerWallet totalAmount : JsAmount) (targetChain : Option String) (rpcUrl : String)
    (targetWalletAddresses : Option (List String)) : Run FundingCall (List FundingResult) :=
  match env.getWalletByAddress userId masterWalletAddress with
  | none =>
    ⟨.error "Master wallet not found. Make sure the address belongs to your account.",
      [.getWalletByAddress userId masterWalletAddress]⟩
  | some masterWalletData =>
    match env.getPrivateKey masterWalletData.encrypted_private_key with
    | .error e => ⟨.error e, [.getWalletByAddress userId masterWalletAddress]⟩
    | .ok masterPrivateKey =>
      let found := cascadeFundTargets env userId masterWalletAddress targetChain
        targetWalletAddresses
      match found.1 with
      | .error e => ⟨.error e, .getWalletByAddress userId masterWalletAddress :: found.2⟩
      | .ok [] =>
        ⟨.ok [FundingResult.noTargets],
          .getWalletByAddress userId masterWalletAddress :: found.2⟩
      | .ok (t :: ts) =>
        if masterWalletData.chain = "solana" then
          let run := cascadeFundSolana (env.connection rpcUrl) masterPrivateKey (t :: ts) mode
            amountPerWallet totalAmount
          ⟨run.out, .getWalletByAddress userId masterWalletAddress :: found.2 ++
            run.calls.map FundingCall.solana⟩
        else
          let run := cascadeFundEVM (env.provider rpcUrl) masterPrivateKey (t :: ts) mode
            amountPerWallet totalAmount
          ⟨run.out, .getWalletByAddress userId masterWalletAddress :: found.2 ++
            run.calls.map FundingCall.evm⟩

/-- The fields of the extracted parameters that `handleCascadeFund` reads.  The
master address is a text: an address, or the number of a wallet. -/
structure FundingParams where
  masterAddress : Option String
  mode : Option String
  amountPerWallet : JsAmount
  totalAmount : JsAmount

/-- What `handleCascadeFund` sends back: one of its replies, or the summary of
the results of `cascadeFund`. -/
inductive HandlerOutcome where
  | needWallets
  | setup
  | unknownWallet
  | masterNotFound (masterAddress : String)
  | noTargets
  | summary (results : List FundingResult)
deriving DecidableEq

/-- The value `DEFAULT_CHAINS.solanaMainnet.rpcUrl` of `config/chains.js`. -/
def SOLANA_RPC_URL : String := "https://api.mainnet-beta.solana.com"

/-- The value of `parseInt` on a text of decimal digits. -/
def parseDigits (cs : List Char) : Nat :=
  cs.foldl (fun n c => 10 * n + (c.toNat - '0'.toNat)) 0

/-- The master address of `handleCascadeFund` (lines 334-336): a text of digits
is the number of a wallet, counted from one, and stands for the address of that
wallet; a number without wallet, or an empty address, gives nothing. -/
def resolveMasterAddress (wallets : List WalletRow) (masterAddress : String) : Option String :=
  if masterAddress.data ≠ [] ∧ masterAddress.data.all Char.isDigit = true then
    if parseDigits masterAddress.data = 0 then none
    else
      match wallets.get? (parseDigits masterAddress.data - 1) with
      | some w => if w.address = "" then none else some w.address
      | none => none
  else if masterAddress = "" then none
  else some masterAddress

/-- The master wallet of `handleCascadeFund` (line 338): the first wallet whose
address equals the master address up to letter case. -/
def findMasterWallet (wallets : List WalletRow) (masterAddress : String) : Option WalletRow :=
  wallets.find? (fun w => toLowerCase w.address == toLowerCase masterAddress)

/-- The targets of `handleCascadeFund` (line 341): the wallets of the chain of
the master wallet whose address is not the master address. -/
def handlerTargets (wallets : List WalletRow) (masterAddress : String)
    (masterWallet : WalletRow) : List WalletRow :=
  wallets.filter (fun w => w.address != masterAddress && w.chain == masterWallet.chain)

/-- Function `handleCascadeFund` of `handlers/messageHandler.js`, from the
extracted parameters on (lines 324-355): the reply or summary, and the calls
made on the store and the chain. -/
def handleCascadeFund (env : FundingEnv) (userId : String) (params : Option FundingParams) :
    Run FundingCall HandlerOutcome :=
  match env.getUserWallets userId none with
  | .error e => ⟨.error e, [.getUserWallets userId none]⟩
  | .ok wallets =>
    if wallets.length < 2 then ⟨.ok .needWallets, [.getUserWallets userId none]⟩
    else
      match params with
      | none => ⟨.ok .setup, [.getUserWallets userId none]⟩
      | some p =>
        match orElse p.masterAddress none with
        | none => ⟨.ok .setup, [.getUserWallets userId none]⟩
        | some given =>
          match resolveMasterAddress wallets given with
          | none => ⟨.ok .unknownWallet, [.getUserWallets userId none]⟩
          | some masterAddress =>
            match findMasterWallet wallets masterAddress with
            | none => ⟨.ok (.masterNotFound masterAddress), [.getUserWallets userId none]⟩
            | some masterWallet =>
              if handlerTargets wallets masterAddress masterWallet = [] then
                ⟨.ok .noTargets, [.getUserWallets userId none]⟩
              else
                let run := cascadeFund env userId masterAddress
                  ((orElse p.mode (some "fixed")).getD "fixed") p.amountPerWallet p.totalAmount
                  (some masterWallet.chain)
                  (if masterWallet.chain = "solana" then SOLANA_RPC_URL else DEFAULT_RPC_URL)
                  (some ((handlerTargets wallets masterAddress masterWallet).map
                    WalletRow.address))
                match run.out with
                | .error e => ⟨.error e, .getUserWallets userId none :: run.calls⟩
                | .ok results =>
                  ⟨.ok (.summary results), .getUserWallets userId none :: run.calls⟩

/-- The wallets of the examples: the master and one other account, both of the
EVM family, with addresses in mixed case as the store holds them. -/
def sampleWallets : List WalletRow :=
  [⟨"0xMaster", "evm", "keyM"⟩, ⟨"0xBob", "evm", "keyB"⟩]

/-- A store and chain access for the examples: the store holds
`sampleWallets` and finds a wallet by its exact address, keys decrypt to
themselves, and the provider is `sampleProvider`, whose signer has the address
`0xMaster`, with a balance of `100` wei. -/
def sampleFundingEnv : FundingEnv where
  getWalletByAddress := fun _ address => sampleWallets.find? (fun w => w.address == address)
  getUserWallets := fun _ chain =>
    match chain with
    | none => .ok sampleWallets
    | some c => .ok (sampleWallets.filter (fun w => w.chain == c))
  getPrivateKey := fun key => .ok key
  provider := fun _ => sampleProvider 100 ""
  connection := fun _ => sampleConnection 100

/-! ## Theorems: fundingService.js -/

theorem transfers_append (a b : List EvmCall) :
    EvmCall.transfers (a ++ b) = EvmCall.transfers a ++ EvmCall.transfers b := by
  induction a with
  | nil => rfl
  | cons c cs ih => cases c <;> simp [EvmCall.transfers, ih]

theorem nonceLookups_append (a b : List EvmCall) :
    EvmCall.nonceLookups (a ++ b) = EvmCall.nonceLookups a + EvmCall.nonceLookups b := by
  induction a with
  | nil => simp [EvmCall.nonceLookups]
  | cons c cs ih => cases c <;> simp [EvmCall.nonceLookups, ih]; omega

theorem sendAmountEVM_transfers (p : EvmProvider) (mode : String) (a t : JsAmount) (n : Nat) :
    EvmCall.transfers (sendAmountEVM p mode a t n).2 = [] ∧
      EvmCall.nonceLookups (sendAmountEVM p mode a t n).2 = 0 := by
  unfold sendAmountEVM estimateGasAmount
  split_ifs <;> try (simp [EvmCall.transfers, EvmCall.nonceLookups])
  all_goals (split <;> simp [EvmCall.transfers, EvmCall.nonceLookups])

/-- The result pushed for one target is for that target, and it reports
success exactly when the submission succeeded. -/
theorem fundTargetEVM_result (p : EvmProvider) (master : String) (sendAmount : Int) (k : Nat)
    (t : String) :
    (fundTargetEVM p master sendAmount k t).1.address = some t ∧
      ((fundTargetEVM p master sendAmount k t).1.success = true ↔
        p.confirms sendAmount k t) := by
  unfold fundTargetEVM EvmProvider.confirms
  cases hn : p.getTransactionCount k with
  | error e => simp [FundingResult.failure]
  | ok nonce =>
    cases hs : p.sendTransaction k ⟨t, sendAmount, nonce⟩ with
    | error e => simp [FundingResult.failure, hs]
    | ok hash =>
      cases hw : p.wait k hash with
      | error e => simp [FundingResult.failure, hs, hw]
      | ok u => simp [FundingResult.funded, hs, hw]

/-- One iteration makes one nonce lookup and at most one transfer, which goes
to the target and carries the amount per wallet. -/
theorem fundTargetEVM_calls (p : EvmProvider) (master : String) (sendAmount : Int) (k : Nat)
    (t : String) :
    EvmCall.nonceLookups (fundTargetEVM p master sendAmount k t).2 = 1 ∧
      (EvmCall.transfers (fundTargetEVM p master sendAmount k t).2 = [] ∨
        ∃ nonce, p.getTransactionCount k = .ok nonce ∧
          EvmCall.transfers (fundTargetEVM p master sendAmount k t).2 =
            [⟨t, sendAmount, nonce⟩]) := by
  unfold fundTargetEVM
  cases hn : p.getTransactionCount k with
  | error e => simp [EvmCall.nonceLookups, EvmCall.transfers]
  | ok nonce =>
    cases hs : p.sendTransaction k ⟨t, sendAmount, nonce⟩ with
    | error e => simp [EvmCall.nonceLookups, EvmCall.transfers, hs]
    | ok hash =>
      cases hw : p.wait k hash with
      | error e => simp [EvmCall.nonceLookups, EvmCall.transfers, hs, hw]
      | ok u => simp [EvmCall.nonceLookups, EvmCall.transfers, hs, hw]

theorem fundTargetEVM_transfer_of_nonce (p : EvmProvider) (master : String) (sendAmount : Int)
    (k : Nat) (t : String) (nonce : Nat) (hn : p.getTransactionCount k = .ok nonce) :
    EvmCall.transfers (fundTargetEVM p master sendAmount k t).2 = [⟨t, sendAmount, nonce⟩] := by
  unfold fundTargetEVM
  rw [hn]
  cases hs : p.sendTransaction k ⟨t, sendAmount, nonce⟩ with
  | error e => simp [EvmCall.transfers, hs]
  | ok hash =>
    cases hw : p.wait k hash with
    | error e => simp [EvmCall.transfers, hs, hw]
    | ok u => simp [EvmCall.transfers, hs, hw]

theorem fundLoopEVM_length (p : EvmProvider) (master : String) (sendAmount : Int) :
    ∀ (targets : List String) (k : Nat),
      (fundLoopEVM p master sendAmount k targets).1.length = targets.length := by
  intro targets
  induction targets with
  | nil => intro k; rfl
  | cons t ts ih => intro k; simp [fundLoopEVM, ih]

/-- Result `i` of the loop is for target `i` and reports the outcome of the
submission made in iteration `k + i`. -/
theorem fundLoopEVM_results (p : EvmProvider) (master : String) (sendAmount : Int) :
    ∀ (targets : List String) (k i : Nat) (ht : i < targets.length)
      (hr : i < (fundLoopEVM p master sendAmount k targets).1.length),
      (fundLoopEVM p master sendAmount k targets).1[i].address = some targets[i] ∧
        ((fundLoopEVM p master sendAmount k targets).1[i].success = true ↔
          p.confirms sendAmount (k + i) targets[i]) := by
  intro targets
  induction targets with
  | nil => intro k i ht; simp at ht
  | cons t ts ih =>
    intro k i ht hr
    cases i with
    | zero => simpa [fundLoopEVM] using fundTargetEVM_result p master sendAmount k t
    | succ j =>
      have hj : j < ts.length := by simpa using ht
      have hjr : j < (fundLoopEVM p master sendAmount (k + 1) ts).1.length := by
        rw [fundLoopEVM_length]; exact hj
      have h := ih (k + 1) j hj hjr
      have hk : k + 1 + j = k + (j + 1) := by omega
      rw [hk] at h
      simpa [fundLoopEVM] using h

theorem fundLoopEVM_nonceLookups (p : EvmProvider) (master : String) (sendAmount : Int) :
    ∀ (targets : List String) (k : Nat),
      EvmCall.nonceLookups (fundLoopEVM p master sendAmount k targets).2 = targets.length := by
  intro targets
  induction targets with
  | nil => intro k; rfl
  | cons t ts ih =>
    intro k
    simp only [fundLoopEVM, nonceLookups_append, ih, List.length_cons,
      (fundTargetEVM_calls p master sendAmount k t).1]
    omega

theorem fundLoopEVM_transfers (p : EvmProvider) (master : String) (sendAmount : Int) :
    ∀ (targets : List String) (k : Nat),
      ((EvmCall.transfers (fundLoopEVM p master sendAmount k targets).2).map
          TxRequest.toAddress).Sublist targets ∧
        ∀ tx ∈ EvmCall.transfers (fundLoopEVM p master sendAmount k targets).2,
          tx.value = sendAmount := by
  intro targets
  induction targets with
  | nil => intro k; simp [fundLoopEVM, EvmCall.transfers]
  | cons t ts ih =>
    intro k
    obtain ⟨hsub, hval⟩ := ih (k + 1)
    simp only [fundLoopEVM, transfers_append, List.map_append, List.mem_append]
    rcases (fundTargetEVM_calls p master sendAmount k t).2 with h | ⟨nonce, _, h⟩
    · rw [h]
      refine ⟨?_, ?_⟩
      · simpa using hsub.trans (List.sublist_cons_self t ts)
      · intro tx htx
        rcases htx with htx | htx
        · simp at htx
        · exact hval tx htx
    · rw [h]
      refine ⟨?_, ?_⟩
      · simpa using hsub
      · intro tx htx
        rcases htx with htx | htx
        · simp at htx; rw [htx]
        · exact hval tx htx

theorem fundLoopEVM_transfers_all (p : EvmProvider) (master : String) (sendAmount : Int) :
    ∀ (targets : List String) (k : Nat),
      (∀ i, i < targets.length → ∃ nonce, p.getTransactionCount (k + i) = .ok nonce) →
      (EvmCall.transfers (fundLoopEVM p master sendAmount k targets).2).map
          TxRequest.toAddress = targets := by
  intro targets
  induction targets with
  | nil => intro k _; rfl
  | cons t ts ih =>
    intro k hall
    obtain ⟨nonce, hn⟩ := hall 0 (by simp)
    have htail := ih (k + 1) (fun i hi => by
      have := hall (i + 1) (by simpa using hi)
      have hk : k + 1 + i = k + (i + 1) := by omega
      rw [hk]; exact this)
    simp only [fundLoopEVM, transfers_append, List.map_append, htail]
    rw [fundTargetEVM_transfer_of_nonce p master sendAmount k t nonce (by simpa using hn)]
    rfl

/-- Every transfer that `cascadeFundEVM` submits carries the amount per wallet
computed before the balance check. -/
theorem cascadeFundEVM_transfer_values (p : EvmProvider) (key : String) (targets : List String)
    (mode : String) (apw total : JsAmount) :
    ∀ tx ∈ EvmCall.transfers (cascadeFundEVM p key targets mode apw total).calls,
      (sendAmountEVM p mode apw total targets.length).1 = .ok tx.value := by
  intro tx htx
  unfold cascadeFundEVM at htx
  cases hw : p.wallet key with
  | error e => simp [hw, EvmCall.transfers] at htx
  | ok master =>
    cases hb : p.getBalance master with
    | error e => simp [hw, hb, EvmCall.transfers] at htx
    | ok balance =>
      have hq := (sendAmountEVM_transfers p mode apw total targets.length).1
      cases ha : (sendAmountEVM p mode apw total targets.length).1 with
      | error e => simp [hw, hb, ha, EvmCall.transfers, hq] at htx
      | ok sendAmount =>
        simp only [hw, hb, ha] at htx
        split_ifs at htx with hlt
        · simp [EvmCall.transfers, hq] at htx
        · have happ : EvmCall.transfers
              (EvmCall.getBalance master :: (sendAmountEVM p mode apw total targets.length).2 ++
                (fundLoopEVM p master sendAmount 0 targets).2) =
              EvmCall.transfers (fundLoopEVM p master sendAmount 0 targets).2 := by
            rw [List.cons_append]
            simp [EvmCall.transfers, transfers_append, hq]
          rw [happ] at htx
          rw [(fundLoopEVM_transfers p master sendAmount targets 0).2 tx htx]

/-- C1. Pre-flight of cascade funding: when the balance read for the source is
below the amount per target times the number of targets, `cascadeFundEVM` and
`cascadeFundSolana` submit no transfer and return exactly one result, whose
`success` is false.  This holds for every target list and every mode.  On the
Solana path the product is the one the code computes, in double arithmetic. -/
theorem cascadeFund_preflight_abort :
    (∀ (p : EvmProvider) (key : String) (targets : List String) (mode : String)
        (apw total : JsAmount) (master : String) (balance : Nat) (sendAmount : Int),
        p.wallet key = .ok master → p.getBalance master = .ok balance →
        (sendAmountEVM p mode apw total targets.length).1 = .ok sendAmount →
        (balance : Int) < sendAmount * (targets.length : Int) →
        EvmCall.transfers (cascadeFundEVM p key targets mode apw total).calls = [] ∧
          ∃ r, (cascadeFundEVM p key targets mode apw total).out = .ok [r] ∧
            r.success = false) ∧
    (∀ (c : SolanaConnection) (key : String) (targets : List String) (mode : String)
        (apw total : JsAmount) (master : String) (balance : Nat),
        c.fromSecretKey key = .ok master → c.getBalance master = .ok balance →
        (balance : ℚ) <
          c.round (lamportsEachSolana c mode apw total targets.length * (targets.length : ℚ)) →
        SolanaCall.transfers (cascadeFundSolana c key targets mode apw total).calls = [] ∧
          ∃ r, (cascadeFundSolana c key targets mode apw total).out = .ok [r] ∧
            r.success = false) := by
  refine ⟨?_, ?_⟩
  · intro p key targets mode apw total master balance sendAmount hw hb ha hlt
    have hq := (sendAmountEVM_transfers p mode apw total targets.length).1
    unfold cascadeFundEVM
    simp only [hw, hb, ha, if_pos hlt]
    exact ⟨by simp [EvmCall.transfers, hq], _, rfl, rfl⟩
  · intro c key targets mode apw total master balance hw hb hlt
    unfold cascadeFundSolana
    simp only [hw, hb, if_pos hlt]
    exact ⟨by simp [SolanaCall.transfers], _, rfl, rfl⟩

/-- Witness for C1: a master holding 5 wei asked for 3 wei to each of two
wallets, and a master holding 9999999 lamports asked for gas money (5000000
lamports) for each of two wallets. -/
theorem cascadeFund_preflight_abort_witness :
    (EvmCall.transfers (cascadeFundEVM (sampleProvider 5 "") "key" ["0xA", "0xB"] "fixed"
        (JsAmount.ofWei 3) JsAmount.undefined).calls = [] ∧
      ∃ r, (cascadeFundEVM (sampleProvider 5 "") "key" ["0xA", "0xB"] "fixed"
        (JsAmount.ofWei 3) JsAmount.undefined).out = .ok [r] ∧ r.success = false) ∧
    (SolanaCall.transfers (cascadeFundSolana (sampleConnection 9999999) "key" ["A", "B"]
        "gas_only" JsAmount.undefined JsAmount.undefined).calls = [] ∧
      ∃ r, (cascadeFundSolana (sampleConnection 9999999) "key" ["A", "B"]
        "gas_only" JsAmount.undefined JsAmount.undefined).out = .ok [r] ∧ r.success = false) :=
  ⟨cascadeFund_preflight_abort.1 (sampleProvider 5 "") "key" ["0xA", "0xB"] "fixed"
      (JsAmount.ofWei 3) JsAmount.undefined "0xMaster" 5 3 rfl rfl
      (by simp [sendAmountEVM, JsAmount.ofWei]) (by decide),
   cascadeFund_preflight_abort.2 (sampleConnection 9999999) "key" ["A", "B"] "gas_only"
      JsAmount.undefined JsAmount.undefined "Master" 9999999 rfl rfl
      (by norm_num [lamportsEachSolana, sampleConnection, JsAmount.undefined])⟩

/-- C2. Failure isolation and order of `cascadeFundEVM`: whenever the pre-flight
passes, whatever the outcome of each submission, the function returns one
result per target, result `i` being for target `i` and having `success = true`
exactly when the submission for target `i` (nonce lookup, transfer, wait for
the confirmation) succeeded.  Every target gets its attempt: there is one
nonce lookup per target; the transfers submitted go to targets in input order,
at most one each, all of the amount per wallet; and one transfer per target is
submitted when every nonce lookup answers.  No failure stops the loop. -/
theorem cascadeFundEVM_isolates_failures (p : EvmProvider) (key : String)
    (targets : List String) (mode : String) (apw total : JsAmount) (master : String)
    (balance : Nat) (sendAmount : Int)
    (hw : p.wallet key = .ok master) (hb : p.getBalance master = .ok balance)
    (ha : (sendAmountEVM p mode apw total targets.length).1 = .ok sendAmount)
    (hpre : sendAmount * (targets.length : Int) ≤ (balance : Int)) :
    ∃ results, (cascadeFundEVM p key targets mode apw total).out = .ok results ∧
      results.length = targets.length ∧
      (∀ (i : Nat) (ht : i < targets.length) (hr : i < results.length),
        results[i].address = some targets[i] ∧
          (results[i].success = true ↔ p.confirms sendAmount i targets[i])) ∧
      EvmCall.nonceLookups (cascadeFundEVM p key targets mode apw total).calls =
        targets.length ∧
      ((EvmCall.transfers (cascadeFundEVM p key targets mode apw total).calls).map
        TxRequest.toAddress).Sublist targets ∧
      (∀ tx ∈ EvmCall.transfers (cascadeFundEVM p key targets mode apw total).calls,
        tx.value = sendAmount) ∧
      ((∀ i, i < targets.length → ∃ nonce, p.getTransactionCount i = .ok nonce) →
        (EvmCall.transfers (cascadeFundEVM p key targets mode apw total).calls).map
          TxRequest.toAddress = targets) := by
  have hq := sendAmountEVM_transfers p mode apw total targets.length
  have hcalls : (cascadeFundEVM p key targets mode apw total).calls =
      EvmCall.getBalance master :: (sendAmountEVM p mode apw total targets.length).2 ++
        (fundLoopEVM p master sendAmount 0 targets).2 := by
    unfold cascadeFundEVM
    simp only [hw, hb, ha, if_neg (not_lt.mpr hpre)]
  have hout : (cascadeFundEVM p key targets mode apw total).out =
      .ok (fundLoopEVM p master sendAmount 0 targets).1 := by
    unfold cascadeFundEVM
    simp only [hw, hb, ha, if_neg (not_lt.mpr hpre)]
  have htr : EvmCall.transfers (cascadeFundEVM p key targets mode apw total).calls =
      EvmCall.transfers (fundLoopEVM p master sendAmount 0 targets).2 := by
    rw [hcalls, List.cons_append]
    simp [EvmCall.transfers, transfers_append, hq.1]
  have hnl : EvmCall.nonceLookups (cascadeFundEVM p key targets mode apw total).calls =
      EvmCall.nonceLookups (fundLoopEVM p master sendAmount 0 targets).2 := by
    rw [hcalls, List.cons_append]
    simp [EvmCall.nonceLookups, nonceLookups_append, hq.2]
  refine ⟨_, hout, fundLoopEVM_length p master sendAmount targets 0, ?_, ?_, ?_, ?_, ?_⟩
  · intro i ht hr
    have h := fundLoopEVM_results p master sendAmount targets 0 i ht hr
    simpa using h
  · rw [hnl]; exact fundLoopEVM_nonceLookups p master sendAmount targets 0
  · rw [htr]; exact (fundLoopEVM_transfers p master sendAmount targets 0).1
  · rw [htr]; exact (fundLoopEVM_transfers p master sendAmount targets 0).2
  · intro hall
    rw [htr]
    exact fundLoopEVM_transfers_all p master sendAmount targets 0
      (fun i hi => by simpa using hall i hi)

/-- Witness for C2: three targets, the transfer to the second one is refused;
the three results are success, failure, success. -/
theorem cascadeFundEVM_isolates_failures_witness :
    (cascadeFundEVM (sampleProvider 10 "0xB") "key" ["0xA", "0xB", "0xC"] "fixed"
        (JsAmount.ofWei 3) JsAmount.undefined).out.toOption.map
          (fun rs => rs.map FundingResult.success) = some [true, false, true] ∧
    ∃ results, (cascadeFundEVM (sampleProvider 10 "0xB") "key" ["0xA", "0xB", "0xC"] "fixed"
        (JsAmount.ofWei 3) JsAmount.undefined).out = .ok results ∧
      results.length = 3 ∧
      (EvmCall.transfers (cascadeFundEVM (sampleProvider 10 "0xB") "key"
        ["0xA", "0xB", "0xC"] "fixed" (JsAmount.ofWei 3) JsAmount.undefined).calls).map
          TxRequest.toAddress = ["0xA", "0xB", "0xC"] := by
  obtain ⟨results, hout, hlen, _, _, _, _, hall⟩ :=
    cascadeFundEVM_isolates_failures (sampleProvider 10 "0xB") "key" ["0xA", "0xB", "0xC"]
      "fixed" (JsAmount.ofWei 3) JsAmount.undefined "0xMaster" 10 3 rfl rfl
      (by simp [sendAmountEVM, JsAmount.ofWei]) (by decide)
  refine ⟨by decide, results, hout, hlen, hall ?_⟩
  intro i _
  exact ⟨i, rfl⟩

/-- C3, at the failing input. In mode `equal` with a total of `0`, no amount
per wallet and three targets, the guard `mode === 'equal' && totalAmount` is
false for the falsy total, the equal branch is skipped, and each of the three
targets is sent the default 0.001 ether instead of `floor(0 / 3) = 0`: three
transfers are submitted, and three times their amount exceeds the total.  On
the Solana path the same request computes 0.01 SOL per target. -/
theorem equal_mode_zero_total_sends_default :
    (sendAmountEVM (sampleProvider (10 ^ 16) "") "equal" JsAmount.undefined (JsAmount.ofWei 0)
      3).1 = .ok 1000000000000000 ∧
    (EvmCall.transfers (cascadeFundEVM (sampleProvider (10 ^ 16) "") "key"
      ["0xA", "0xB", "0xC"] "equal" JsAmount.undefined (JsAmount.ofWei 0)).calls).map
        TxRequest.value = [1000000000000000, 1000000000000000, 1000000000000000] ∧
    bigIntDiv 0 3 = .ok 0 ∧
    (1000000000000000 : Int) ≠ 0 ∧ ¬ ((1000000000000000 : Int) * 3 ≤ 0) ∧
    lamportsEachSolana (sampleConnection 0) "equal" JsAmount.undefined (JsAmount.ofWei 0) 3 =
      10000000 := by
  refine ⟨by simp [sendAmountEVM, JsAmount.ofWei, JsAmount.undefined, milliEther], ?_, rfl,
    by decide, by decide, ?_⟩
  · simp +decide [cascadeFundEVM, sampleProvider, sendAmountEVM, JsAmount.ofWei,
      JsAmount.undefined, milliEther, fundLoopEVM, fundTargetEVM, EvmCall.transfers]
  · simp [lamportsEachSolana, JsAmount.ofWei, JsAmount.undefined, sampleConnection,
      LAMPORTS_PER_SOL]
    norm_num

/-- The equal split for a total that is present.  In mode `equal`, for every
total that is truthy (any number
other than zero) and worth `totalWei` wei and for every number `n ≥ 1` of
targets, the amount per target that `cascadeFundEVM` computes is
`floor(totalWei / n)`; so `n` times that amount is at most the total and the
difference is smaller than `n`.  Every transfer submitted carries that
amount. -/
theorem equal_mode_amount (p : EvmProvider) (apw total : JsAmount) (totalWei n : Nat)
    (htruthy : total.truthy = true) (hparse : total.parseEther = .ok (totalWei : Int))
    (hn : 1 ≤ n) :
    sendAmountEVM p "equal" apw total n = (.ok ((totalWei / n : Nat) : Int), []) ∧
      totalWei / n * n ≤ totalWei ∧ totalWei - totalWei / n * n < n ∧
      ∀ (key : String) (targets : List String), targets.length = n →
        ∀ tx ∈ EvmCall.transfers (cascadeFundEVM p key targets "equal" apw total).calls,
          tx.value = ((totalWei / n : Nat) : Int) := by
  have hne : (n : Int) ≠ 0 := by omega
  have hamount : sendAmountEVM p "equal" apw total n = (.ok ((totalWei / n : Nat) : Int), []) := by
    unfold sendAmountEVM bigIntDiv
    simp only [htruthy, hparse, and_self, if_true, if_neg hne]
    rw [Int.tdiv_eq_ediv (by omega) (by omega)]
    simp
  refine ⟨hamount, Nat.div_mul_le_self totalWei n, ?_, ?_⟩
  · have h1 := Nat.mod_add_div totalWei n
    have h2 := Nat.mod_lt totalWei (show 0 < n by omega)
    have h3 : n * (totalWei / n) = totalWei / n * n := Nat.mul_comm _ _
    omega
  · intro key targets hlen tx htx
    have h := cascadeFundEVM_transfer_values p key targets "equal" apw total tx htx
    rw [hlen, hamount] at h
    exact (Except.ok.inj h).symm

/-- Example of the equal split: 10 wei over 3 targets is 3 wei each. -/
theorem equal_mode_amount_witness :
    sendAmountEVM (sampleProvider 10 "") "equal" JsAmount.undefined (JsAmount.ofWei 10) 3
        = (.ok ((10 / 3 : Nat) : Int), []) ∧
      10 / 3 * 3 ≤ 10 ∧ 10 - 10 / 3 * 3 < 3 ∧
      ∀ (key : String) (targets : List String), targets.length = 3 →
        ∀ tx ∈ EvmCall.transfers (cascadeFundEVM (sampleProvider 10 "") key targets "equal"
            JsAmount.undefined (JsAmount.ofWei 10)).calls,
          tx.value = ((10 / 3 : Nat) : Int) :=
  equal_mode_amount (sampleProvider 10 "") JsAmount.undefined (JsAmount.ofWei 10) 10 3
    (by decide) rfl (by decide)

theorem cascadeFundEVM_congr (p : EvmProvider) (key : String) (targets : List String)
    (mode : String) (a t a' t' : JsAmount)
    (h : sendAmountEVM p mode a t targets.length = sendAmountEVM p mode a' t' targets.length) :
    cascadeFundEVM p key targets mode a t = cascadeFundEVM p key targets mode a' t' := by
  unfold cascadeFundEVM
  rw [h]

theorem cascadeFundSolana_congr (c : SolanaConnection) (key : String) (targets : List String)
    (mode : String) (a t a' t' : JsAmount)
    (h : lamportsEachSolana c mode a t targets.length =
      lamportsEachSolana c mode a' t' targets.length) :
    cascadeFundSolana c key targets mode a t = cascadeFundSolana c key targets mode a' t' := by
  unfold cascadeFundSolana
  rw [h]

theorem sendAmountEVM_gas_only (p : EvmProvider) (a t : JsAmount) (n : Nat) :
    sendAmountEVM p "gas_only" a t n =
      ((.ok (estimateGasAmount p "evm").1), (estimateGasAmount p "evm").2) := by
  simp +decide [sendAmountEVM]

/-- C22. In mode `gas_only` the amount per target does not depend on the
amounts of the request: two requests that differ in `amountPerWallet` and
`totalAmount` only compute the same amount and make the same run, on the EVM
path and on the Solana path.  On the EVM path the amount is the gas price
times `63000` when the fee data can be read, with 5 gwei for a gas price that
is null or zero; on the Solana path it is the constant `5000000` lamports. -/
theorem gas_only_amount_not_supplied (p : EvmProvider) (c : SolanaConnection)
    (a t a' t' : JsAmount) (key : String) (targets : List String) :
    sendAmountEVM p "gas_only" a t targets.length =
      sendAmountEVM p "gas_only" a' t' targets.length ∧
    cascadeFundEVM p key targets "gas_only" a t =
      cascadeFundEVM p key targets "gas_only" a' t' ∧
    (∀ feeData, p.getFeeData = .ok feeData →
      (sendAmountEVM p "gas_only" a t targets.length).1 =
        .ok ((match feeData.gasPrice with
          | some g => if g ≠ 0 then g else fiveGwei
          | none => fiveGwei) * 63000)) ∧
    lamportsEachSolana c "gas_only" a t targets.length = 5000000 ∧
    lamportsEachSolana c "gas_only" a t targets.length =
      lamportsEachSolana c "gas_only" a' t' targets.length ∧
    cascadeFundSolana c key targets "gas_only" a t =
      cascadeFundSolana c key targets "gas_only" a' t' := by
  have hevm : sendAmountEVM p "gas_only" a t targets.length =
      sendAmountEVM p "gas_only" a' t' targets.length := by
    rw [sendAmountEVM_gas_only, sendAmountEVM_gas_only]
  have hsol : ∀ x y : JsAmount, lamportsEachSolana c "gas_only" x y targets.length = 5000000 := by
    intro x y
    simp +decide [lamportsEachSolana]
  refine ⟨hevm, cascadeFundEVM_congr _ _ _ _ _ _ _ _ hevm, ?_, hsol a t, ?_,
    cascadeFundSolana_congr _ _ _ _ _ _ _ _ ?_⟩
  · intro feeData hfee
    rw [sendAmountEVM_gas_only]
    simp only [estimateGasAmount, hfee, if_true]
    cases feeData.gasPrice <;> simp
  · rw [hsol a t, hsol a' t']
  · rw [hsol a t, hsol a' t']

/-- Witness for C22: with a gas price of 2 wei the amount per target is
`126000` wei, whether the request names 5 wei per wallet or nothing. -/
theorem gas_only_amount_not_supplied_witness :
    (sampleProvider 10 "").getFeeData = .ok ⟨some 2⟩ ∧
    (sendAmountEVM (sampleProvider 10 "") "gas_only" (JsAmount.ofWei 5) (JsAmount.ofWei 7)
      ["0xA", "0xB"].length).1 = .ok 126000 ∧
    sendAmountEVM (sampleProvider 10 "") "gas_only" (JsAmount.ofWei 5) (JsAmount.ofWei 7)
        ["0xA", "0xB"].length =
      sendAmountEVM (sampleProvider 10 "") "gas_only" JsAmount.undefined JsAmount.undefined
        ["0xA", "0xB"].length :=
  ⟨rfl,
    (gas_only_amount_not_supplied (sampleProvider 10 "") (sampleConnection 10)
      (JsAmount.ofWei 5) (JsAmount.ofWei 7) JsAmount.undefined JsAmount.undefined "key"
      ["0xA", "0xB"]).2.2.1 ⟨some 2⟩ rfl,
    (gas_only_amount_not_supplied (sampleProvider 10 "") (sampleConnection 10)
      (JsAmount.ofWei 5) (JsAmount.ofWei 7) JsAmount.undefined JsAmount.undefined "key"
      ["0xA", "0xB"]).1⟩

/-- C23, at the failing input. In mode `fixed` with an amount per target of
`0` and two targets, the guard `mode === 'fixed' && amountPerWallet` is false
for the falsy amount, the fixed branch is skipped, and each of the two targets
is sent the default 0.001 ether instead of the fixed amount `0`.  On the
Solana path the same request computes 0.01 SOL per target. -/
theorem fixed_mode_zero_amount_sends_default :
    (JsAmount.ofWei 0).parseEther = .ok 0 ∧
    (sendAmountEVM (sampleProvider (10 ^ 16) "") "fixed" (JsAmount.ofWei 0) JsAmount.undefined
      2).1 = .ok 1000000000000000 ∧
    (EvmCall.transfers (cascadeFundEVM (sampleProvider (10 ^ 16) "") "key" ["0xA", "0xB"]
      "fixed" (JsAmount.ofWei 0) JsAmount.undefined).calls).map TxRequest.value =
      [1000000000000000, 1000000000000000] ∧
    (1000000000000000 : Int) ≠ 0 ∧
    lamportsEachSolana (sampleConnection 0) "fixed" (JsAmount.ofWei 0) JsAmount.undefined 2 =
      10000000 := by
  refine ⟨rfl, by simp [sendAmountEVM, JsAmount.ofWei, JsAmount.undefined, milliEther], ?_,
    by decide, ?_⟩
  · simp +decide [cascadeFundEVM, sampleProvider, sendAmountEVM, JsAmount.ofWei,
      JsAmount.undefined, milliEther, fundLoopEVM, fundTargetEVM, EvmCall.transfers]
  · simp [lamportsEachSolana, JsAmount.ofWei, JsAmount.undefined, sampleConnection,
      LAMPORTS_PER_SOL]
    norm_num

/-- The fixed amount for an amount that is present.  In mode `fixed`, for
every amount per target that is truthy (any number other than zero) and worth
`w` wei and for every target list, the amount per target that `cascadeFundEVM`
computes is `w`, every transfer submitted carries `w`, and the balance is
checked against `w` times the number of targets; on the Solana path the amount
is the floor of the number times `LAMPORTS_PER_SOL`.  For an amount that is
falsy (zero or missing) the code computes 0.001 ether on the EVM path and
0.01 SOL on the Solana path. -/
theorem fixed_mode_amount (p : EvmProvider) (c : SolanaConnection) (apw total : JsAmount)
    (w : Int) (htruthy : apw.truthy = true) (hparse : apw.parseEther = .ok w) :
    (∀ n, sendAmountEVM p "fixed" apw total n = (.ok w, [])) ∧
    (∀ (key : String) (targets : List String),
      ∀ tx ∈ EvmCall.transfers (cascadeFundEVM p key targets "fixed" apw total).calls,
        tx.value = w) ∧
    (∀ (key : String) (targets : List String) (master : String) (balance : Nat),
      p.wallet key = .ok master → p.getBalance master = .ok balance →
      (((balance : Int) < w * (targets.length : Int)) →
        (cascadeFundEVM p key targets "fixed" apw total).out =
          .ok [.insufficient balance (w * (targets.length : Int) : Int) targets.length]) ∧
      (¬ ((balance : Int) < w * (targets.length : Int)) →
        ∃ results, (cascadeFundEVM p key targets "fixed" apw total).out = .ok results ∧
          results.length = targets.length)) ∧
    (∀ n, lamportsEachSolana c "fixed" apw total n =
      (⌊c.round (apw.number * LAMPORTS_PER_SOL)⌋ : Int)) ∧
    (∀ (zero : JsAmount) (n : Nat), zero.truthy = false →
      sendAmountEVM p "fixed" zero total n = (.ok milliEther, []) ∧
      lamportsEachSolana c "fixed" zero total n =
        (⌊c.round (1 / 100 * LAMPORTS_PER_SOL)⌋ : Int)) := by
  have hamount : ∀ n, sendAmountEVM p "fixed" apw total n = (.ok w, []) := by
    intro n
    simp +decide [sendAmountEVM, htruthy, hparse]
  refine ⟨hamount, ?_, ?_, ?_, ?_⟩
  · intro key targets tx htx
    have h := cascadeFundEVM_transfer_values p key targets "fixed" apw total tx htx
    rw [hamount] at h
    exact (Except.ok.inj h).symm
  · intro key targets master balance hw hb
    refine ⟨fun hlt => ?_, fun hge => ?_⟩
    · unfold cascadeFundEVM
      simp only [hw, hb, hamount, if_pos hlt]
    · unfold cascadeFundEVM
      simp only [hw, hb, hamount, if_neg hge]
      exact ⟨_, rfl, fundLoopEVM_length p master w targets 0⟩
  · intro n
    simp +decide [lamportsEachSolana, htruthy]
  · intro zero n hz
    constructor
    · simp +decide [sendAmountEVM, hz]
    · simp +decide [lamportsEachSolana, hz]

/-- Example of the fixed amount: 3 wei per target to two targets from a balance
of 10 wei; both transfers carry 3 wei. -/
theorem fixed_mode_amount_witness :
    (JsAmount.ofWei 3).truthy = true ∧ (JsAmount.ofWei 3).parseEther = .ok 3 ∧
    sendAmountEVM (sampleProvider 10 "") "fixed" (JsAmount.ofWei 3) JsAmount.undefined 2 =
      (.ok 3, []) ∧
    ∀ tx ∈ EvmCall.transfers (cascadeFundEVM (sampleProvider 10 "") "key" ["0xA", "0xB"]
        "fixed" (JsAmount.ofWei 3) JsAmount.undefined).calls, tx.value = 3 :=
  ⟨by decide, rfl,
    (fixed_mode_amount (sampleProvider 10 "") (sampleConnection 10) (JsAmount.ofWei 3)
      JsAmount.undefined 3 (by decide) rfl).1 2,
    (fixed_mode_amount (sampleProvider 10 "") (sampleConnection 10) (JsAmount.ofWei 3)
      JsAmount.undefined 3 (by decide) rfl).2.1 "key" ["0xA", "0xB"]⟩

/-! ## Theorems: swapService.js -/

theorem ensureAllowance_no_swap (env : SwapEnv) (token owner spender : String)
    (amountInWei : Int) :
    ∀ call ∈ (ensureAllowance env token owner spender amountInWei).calls,
      call.swapArgs = none := by
  intro call hcall
  unfold ensureAllowance at hcall
  split at hcall
  · simp at hcall; subst hcall; rfl
  · split_ifs at hcall
    · split at hcall
      · simp at hcall; rcases hcall with h | h <;> subst h <;> rfl
      · split at hcall <;>
          (simp at hcall; rcases hcall with h | h | h <;> subst h <;> rfl)
    · simp at hcall; subst hcall; rfl

/-- The swap submitted by the common tail of the branches carries the minimum
computed from the quote for the same amount and path. -/
theorem quoteAndSwap_amountOutMin (env : SwapEnv) (dex : Dex) (amountInWei : Int)
    (path : List (Option String)) (index : Nat) (slippage : ℚ) (mkSwap : Int → SwapCall)
    (shape : TradeShape) (hmk : ∀ x, (mkSwap x).swapArgs = some (amountInWei, x, path)) :
    ∀ call ∈ (quoteAndSwap env dex amountInWei path index slippage mkSwap shape).calls,
      ∀ a m path', call.swapArgs = some (a, m, path') →
        a = amountInWei ∧ path' = path ∧
        ∃ amounts, env.getAmountsOut dex.router amountInWei path = .ok amounts ∧
          amountOutMin env.round amounts index slippage = .ok m := by
  intro call hcall a m path' hargs
  have key : ∀ minOut amounts, env.getAmountsOut dex.router amountInWei path = .ok amounts →
      amountOutMin env.round amounts index slippage = .ok minOut →
      call = mkSwap minOut → a = amountInWei ∧ path' = path ∧
        ∃ amounts, env.getAmountsOut dex.router amountInWei path = .ok amounts ∧
          amountOutMin env.round amounts index slippage = .ok m := by
    intro minOut amounts hq hm hc
    rw [hc, hmk minOut] at hargs
    simp at hargs
    obtain ⟨rfl, rfl, rfl⟩ := hargs
    exact ⟨rfl, rfl, amounts, hq, hm⟩
  unfold quoteAndSwap at hcall
  split at hcall
  · simp at hcall; subst hcall; simp [SwapCall.swapArgs] at hargs
  · next amounts hq =>
    split at hcall
    · simp at hcall; subst hcall; simp [SwapCall.swapArgs] at hargs
    · next minOut hm =>
      split at hcall
      · simp at hcall
        rcases hcall with h | h
        · subst h; simp [SwapCall.swapArgs] at hargs
        · exact key minOut amounts hq hm h
      · split at hcall <;>
        · simp at hcall
          rcases hcall with h | h | h
          · subst h; simp [SwapCall.swapArgs] at hargs
          · exact key minOut amounts hq hm h
          · subst h; simp [SwapCall.swapArgs] at hargs

theorem swapFromToken_amountOutMin (env : SwapEnv) (dex : Dex) (walletAddress token : String)
    (amountIn : AmountIn) (path : List (Option String)) (index : Nat) (slippage : ℚ)
    (mkSwap : Int → Int → SwapCall) (shape : TradeShape)
    (hmk : ∀ w x, (mkSwap w x).swapArgs = some (w, x, path)) :
    ∀ call ∈ (swapFromToken env dex walletAddress token amountIn path index slippage mkSwap
        shape).calls,
      ∀ a m path', call.swapArgs = some (a, m, path') →
        path' = path ∧
        ∃ amounts, env.getAmountsOut dex.router a path = .ok amounts ∧
          amountOutMin env.round amounts index slippage = .ok m := by
  intro call hcall a m path' hargs
  unfold swapFromToken at hcall
  cases hd : env.decimals token with
  | error e => simp [hd] at hcall; subst hcall; simp [SwapCall.swapArgs] at hargs
  | ok decimals =>
    cases hp : amountIn.parseUnits decimals with
    | error e => simp [hd, hp] at hcall; subst hcall; simp [SwapCall.swapArgs] at hargs
    | ok amountInWei =>
      have hno := ensureAllowance_no_swap env token walletAddress dex.router amountInWei
      cases ha : (ensureAllowance env token walletAddress dex.router amountInWei).out with
      | error e =>
        simp [hd, hp, ha] at hcall
        rcases hcall with h | h
        · subst h; simp [SwapCall.swapArgs] at hargs
        · rw [hno call h] at hargs; simp at hargs
      | ok u =>
        simp [hd, hp, ha] at hcall
        rcases hcall with h | h | h
        · subst h; simp [SwapCall.swapArgs] at hargs
        · rw [hno call h] at hargs; simp at hargs
        · obtain ⟨rfl, rfl, amounts, hq, hm⟩ :=
            quoteAndSwap_amountOutMin env dex amountInWei path index slippage
              (mkSwap amountInWei) shape (hmk amountInWei) call h a m path' hargs
          exact ⟨rfl, amounts, hq, hm⟩

/-- Every swap call among the calls of the `try` block of `swapEVM` carries
the minimum computed from the quote for the same amount and path, taken at the
last index of the path. -/
theorem swapEVMBody_amountOutMin (env : SwapEnv) (dex : Dex) (walletAddress : String)
    (fromToken toToken : Option String) (amountIn : AmountIn) (slippage : ℚ) (deadline : Nat) :
    ∀ call ∈ (swapEVMBody env dex walletAddress fromToken toToken amountIn slippage
        deadline).calls,
      ∀ a m path, call.swapArgs = some (a, m, path) →
        ∃ amounts, env.getAmountsOut dex.router a path = .ok amounts ∧
          amountOutMin env.round amounts (path.length - 1) slippage = .ok m := by
  intro call hcall a m path hargs
  unfold swapEVMBody at hcall
  split_ifs at hcall with h1 h2 h3
  · cases hp : amountIn.parseUnits 18 with
    | error e => simp [hp] at hcall
    | ok amountInWei =>
      simp only [hp] at hcall
      obtain ⟨rfl, rfl, amounts, hq, hm⟩ :=
        quoteAndSwap_amountOutMin env dex amountInWei [dex.weth, toToken] 1 slippage
          (fun amountOutMin => .swapExactETHForTokens dex.router amountOutMin
            [dex.weth, toToken] walletAddress deadline amountInWei) _ (fun _ => rfl)
          call hcall a m path hargs
      exact ⟨amounts, hq, hm⟩
  · obtain ⟨rfl, amounts, hq, hm⟩ :=
      swapFromToken_amountOutMin env dex walletAddress _ amountIn [fromToken, dex.weth] 1
        slippage (fun amountInWei amountOutMin => .swapExactTokensForETH dex.router
          amountInWei amountOutMin [fromToken, dex.weth] walletAddress deadline) _
        (fun _ _ => rfl) call hcall a m path hargs
    exact ⟨amounts, hq, hm⟩
  · obtain ⟨rfl, amounts, hq, hm⟩ :=
      swapFromToken_amountOutMin env dex walletAddress _ amountIn
        [fromToken, dex.weth, toToken] 2 slippage
        (fun amountInWei amountOutMin => .swapExactTokensForTokens dex.router
          amountInWei amountOutMin [fromToken, dex.weth, toToken] walletAddress deadline) _
        (fun _ _ => rfl) call hcall a m path hargs
    exact ⟨amounts, hq, hm⟩
  · simp at hcall

/-- The factor for a tolerance of `bps` basis points handed over as the
percentage `bps / 100`, when the two double operations are exact. -/
theorem slippageFactor_of_bps (round : ℚ → ℚ) (bps : Int)
    (hsub : round (100 - (bps : ℚ) / 100) = 100 - (bps : ℚ) / 100)
    (hmul : round ((100 - (bps : ℚ) / 100) * 100) = (100 - (bps : ℚ) / 100) * 100) :
    slippageFactor round ((bps : ℚ) / 100) = 10000 - bps := by
  unfold slippageFactor
  rw [hsub, hmul]
  have h : (100 - (bps : ℚ) / 100) * 100 = ((10000 - bps : Int) : ℚ) := by
    push_cast; ring
  rw [h, Int.floor_intCast]

/-- C4, counterexample. With a quote of 1000 and the value 100 handed to the
swap executor as its slippage argument, the minimum sent with the swap is 0,
while `floor(1000 * (10000 - 100) / 10000)` is 990: the argument is a
percentage, not a number of basis points. -/
theorem swapEVM_slippage_counterexample :
    (swapEVM sampleSwapEnv "key" (some "native") (some "0xToken") oneUnit (some 100)
        "1" "bob").calls.filterMap SwapCall.swapArgs =
      [(10 ^ 18, 0, [some "0xC02aaA39b223FE8D0A0e5C4F27eAD9083C756Cc2", some "0xToken"])] ∧
    sampleSwapEnv.getAmountsOut "0x7a250d5630B4cF539739dF2C5dAcb4c659F2488D" (10 ^ 18)
        [some "0xC02aaA39b223FE8D0A0e5C4F27eAD9083C756Cc2", some "0xToken"] =
      .ok [10 ^ 18, 1000] ∧
    (1000 : Int) * (10000 - 100) / 10000 = 990 ∧ (0 : Int) ≠ 990 := by
  refine ⟨?_, ?_, by decide, by decide⟩
  · simp +decide [swapEVM, sampleSwapEnv, resolveDex, BUILTIN_DEX, List.lookup, swapEVMBody,
      isNative, oneUnit, quoteAndSwap, amountOutMin, slippageFactor, SwapCall.swapArgs]
  · simp +decide [sampleSwapEnv]

/-- C4, amended. The slippage argument of `swapEVM` is a percentage.  For
every tolerance of `bps ≤ 10000` basis points handed over as the percentage
`bps / 100` (the default, when the argument is unset, is 1, that is 100 basis
points) for which the double operations `100 - slippage` and `(...) * 100` are
exact, every swap that `swapEVM` submits carries
`amountOutMin = floor(amountOut * (10000 - bps) / 10000)`, where `amountOut`
is the amount the router quoted for the amount and path of that swap, at the
last index of the path. -/
theorem swapEVM_amountOutMin (env : SwapEnv) (privateKey : String)
    (fromToken toToken : Option String) (amountIn : AmountIn) (slippage : Option ℚ)
    (chainId userId : String) (bps : Int)
    (hslip : slippage.getD 1 = (bps : ℚ) / 100) (hbps : bps ≤ 10000)
    (hsub : env.round (100 - (bps : ℚ) / 100) = 100 - (bps : ℚ) / 100)
    (hmul : env.round ((100 - (bps : ℚ) / 100) * 100) = (100 - (bps : ℚ) / 100) * 100) :
    ∀ call ∈ (swapEVM env privateKey fromToken toToken amountIn slippage chainId userId).calls,
      ∀ a m path, call.swapArgs = some (a, m, path) →
        ∃ dex amounts amountOut, resolveDex env chainId userId = .ok (some dex) ∧
          env.getAmountsOut dex.router a path = .ok amounts ∧
          amounts[path.length - 1]? = some amountOut ∧
          m = (amountOut : Int) * (10000 - bps) / 10000 := by
  intro call hcall a m path hargs
  unfold swapEVM at hcall
  cases hw : env.wallet privateKey with
  | error e => simp [hw] at hcall
  | ok walletAddress =>
    cases hr : resolveDex env chainId userId with
    | error e => simp [hw, hr] at hcall
    | ok found =>
      cases found with
      | none => simp [hw, hr] at hcall
      | some dex =>
        simp only [hw, hr] at hcall
        have hbody : call ∈ (swapEVMBody env dex walletAddress fromToken toToken amountIn
            (slippage.getD 1) (env.now / 1000 + 60 * 20)).calls := by
          split at hcall <;> exact hcall
        obtain ⟨amounts, hq, hm⟩ :=
          swapEVMBody_amountOutMin env dex walletAddress fromToken toToken amountIn
            (slippage.getD 1) (env.now / 1000 + 60 * 20) call hbody a m path hargs
        unfold amountOutMin at hm
        cases hget : amounts[path.length - 1]? with
        | none => simp [hget] at hm
        | some amountOut =>
          simp only [hget, hslip, slippageFactor_of_bps env.round bps hsub hmul] at hm
          refine ⟨dex, amounts, amountOut, rfl, hq, hget, ?_⟩
          have hm2 := (Except.ok.inj hm).symm
          rw [hm2, Int.tdiv_eq_ediv (Int.mul_nonneg (by omega) (by omega)) (by omega)]

/-- Witness for C4: a quote of 1000 at 100 basis points (the percentage 1)
gives a minimum of 990, for the argument 1 and for an unset argument. -/
theorem swapEVM_amountOutMin_witness :
    (swapEVM sampleSwapEnv "key" (some "native") (some "0xToken") oneUnit (some 1)
        "1" "bob").calls.filterMap SwapCall.swapArgs =
      [(10 ^ 18, 990, [some "0xC02aaA39b223FE8D0A0e5C4F27eAD9083C756Cc2", some "0xToken"])] ∧
    ∀ call ∈ (swapEVM sampleSwapEnv "key" (some "native") (some "0xToken") oneUnit none
        "1" "bob").calls,
      ∀ a m path, call.swapArgs = some (a, m, path) →
        ∃ dex amounts amountOut, resolveDex sampleSwapEnv "1" "bob" = .ok (some dex) ∧
          sampleSwapEnv.getAmountsOut dex.router a path = .ok amounts ∧
          amounts[path.length - 1]? = some amountOut ∧
          m = (amountOut : Int) * (10000 - 100) / 10000 := by
  refine ⟨?_, swapEVM_amountOutMin sampleSwapEnv "key" (some "native") (some "0xToken") oneUnit
    none "1" "bob" 100 (by norm_num) (by decide) rfl rfl⟩
  simp +decide [swapEVM, sampleSwapEnv, resolveDex, BUILTIN_DEX, List.lookup, swapEVMBody,
    isNative, oneUnit, quoteAndSwap, amountOutMin, slippageFactor, SwapCall.swapArgs]
  norm_num
  decide

/-- C5. Router resolution: a chain id with a built-in entry resolves to that
entry, with the standard interface, whatever the user saved for it; a chain id
without one resolves to the router the user saved for it, when there is one
(its stored interface description being JSON); otherwise the result is null,
and nothing is raised. -/
theorem resolveDex_prefers_builtin (env : SwapEnv) (chainId userId : String) :
    (∀ b, BUILTIN_DEX.lookup chainId = some b →
      resolveDex env chainId userId =
        .ok (some ⟨b.name, b.router, some b.weth, UNISWAP_V2_ROUTER_ABI⟩)) ∧
    (BUILTIN_DEX.lookup chainId = none →
      ∀ custom abi, env.getCustomDex userId chainId = some custom →
        env.jsonParse custom.abi = .ok abi →
        resolveDex env chainId userId =
          .ok (some ⟨custom.name, custom.router_address, custom.weth_address, abi⟩)) ∧
    (BUILTIN_DEX.lookup chainId = none → env.getCustomDex userId chainId = none →
      resolveDex env chainId userId = .ok none) := by
  refine ⟨?_, ?_, ?_⟩
  · intro b hb
    simp [resolveDex, hb]
  · intro hb custom abi hc hp
    simp [resolveDex, hb, hc, hp]
  · intro hb hc
    simp [resolveDex, hb, hc]

/-- Witness for C5: for chain `1` the user `alice`, who saved a router of her
own for it, gets Uniswap V2; for chain `999` she gets her saved router; user
`bob` gets null for chain `999`. -/
theorem resolveDex_prefers_builtin_witness :
    sampleSwapEnv.getCustomDex "alice" "1" =
        some ⟨"MyDex", "0xRouter", some "0xWrapped", "[]"⟩ ∧
      resolveDex sampleSwapEnv "1" "alice" =
        .ok (some ⟨"Uniswap V2", "0x7a250d5630B4cF539739dF2C5dAcb4c659F2488D",
          some "0xC02aaA39b223FE8D0A0e5C4F27eAD9083C756Cc2", UNISWAP_V2_ROUTER_ABI⟩) ∧
      resolveDex sampleSwapEnv "999" "alice" =
        .ok (some ⟨"MyDex", "0xRouter", some "0xWrapped", []⟩) ∧
      resolveDex sampleSwapEnv "999" "bob" = .ok none :=
  ⟨by decide,
   (resolveDex_prefers_builtin sampleSwapEnv "1" "alice").1
      ⟨"Uniswap V2", "0x7a250d5630B4cF539739dF2C5dAcb4c659F2488D",
        "0xC02aaA39b223FE8D0A0e5C4F27eAD9083C756Cc2"⟩ (by decide),
   (resolveDex_prefers_builtin sampleSwapEnv "999" "alice").2.1 (by decide)
      ⟨"MyDex", "0xRouter", some "0xWrapped", "[]"⟩ [] (by decide) rfl,
   (resolveDex_prefers_builtin sampleSwapEnv "999" "bob").2.2 (by decide) (by decide)⟩

/-- The calls of the common tail of the branches: the quote, then the swap
built from the minimum when the quote and the minimum are there, then the
wait for its transaction when it was accepted. -/
theorem quoteAndSwap_calls (env : SwapEnv) (dex : Dex) (amountInWei : Int)
    (path : List (Option String)) (index : Nat) (slippage : ℚ) (mkSwap : Int → SwapCall)
    (shape : TradeShape) :
    (quoteAndSwap env dex amountInWei path index slippage mkSwap shape).calls =
        [.getAmountsOut dex.router amountInWei path] ∨
      ∃ amounts m, env.getAmountsOut dex.router amountInWei path = .ok amounts ∧
        amountOutMin env.round amounts index slippage = .ok m ∧
        ((quoteAndSwap env dex amountInWei path index slippage mkSwap shape).calls =
            [.getAmountsOut dex.router amountInWei path, mkSwap m] ∨
          ∃ tx, env.submitSwap (mkSwap m) = .ok tx ∧
            (quoteAndSwap env dex amountInWei path index slippage mkSwap shape).calls =
              [.getAmountsOut dex.router amountInWei path, mkSwap m, .wait tx]) := by
  unfold quoteAndSwap
  split
  · exact Or.inl rfl
  · next amounts hq =>
    split
    · exact Or.inl rfl
    · next m hm =>
      refine Or.inr ⟨amounts, m, hq, hm, ?_⟩
      split
      · exact Or.inl rfl
      · next tx hs =>
        refine Or.inr ⟨tx, hs, ?_⟩
        split <;> rfl

/-- The calls and the outcome of the approval step, the allowance read being
`allowance`: below the amount, the approval of `MaxUint256` follows, then the
wait for it, and the step succeeds exactly when both return; otherwise the
allowance is read and nothing else. -/
theorem ensureAllowance_calls (env : SwapEnv) (token owner spender : String)
    (amountInWei allowance : Int) (hal : env.allowance token owner spender = .ok allowance) :
    (allowance < amountInWei →
      ((ensureAllowance env token owner spender amountInWei).calls =
          [.allowance token owner spender, .approve token spender MaxUint256] ∧
        (∃ e, env.approve token spender MaxUint256 = .error e) ∧
        ∃ e, (ensureAllowance env token owner spender amountInWei).out = .error e) ∨
      ∃ approveTx, env.approve token spender MaxUint256 = .ok approveTx ∧
        (ensureAllowance env token owner spender amountInWei).calls =
          [.allowance token owner spender, .approve token spender MaxUint256,
            .wait approveTx] ∧
        (((ensureAllowance env token owner spender amountInWei).out = .ok ()) ↔
          ∃ h, env.wait approveTx = .ok h)) ∧
    (¬ allowance < amountInWei →
      (ensureAllowance env token owner spender amountInWei).calls =
          [.allowance token owner spender] ∧
        (ensureAllowance env token owner spender amountInWei).out = .ok ()) := by
  unfold ensureAllowance
  rw [hal]
  refine ⟨?_, ?_⟩
  · intro hlt
    simp only [if_pos hlt]
    cases ha : env.approve token spender MaxUint256 with
    | error e => exact Or.inl ⟨rfl, ⟨e, rfl⟩, e, rfl⟩
    | ok approveTx =>
      refine Or.inr ⟨approveTx, rfl, ?_⟩
      cases hw : env.wait approveTx with
      | error e => simp [hw]
      | ok h => simp [hw]
  · intro hge
    simp only [if_neg hge]
    exact ⟨trivial, trivial⟩

/-- With a signer and a resolved router, the calls of `swapEVM` are those of
its `try` block. -/
theorem swapEVM_calls (env : SwapEnv) (privateKey : String) (fromToken toToken : Option String)
    (amountIn : AmountIn) (slippage : Option ℚ) (chainId userId walletAddress : String)
    (dex : Dex) (hw : env.wallet privateKey = .ok walletAddress)
    (hdex : resolveDex env chainId userId = .ok (some dex)) :
    (swapEVM env privateKey fromToken toToken amountIn slippage chainId userId).calls =
      (swapEVMBody env dex walletAddress fromToken toToken amountIn (slippage.getD 1)
        (env.now / 1000 + 60 * 20)).calls := by
  unfold swapEVM
  simp only [hw, hdex]
  split <;> rfl

/-- C16. A missing router is signaled, not fatal: when `resolveDex` returns
null for the network of a swap request, `swapEVM` makes no chain call at all
(no quote, no approval, no swap) and, for every signer it could build, returns
a result with `success = false` and the flag `needsDexInfo` set. -/
theorem swapEVM_missing_router (env : SwapEnv) (privateKey : String)
    (fromToken toToken : Option String) (amountIn : AmountIn) (slippage : Option ℚ)
    (chainId userId : String) (hnone : resolveDex env chainId userId = .ok none) :
    (swapEVM env privateKey fromToken toToken amountIn slippage chainId userId).calls = [] ∧
      ∀ walletAddress, env.wallet privateKey = .ok walletAddress →
        ∃ r, (swapEVM env privateKey fromToken toToken amountIn slippage chainId userId).out =
            .ok (some r) ∧
          r.success = false ∧ r.needsDexInfo = true ∧ r.txHash = none := by
  refine ⟨?_, ?_⟩
  · unfold swapEVM
    cases env.wallet privateKey with
    | error e => rfl
    | ok w => simp only [hnone]
  · intro walletAddress hw
    unfold swapEVM
    simp only [hw, hnone]
    exact ⟨_, rfl, rfl, rfl, rfl⟩

/-- Witness for C16: user `bob` has no router for chain `999`. -/
theorem swapEVM_missing_router_witness :
    (swapEVM sampleSwapEnv "key" (some "native") (some "0xToken") oneUnit none "999"
        "bob").calls = [] ∧
      ∀ walletAddress, sampleSwapEnv.wallet "key" = .ok walletAddress →
        ∃ r, (swapEVM sampleSwapEnv "key" (some "native") (some "0xToken") oneUnit none "999"
            "bob").out = .ok (some r) ∧
          r.success = false ∧ r.needsDexInfo = true ∧ r.txHash = none :=
  swapEVM_missing_router sampleSwapEnv "key" (some "native") (some "0xToken") oneUnit none
    "999" "bob" rfl

/-- Every call of the approval step reads the allowance, approves
`MaxUint256` for the spender, or waits for a transaction. -/
theorem ensureAllowance_mem (env : SwapEnv) (token owner spender : String)
    (amountInWei : Int) :
    ∀ call ∈ (ensureAllowance env token owner spender amountInWei).calls,
      call = .allowance token owner spender ∨ call = .approve token spender MaxUint256 ∨
        ∃ tx, call = .wait tx := by
  intro call hcall
  unfold ensureAllowance at hcall
  split at hcall
  · simp at hcall; exact Or.inl hcall
  · split_ifs at hcall
    · split at hcall
      · simp at hcall
        rcases hcall with h | h
        · exact Or.inl h
        · exact Or.inr (Or.inl h)
      · split at hcall <;>
        · simp at hcall
          rcases hcall with h | h | h
          · exact Or.inl h
          · exact Or.inr (Or.inl h)
          · exact Or.inr (Or.inr ⟨_, h⟩)
    · simp at hcall; exact Or.inl hcall

/-- Every call of the common tail is the quote of the path, the swap built
from the minimum computed at `index`, or a wait. -/
theorem quoteAndSwap_mem (env : SwapEnv) (dex : Dex) (amountInWei : Int)
    (path : List (Option String)) (index : Nat) (slippage : ℚ) (mkSwap : Int → SwapCall)
    (shape : TradeShape) :
    ∀ call ∈ (quoteAndSwap env dex amountInWei path index slippage mkSwap shape).calls,
      call = .getAmountsOut dex.router amountInWei path ∨
        (∃ amounts m, env.getAmountsOut dex.router amountInWei path = .ok amounts ∧
          amountOutMin env.round amounts index slippage = .ok m ∧ call = mkSwap m) ∨
        ∃ tx, call = .wait tx := by
  intro call hcall
  rcases quoteAndSwap_calls env dex amountInWei path index slippage mkSwap shape with
    h | ⟨amounts, m, hq, hm, h | ⟨tx, _, h⟩⟩
  · rw [h] at hcall; simp at hcall; exact Or.inl hcall
  · rw [h] at hcall
    simp at hcall
    rcases hcall with h1 | h1
    · exact Or.inl h1
    · exact Or.inr (Or.inl ⟨amounts, m, hq, hm, h1⟩)
  · rw [h] at hcall
    simp at hcall
    rcases hcall with h1 | h1 | h1
    · exact Or.inl h1
    · exact Or.inr (Or.inl ⟨amounts, m, hq, hm, h1⟩)
    · exact Or.inr (Or.inr ⟨tx, h1⟩)

/-- Every call of a token branch reads the decimals, belongs to the approval
step, or belongs to the common tail run on the converted amount. -/
theorem swapFromToken_mem (env : SwapEnv) (dex : Dex) (walletAddress token : String)
    (amountIn : AmountIn) (path : List (Option String)) (index : Nat) (slippage : ℚ)
    (mkSwap : Int → Int → SwapCall) (shape : TradeShape) :
    ∀ call ∈ (swapFromToken env dex walletAddress token amountIn path index slippage mkSwap
        shape).calls,
      call = .decimals token ∨
        ∃ d a, env.decimals token = .ok d ∧ amountIn.parseUnits d = .ok a ∧
          (call ∈ (ensureAllowance env token walletAddress dex.router a).calls ∨
            call ∈ (quoteAndSwap env dex a path index slippage (mkSwap a) shape).calls) := by
  intro call hcall
  unfold swapFromToken at hcall
  split at hcall
  · simp at hcall; exact Or.inl hcall
  · next d hd =>
    split at hcall
    · simp at hcall; exact Or.inl hcall
    · next a hp =>
      split at hcall
      · simp at hcall
        rcases hcall with h | h
        · exact Or.inl h
        · exact Or.inr ⟨d, a, hd, hp, Or.inl h⟩
      · simp at hcall
        rcases hcall with h | h | h
        · exact Or.inl h
        · exact Or.inr ⟨d, a, hd, hp, Or.inl h⟩
        · exact Or.inr ⟨d, a, hd, hp, Or.inr h⟩

/-- In a token branch, the quote is over the path of the branch and the swap is
the call built by `mkSwap` from the converted amount and the minimum computed
at `index` from the quote of that path. -/
theorem swapFromToken_path (env : SwapEnv) (dex : Dex) (walletAddress token : String)
    (amountIn : AmountIn) (path : List (Option String)) (index : Nat) (slippage : ℚ)
    (mkSwap : Int → Int → SwapCall) (shape : TradeShape)
    (hmk : ∀ w x, (mkSwap w x).swapArgs = some (w, x, path))
    (hmk2 : ∀ w x r a p, mkSwap w x ≠ .getAmountsOut r a p) :
    ∀ call ∈ (swapFromToken env dex walletAddress token amountIn path index slippage mkSwap
        shape).calls,
      (∀ r a p, call = .getAmountsOut r a p → r = dex.router ∧ p = path) ∧
      (∀ a m p, call.swapArgs = some (a, m, p) →
        call = mkSwap a m ∧ p = path ∧
          ∃ amounts, env.getAmountsOut dex.router a path = .ok amounts ∧
            amountOutMin env.round amounts index slippage = .ok m) := by
  intro call hcall
  rcases swapFromToken_mem env dex walletAddress token amountIn path index slippage mkSwap
    shape call hcall with h | ⟨d, a, _, _, h | h⟩
  · subst h
    exact ⟨fun r a p h => by simp at h, fun a m p h => by simp [SwapCall.swapArgs] at h⟩
  · rcases ensureAllowance_mem env token walletAddress dex.router a call h with
      h1 | h1 | ⟨tx, h1⟩ <;> subst h1 <;>
      exact ⟨fun r a p h => by simp at h, fun a m p h => by simp [SwapCall.swapArgs] at h⟩
  · rcases quoteAndSwap_mem env dex a path index slippage (mkSwap a) shape call h with
      h1 | ⟨amounts, m, hq, hm, h1⟩ | ⟨tx, h1⟩
    · subst h1
      refine ⟨fun r a' p h => ?_, fun a m p h => by simp [SwapCall.swapArgs] at h⟩
      simp at h
      exact ⟨h.1.symm, h.2.2.symm⟩
    · subst h1
      refine ⟨fun r a' p h => absurd h (hmk2 a m r a' p), fun a' m' p h => ?_⟩
      rw [hmk a m] at h
      simp at h
      obtain ⟨rfl, rfl, rfl⟩ := h
      exact ⟨rfl, rfl, amounts, hq, hm⟩
    · subst h1
      exact ⟨fun r a p h => by simp at h, fun a m p h => by simp [SwapCall.swapArgs] at h⟩

/-- C17. Trade path selection.  With a resolved router whose wrapped-native
address is `W`, every quote and every swap of `swapEVM` is over the path
`[W, toToken]` for native to token, `[fromToken, W]` for token to native, and
the two-leg path `[fromToken, W, toToken]` for token to token; the swap is
submitted with the method of that shape (`swapExactETHForTokens`,
`swapExactTokensForETH`, `swapExactTokensForTokens`), and its minimum is
computed from the quoted amount at index 1, 1 and 2 respectively, the last
index of the path. -/
theorem swapEVM_trade_paths (env : SwapEnv) (privateKey : String)
    (fromToken toToken : Option String) (amountIn : AmountIn) (slippage : Option ℚ)
    (chainId userId walletAddress : String) (dex : Dex) (W : String)
    (hw : env.wallet privateKey = .ok walletAddress)
    (hdex : resolveDex env chainId userId = .ok (some dex)) (hW : dex.weth = some W) :
    ∀ call ∈ (swapEVM env privateKey fromToken toToken amountIn slippage chainId userId).calls,
      (isNative fromToken = true → isNative toToken = false →
        (∀ r a p, call = .getAmountsOut r a p → r = dex.router ∧ p = [some W, toToken]) ∧
        (∀ a m p, call.swapArgs = some (a, m, p) →
          call = .swapExactETHForTokens dex.router m [some W, toToken] walletAddress
            (env.now / 1000 + 60 * 20) a ∧
          p = [some W, toToken] ∧
          ∃ amounts, env.getAmountsOut dex.router a [some W, toToken] = .ok amounts ∧
            amountOutMin env.round amounts 1 (slippage.getD 1) = .ok m)) ∧
      (isNative fromToken = false → isNative toToken = true →
        (∀ r a p, call = .getAmountsOut r a p → r = dex.router ∧ p = [fromToken, some W]) ∧
        (∀ a m p, call.swapArgs = some (a, m, p) →
          call = .swapExactTokensForETH dex.router a m [fromToken, some W] walletAddress
            (env.now / 1000 + 60 * 20) ∧
          p = [fromToken, some W] ∧
          ∃ amounts, env.getAmountsOut dex.router a [fromToken, some W] = .ok amounts ∧
            amountOutMin env.round amounts 1 (slippage.getD 1) = .ok m)) ∧
      (isNative fromToken = false → isNative toToken = false →
        (∀ r a p, call = .getAmountsOut r a p →
          r = dex.router ∧ p = [fromToken, some W, toToken]) ∧
        (∀ a m p, call.swapArgs = some (a, m, p) →
          call = .swapExactTokensForTokens dex.router a m [fromToken, some W, toToken]
            walletAddress (env.now / 1000 + 60 * 20) ∧
          p = [fromToken, some W, toToken] ∧
          ∃ amounts, env.getAmountsOut dex.router a [fromToken, some W, toToken] =
              .ok amounts ∧
            amountOutMin env.round amounts 2 (slippage.getD 1) = .ok m)) := by
  intro call hcall
  rw [swapEVM_calls env privateKey fromToken toToken amountIn slippage chainId userId
    walletAddress dex hw hdex] at hcall
  unfold swapEVMBody at hcall
  rw [hW] at hcall
  refine ⟨?_, ?_, ?_⟩
  · intro hf ht
    rw [if_pos ⟨hf, ht⟩] at hcall
    split at hcall
    · simp at hcall
    · next a hp =>
      rcases quoteAndSwap_mem env dex a [some W, toToken] 1 (slippage.getD 1) _ _ call hcall
        with h1 | ⟨amounts, m, hq, hm, h1⟩ | ⟨tx, h1⟩
      · subst h1
        refine ⟨fun r a' p h => ?_, fun a m p h => by simp [SwapCall.swapArgs] at h⟩
        simp at h
        exact ⟨h.1.symm, h.2.2.symm⟩
      · subst h1
        refine ⟨fun r a' p h => by simp at h, fun a' m' p h => ?_⟩
        simp [SwapCall.swapArgs] at h
        obtain ⟨rfl, rfl, rfl⟩ := h
        exact ⟨rfl, rfl, amounts, hq, hm⟩
      · subst h1
        exact ⟨fun r a p h => by simp at h, fun a m p h => by simp [SwapCall.swapArgs] at h⟩
  · intro hf ht
    have hn : ¬ (isNative fromToken = true ∧ isNative toToken = false) := by simp [hf]
    rw [if_neg hn, if_pos ⟨hf, ht⟩] at hcall
    exact swapFromToken_path env dex walletAddress _ amountIn [fromToken, some W] 1
      (slippage.getD 1)
      (fun amountInWei amountOutMin => .swapExactTokensForETH dex.router amountInWei
        amountOutMin [fromToken, some W] walletAddress (env.now / 1000 + 60 * 20)) _
      (fun _ _ => rfl) (fun _ _ _ _ _ h => by simp at h) call hcall
  · intro hf ht
    have hn : ¬ (isNative fromToken = true ∧ isNative toToken = false) := by simp [hf]
    have hn2 : ¬ (isNative fromToken = false ∧ isNative toToken = true) := by simp [ht]
    rw [if_neg hn, if_neg hn2, if_pos ⟨hf, ht⟩] at hcall
    exact swapFromToken_path env dex walletAddress _ amountIn [fromToken, some W, toToken] 2
      (slippage.getD 1)
      (fun amountInWei amountOutMin => .swapExactTokensForTokens dex.router amountInWei
        amountOutMin [fromToken, some W, toToken] walletAddress (env.now / 1000 + 60 * 20)) _
      (fun _ _ => rfl) (fun _ _ _ _ _ h => by simp at h) call hcall

set_option maxRecDepth 8000 in
/-- Witness for C17: the three shapes on chain `1` (Uniswap V2, wrapped native
`0xC02a...`), with a quote of 1000 at every hop and the default slippage. -/
theorem swapEVM_trade_paths_witness :
    (swapEVM sampleSwapEnv "key" (some "native") (some "0xTokenB") oneUnit none "1" "bob").calls =
      [.getAmountsOut "0x7a250d5630B4cF539739dF2C5dAcb4c659F2488D" (10 ^ 18)
          [some "0xC02aaA39b223FE8D0A0e5C4F27eAD9083C756Cc2", some "0xTokenB"],
        .swapExactETHForTokens "0x7a250d5630B4cF539739dF2C5dAcb4c659F2488D" 990
          [some "0xC02aaA39b223FE8D0A0e5C4F27eAD9083C756Cc2", some "0xTokenB"] "0xWallet"
          1700001200 (10 ^ 18),
        .wait "0xSwapTx"] ∧
    (swapEVM sampleSwapEnv "key" (some "0xTokenA") (some "ETH") oneUnit none "1" "bob").calls =
      [.decimals "0xTokenA",
        .allowance "0xTokenA" "0xWallet" "0x7a250d5630B4cF539739dF2C5dAcb4c659F2488D",
        .approve "0xTokenA" "0x7a250d5630B4cF539739dF2C5dAcb4c659F2488D" MaxUint256,
        .wait "0xApproveTx",
        .getAmountsOut "0x7a250d5630B4cF539739dF2C5dAcb4c659F2488D" (10 ^ 18)
          [some "0xTokenA", some "0xC02aaA39b223FE8D0A0e5C4F27eAD9083C756Cc2"],
        .swapExactTokensForETH "0x7a250d5630B4cF539739dF2C5dAcb4c659F2488D" (10 ^ 18) 990
          [some "0xTokenA", some "0xC02aaA39b223FE8D0A0e5C4F27eAD9083C756Cc2"] "0xWallet"
          1700001200,
        .wait "0xSwapTx"] ∧
    (∀ call ∈ (swapEVM sampleSwapEnv "key" (some "0xTokenA") (some "0xTokenB") oneUnit none "1"
        "bob").calls,
      ∀ r a p, call = .getAmountsOut r a p →
        r = "0x7a250d5630B4cF539739dF2C5dAcb4c659F2488D" ∧
          p = [some "0xTokenA", some "0xC02aaA39b223FE8D0A0e5C4F27eAD9083C756Cc2",
            some "0xTokenB"]) ∧
    SwapCall.getAmountsOut "0x7a250d5630B4cF539739dF2C5dAcb4c659F2488D" (10 ^ 18)
        [some "0xTokenA", some "0xC02aaA39b223FE8D0A0e5C4F27eAD9083C756Cc2", some "0xTokenB"] ∈
      (swapEVM sampleSwapEnv "key" (some "0xTokenA") (some "0xTokenB") oneUnit none "1"
        "bob").calls := by
  refine ⟨?_, ?_, ?_, ?_⟩
  · simp +decide [swapEVM, sampleSwapEnv, resolveDex, BUILTIN_DEX, List.lookup, swapEVMBody,
      isNative, oneUnit, quoteAndSwap, amountOutMin, slippageFactor]
    norm_num
    decide
  · simp +decide [swapEVM, sampleSwapEnv, resolveDex, BUILTIN_DEX, List.lookup, swapEVMBody,
      isNative, oneUnit, quoteAndSwap, swapFromToken, ensureAllowance, tokenText, amountOutMin,
      slippageFactor]
    norm_num
    decide
  · intro call hcall
    exact ((swapEVM_trade_paths sampleSwapEnv "key" (some "0xTokenA") (some "0xTokenB") oneUnit
      none "1" "bob" "0xWallet"
      ⟨"Uniswap V2", "0x7a250d5630B4cF539739dF2C5dAcb4c659F2488D",
        some "0xC02aaA39b223FE8D0A0e5C4F27eAD9083C756Cc2", UNISWAP_V2_ROUTER_ABI⟩
      "0xC02aaA39b223FE8D0A0e5C4F27eAD9083C756Cc2" rfl rfl rfl call hcall).2.2
        (by decide) (by decide)).1
  · simp +decide [swapEVM, sampleSwapEnv, resolveDex, BUILTIN_DEX, List.lookup, swapEVMBody,
      isNative, oneUnit, quoteAndSwap, swapFromToken, ensureAllowance, tokenText, amountOutMin,
      slippageFactor]

/-- The common tail submits no approval. -/
theorem quoteAndSwap_no_approve (env : SwapEnv) (dex : Dex) (amountInWei : Int)
    (path : List (Option String)) (index : Nat) (slippage : ℚ) (mkSwap : Int → SwapCall)
    (shape : TradeShape) (hmk : ∀ x t s y, mkSwap x ≠ .approve t s y) :
    ∀ t s y, SwapCall.approve t s y ∉
      (quoteAndSwap env dex amountInWei path index slippage mkSwap shape).calls := by
  intro t s y hmem
  rcases quoteAndSwap_mem env dex amountInWei path index slippage mkSwap shape _ hmem with
    h | ⟨_, m, _, _, h⟩ | ⟨tx, h⟩
  · simp at h
  · exact hmk m t s y h.symm
  · simp at h

/-- The calls of a token branch once the decimals are read and the amount is
converted: the decimals, the approval step and, when that step succeeded, the
common tail. -/
theorem swapFromToken_calls (env : SwapEnv) (dex : Dex) (walletAddress token : String)
    (amountIn : AmountIn) (path : List (Option String)) (index : Nat) (slippage : ℚ)
    (mkSwap : Int → Int → SwapCall) (shape : TradeShape) (d : Nat) (a : Int)
    (hd : env.decimals token = .ok d) (hp : amountIn.parseUnits d = .ok a) :
    ((ensureAllowance env token walletAddress dex.router a).out = .ok () →
      (swapFromToken env dex walletAddress token amountIn path index slippage mkSwap
          shape).calls =
        .decimals token :: (ensureAllowance env token walletAddress dex.router a).calls ++
          (quoteAndSwap env dex a path index slippage (mkSwap a) shape).calls) ∧
    ((ensureAllowance env token walletAddress dex.router a).out ≠ .ok () →
      (swapFromToken env dex walletAddress token amountIn path index slippage mkSwap
          shape).calls =
        .decimals token :: (ensureAllowance env token walletAddress dex.router a).calls) := by
  unfold swapFromToken
  simp only [hd, hp]
  refine ⟨?_, ?_⟩
  · intro hok
    rw [hok]
  · intro hne
    cases hout : (ensureAllowance env token walletAddress dex.router a).out with
    | error e => rfl
    | ok u => exact absurd hout hne

/-- Approval in a token branch, the allowance read being `allowance`: an
approval is among the calls exactly when the allowance is below the amount;
it is for `MaxUint256` and the router; and every swap comes after the approval
and the wait for it, which returned. -/
theorem swapFromToken_approval (env : SwapEnv) (dex : Dex) (walletAddress token : String)
    (amountIn : AmountIn) (path : List (Option String)) (index : Nat) (slippage : ℚ)
    (mkSwap : Int → Int → SwapCall) (shape : TradeShape) (d : Nat) (a allowance : Int)
    (hmk : ∀ w x t s y, mkSwap w x ≠ .approve t s y)
    (hd : env.decimals token = .ok d) (hp : amountIn.parseUnits d = .ok a)
    (hal : env.allowance token walletAddress dex.router = .ok allowance) :
    (SwapCall.approve token dex.router MaxUint256 ∈
        (swapFromToken env dex walletAddress token amountIn path index slippage mkSwap
          shape).calls ↔ allowance < a) ∧
    (∀ t s y, SwapCall.approve t s y ∈
        (swapFromToken env dex walletAddress token amountIn path index slippage mkSwap
          shape).calls → t = token ∧ s = dex.router ∧ y = MaxUint256) ∧
    (∀ pre call post,
      (swapFromToken env dex walletAddress token amountIn path index slippage mkSwap
          shape).calls = pre ++ call :: post →
      call.swapArgs ≠ none → allowance < a →
      ∃ approveTx h rest, env.approve token dex.router MaxUint256 = .ok approveTx ∧
        env.wait approveTx = .ok h ∧
        pre = [.decimals token, .allowance token walletAddress dex.router,
          .approve token dex.router MaxUint256, .wait approveTx] ++ rest) := by
  have hcalls := swapFromToken_calls env dex walletAddress token amountIn path index slippage
    mkSwap shape d a hd hp
  have hnoq := quoteAndSwap_no_approve env dex a path index slippage (mkSwap a) shape
    (hmk a)
  have hstep := ensureAllowance_calls env token walletAddress dex.router a allowance hal
  have hmemE := ensureAllowance_mem env token walletAddress dex.router a
  have hnoswapE := ensureAllowance_no_swap env token walletAddress dex.router a
  -- every call is the decimals, one of the approval step, or one of the tail
  have hmem := swapFromToken_mem env dex walletAddress token amountIn path index slippage
    mkSwap shape
  have hda : ∀ d' a', env.decimals token = .ok d' → amountIn.parseUnits d' = .ok a' →
      a' = a := by
    intro d' a' h1 h2
    rw [hd] at h1
    cases h1
    rw [hp] at h2
    cases h2
    rfl
  refine ⟨⟨?_, ?_⟩, ?_, ?_⟩
  · intro happ
    by_contra hge
    obtain ⟨hc, _⟩ := hstep.2 hge
    rcases hmem _ happ with h | ⟨d', a', h1, h2, h | h⟩
    · simp at h
    · rw [hda d' a' h1 h2, hc] at h; simp at h
    · rw [hda d' a' h1 h2] at h; exact hnoq _ _ _ h
  · intro hlt
    have hin : SwapCall.approve token dex.router MaxUint256 ∈
        (ensureAllowance env token walletAddress dex.router a).calls := by
      rcases hstep.1 hlt with ⟨hc, _⟩ | ⟨tx, _, hc, _⟩ <;> rw [hc] <;> simp
    by_cases hout : (ensureAllowance env token walletAddress dex.router a).out = .ok ()
    · rw [hcalls.1 hout]; simp [hin]
    · rw [hcalls.2 hout]; simp [hin]
  · intro t s y happ
    rcases hmem _ happ with h | ⟨d', a', h1, h2, h | h⟩
    · simp at h
    · rcases hmemE _ (hda d' a' h1 h2 ▸ h) with h3 | h3 | ⟨tx, h3⟩
      · simp at h3
      · simp at h3; exact h3
      · simp at h3
    · rw [hda d' a' h1 h2] at h; exact absurd h (hnoq _ _ _)
  · intro pre call post heq hswap hlt
    rcases hstep.1 hlt with ⟨hc, _, e, he⟩ | ⟨tx, htx, hc, hiff⟩
    · -- the approval was refused: no swap at all
      have hne : (ensureAllowance env token walletAddress dex.router a).out ≠ .ok () := by
        rw [he]; simp
      have hin : call ∈ (swapFromToken env dex walletAddress token amountIn path index
          slippage mkSwap shape).calls := by rw [heq]; simp
      rw [hcalls.2 hne, hc] at hin
      simp at hin
      rcases hin with h | h | h <;> subst h <;> simp [SwapCall.swapArgs] at hswap
    · by_cases hout : (ensureAllowance env token walletAddress dex.router a).out = .ok ()
      · obtain ⟨h, hwait⟩ := hiff.mp hout
        refine ⟨tx, h, ?_⟩
        rw [hcalls.1 hout, hc] at heq
        rcases pre with _ | ⟨c1, _ | ⟨c2, _ | ⟨c3, _ | ⟨c4, rest⟩⟩⟩⟩
        · simp at heq; rw [← heq.1] at hswap; simp [SwapCall.swapArgs] at hswap
        · simp at heq; rw [← heq.2.1] at hswap; simp [SwapCall.swapArgs] at hswap
        · simp at heq; rw [← heq.2.2.1] at hswap; simp [SwapCall.swapArgs] at hswap
        · simp at heq; rw [← heq.2.2.2.1] at hswap; simp [SwapCall.swapArgs] at hswap
        · simp at heq
          obtain ⟨h1, h2, h3, h4, _⟩ := heq
          exact ⟨rest, htx, hwait, by simp [h1, h2, h3, h4]⟩
      · have hin : call ∈ (swapFromToken env dex walletAddress token amountIn path index
            slippage mkSwap shape).calls := by rw [heq]; simp
        rw [hcalls.2 hout, hc] at hin
        simp at hin
        rcases hin with h | h | h | h <;> subst h <;> simp [SwapCall.swapArgs] at hswap

/-- C18. Approval before swap.  For every token-denominated input whose
decimals, amount and allowance are read (`amountIn` being the amount in the
token's smallest unit), `swapEVM` submits an approval exactly when the
router's allowance is strictly below `amountIn`; every approval it submits is
on the input token, for the router and for `MaxUint256`; and every swap it
submits comes after that approval and the wait for it, which returned.  With
an allowance of at least `amountIn`, and for every native input, no approval
is submitted. -/
theorem swapEVM_approval :
    (∀ (env : SwapEnv) (privateKey : String) (fromToken toToken : Option String)
        (amountIn : AmountIn) (slippage : Option ℚ) (chainId userId walletAddress : String)
        (dex : Dex) (d : Nat) (a allowance : Int),
      env.wallet privateKey = .ok walletAddress →
      resolveDex env chainId userId = .ok (some dex) →
      isNative fromToken = false →
      env.decimals (tokenText fromToken) = .ok d → amountIn.parseUnits d = .ok a →
      env.allowance (tokenText fromToken) walletAddress dex.router = .ok allowance →
      (SwapCall.approve (tokenText fromToken) dex.router MaxUint256 ∈
          (swapEVM env privateKey fromToken toToken amountIn slippage chainId userId).calls ↔
        allowance < a) ∧
      (∀ t s y, SwapCall.approve t s y ∈
          (swapEVM env privateKey fromToken toToken amountIn slippage chainId userId).calls →
        t = tokenText fromToken ∧ s = dex.router ∧ y = MaxUint256) ∧
      (∀ pre call post,
        (swapEVM env privateKey fromToken toToken amountIn slippage chainId userId).calls =
          pre ++ call :: post →
        call.swapArgs ≠ none → allowance < a →
        ∃ approveTx h rest,
          env.approve (tokenText fromToken) dex.router MaxUint256 = .ok approveTx ∧
          env.wait approveTx = .ok h ∧
          pre = [.decimals (tokenText fromToken),
            .allowance (tokenText fromToken) walletAddress dex.router,
            .approve (tokenText fromToken) dex.router MaxUint256, .wait approveTx] ++ rest)) ∧
    (∀ (env : SwapEnv) (privateKey : String) (fromToken toToken : Option String)
        (amountIn : AmountIn) (slippage : Option ℚ) (chainId userId : String),
      isNative fromToken = true →
      ∀ t s y, SwapCall.approve t s y ∉
        (swapEVM env privateKey fromToken toToken amountIn slippage chainId userId).calls) := by
  refine ⟨?_, ?_⟩
  · intro env privateKey fromToken toToken amountIn slippage chainId userId walletAddress dex
      d a allowance hw hdex hfrom hd hp hal
    rw [swapEVM_calls env privateKey fromToken toToken amountIn slippage chainId userId
      walletAddress dex hw hdex]
    have hn : ¬ (isNative fromToken = true ∧ isNative toToken = false) := by simp [hfrom]
    unfold swapEVMBody
    rw [if_neg hn]
    by_cases hto : isNative toToken = true
    · rw [if_pos ⟨hfrom, hto⟩]
      exact swapFromToken_approval env dex walletAddress _ amountIn _ 1 _
        (fun amountInWei amountOutMin => .swapExactTokensForETH dex.router amountInWei
          amountOutMin [fromToken, dex.weth] walletAddress (env.now / 1000 + 60 * 20))
        _ d a allowance (fun _ _ _ _ _ h => by simp at h) hd hp hal
    · have hto2 : isNative toToken = false := by simpa using hto
      have hn2 : ¬ (isNative fromToken = false ∧ isNative toToken = true) := by simp [hto2]
      rw [if_neg hn2, if_pos ⟨hfrom, hto2⟩]
      exact swapFromToken_approval env dex walletAddress _ amountIn _ 2 _
        (fun amountInWei amountOutMin => .swapExactTokensForTokens dex.router amountInWei
          amountOutMin [fromToken, dex.weth, toToken] walletAddress (env.now / 1000 + 60 * 20))
        _ d a allowance (fun _ _ _ _ _ h => by simp at h) hd hp hal
  · intro env privateKey fromToken toToken amountIn slippage chainId userId hfrom t s y hmem
    unfold swapEVM at hmem
    cases hw : env.wallet privateKey with
    | error e => simp [hw] at hmem
    | ok walletAddress =>
      cases hr : resolveDex env chainId userId with
      | error e => simp [hw, hr] at hmem
      | ok found =>
        cases found with
        | none => simp [hw, hr] at hmem
        | some dex =>
          simp only [hw, hr] at hmem
          have hbody : SwapCall.approve t s y ∈ (swapEVMBody env dex walletAddress fromToken
              toToken amountIn (slippage.getD 1) (env.now / 1000 + 60 * 20)).calls := by
            split at hmem <;> exact hmem
          unfold swapEVMBody at hbody
          have hn2 : ¬ (isNative fromToken = false ∧ isNative toToken = true) := by
            simp [hfrom]
          have hn3 : ¬ (isNative fromToken = false ∧ isNative toToken = false) := by
            simp [hfrom]
          by_cases hto : isNative toToken = false
          · rw [if_pos ⟨hfrom, hto⟩] at hbody
            split at hbody
            · simp at hbody
            · exact quoteAndSwap_no_approve env dex _ _ 1 _ _ _
                (fun _ _ _ _ h => by simp at h) t s y hbody
          · have hn1 : ¬ (isNative fromToken = true ∧ isNative toToken = false) := by
              simp [hto]
            rw [if_neg hn1, if_neg hn2, if_neg hn3] at hbody
            simp at hbody

/-- Witness for C18: with no allowance, a swap of one token for native
currency approves `MaxUint256` and waits before it quotes and swaps; a native
input submits no approval. -/
theorem swapEVM_approval_witness :
    (SwapCall.approve (tokenText (some "0xTokenA"))
          "0x7a250d5630B4cF539739dF2C5dAcb4c659F2488D" MaxUint256 ∈
        (swapEVM sampleSwapEnv "key" (some "0xTokenA") (some "ETH") oneUnit none "1"
          "bob").calls ↔ (0 : Int) < 10 ^ 18) ∧
    ∀ t s y, SwapCall.approve t s y ∉
      (swapEVM sampleSwapEnv "key" (some "native") (some "0xTokenB") oneUnit none "1"
        "bob").calls :=
  ⟨(swapEVM_approval.1 sampleSwapEnv "key" (some "0xTokenA") (some "ETH") oneUnit none "1" "bob"
      "0xWallet"
      ⟨"Uniswap V2", "0x7a250d5630B4cF539739dF2C5dAcb4c659F2488D",
        some "0xC02aaA39b223FE8D0A0e5C4F27eAD9083C756Cc2", UNISWAP_V2_ROUTER_ABI⟩
      18 (10 ^ 18) 0 rfl rfl (by decide) rfl rfl rfl).1,
   swapEVM_approval.2 sampleSwapEnv "key" (some "native") (some "0xTokenB") oneUnit none "1"
      "bob" (by decide)⟩

/-- The minimum of every swap of the `try` block when the slippage handed over
is the percentage `bps / 100` and the double operations are exact. -/
theorem swapEVMBody_min_of_bps (env : SwapEnv) (dex : Dex) (walletAddress : String)
    (fromToken toToken : Option String) (amountIn : AmountIn) (deadline : Nat) (bps : Int)
    (hbps : bps ≤ 10000)
    (hsub : env.round (100 - (bps : ℚ) / 100) = 100 - (bps : ℚ) / 100)
    (hmul : env.round ((100 - (bps : ℚ) / 100) * 100) = (100 - (bps : ℚ) / 100) * 100) :
    ∀ call ∈ (swapEVMBody env dex walletAddress fromToken toToken amountIn ((bps : ℚ) / 100)
        deadline).calls,
      ∀ a m path, call.swapArgs = some (a, m, path) →
        ∃ amounts amountOut, env.getAmountsOut dex.router a path = .ok amounts ∧
          amounts[path.length - 1]? = some amountOut ∧
          m = (amountOut : Int) * (10000 - bps) / 10000 := by
  intro call hcall a m path hargs
  obtain ⟨amounts, hq, hm⟩ :=
    swapEVMBody_amountOutMin env dex walletAddress fromToken toToken amountIn _ deadline
      call hcall a m path hargs
  unfold amountOutMin at hm
  cases hget : amounts[path.length - 1]? with
  | none => simp [hget] at hm
  | some amountOut =>
    simp only [hget, slippageFactor_of_bps env.round bps hsub hmul] at hm
    refine ⟨amounts, amountOut, hq, hget, ?_⟩
    have hm2 := (Except.ok.inj hm).symm
    rw [hm2, Int.tdiv_eq_ediv (Int.mul_nonneg (by omega) (by omega)) (by omega)]

/-- C19, counterexample. A swap through `swap` on the Solana family with the
slippage unset asks Jupiter for a quote with `slippageBps=50`, not 100. -/
theorem swap_default_slippage_counterexample :
    SwapServiceCall.quotedSlippage
        (swap sampleSwapEnv sampleJupiterEnv "solana" "key" (some "native") (some "MintB")
          oneSwapUnit none "1" "bob").calls = [50] ∧
      (50 : ℚ) ≠ 100 := by
  refine ⟨?_, by norm_num⟩
  simp +decide [swap, swapSolana, swapSolanaBody, sampleJupiterEnv,
    SwapServiceCall.quotedSlippage]

/-- C19, amended. For every swap request made through `swap` with the slippage
unset: on the Solana family every Jupiter quote is asked with `slippageBps=50`
(0.5 percent); on every other family `swapEVM` runs with its default of 1
percent, so that (the double operations on 1 being exact) every swap
it submits carries `floor(amountOut * (10000 - 100) / 10000)`, 100 basis
points below the quote. -/
theorem swap_default_slippage (senv : SwapEnv) (jenv : JupiterEnv) (chain privateKey : String)
    (fromToken toToken : Option String) (amountIn : SwapAmount) (chainId userId : String) :
    (chain = "solana" →
      ∀ s ∈ SwapServiceCall.quotedSlippage
          (swap senv jenv chain privateKey fromToken toToken amountIn none chainId
            userId).calls, s = 50) ∧
    (chain ≠ "solana" → senv.round 99 = 99 → senv.round 9900 = 9900 →
      swap senv jenv chain privateKey fromToken toToken amountIn none chainId userId =
        swap senv jenv chain privateKey fromToken toToken amountIn (some 1) chainId userId ∧
      ∀ c ∈ (swap senv jenv chain privateKey fromToken toToken amountIn none chainId
          userId).calls,
        ∀ call a m path, c = .evm call → call.swapArgs = some (a, m, path) →
          ∃ dex amounts amountOut, resolveDex senv chainId userId = .ok (some dex) ∧
            senv.getAmountsOut dex.router a path = .ok amounts ∧
            amounts[path.length - 1]? = some amountOut ∧
            m = (amountOut : Int) * (10000 - 100) / 10000) := by
  refine ⟨?_, ?_⟩
  · intro hchain s hs
    unfold swap at hs
    simp only [if_pos hchain] at hs
    unfold swapSolana swapSolanaBody at hs
    simp only [Option.getD_none] at hs
    revert hs
    cases jenv.fromSecretKey privateKey with
    | error e => simp [SwapServiceCall.quotedSlippage]
    | ok publicKey =>
      simp only
      cases jenv.quote _ with
      | error e => simp [SwapServiceCall.quotedSlippage]
      | ok quote =>
        simp only
        split_ifs
        · simp [SwapServiceCall.quotedSlippage]
        · cases jenv.swapTransaction quote publicKey with
          | error e => simp [SwapServiceCall.quotedSlippage]
          | ok tx =>
            simp only
            cases jenv.sendRawTransaction tx with
            | error e => simp [SwapServiceCall.quotedSlippage]
            | ok sig =>
              simp only
              cases jenv.confirmTransaction sig <;> simp [SwapServiceCall.quotedSlippage]
  · intro hchain h99 h9900
    refine ⟨?_, ?_⟩
    · unfold swap swapEVM
      simp [hchain]
    · intro c hc call a m path hcev hargs
      unfold swap at hc
      simp only [if_neg hchain] at hc
      subst hcev
      have hcall : call ∈ (swapEVM senv privateKey fromToken toToken amountIn.units none
          chainId userId).calls := by simpa using hc
      unfold swapEVM at hcall
      cases hw : senv.wallet privateKey with
      | error e => simp [hw] at hcall
      | ok walletAddress =>
        cases hr : resolveDex senv chainId userId with
        | error e => simp [hw, hr] at hcall
        | ok found =>
          cases found with
          | none => simp [hw, hr] at hcall
          | some dex =>
            simp only [hw, hr] at hcall
            have hbody : call ∈ (swapEVMBody senv dex walletAddress fromToken toToken
                amountIn.units (((100 : Int) : ℚ) / 100) (senv.now / 1000 + 60 * 20)).calls := by
              have h1 : (((100 : Int) : ℚ) / 100) = (none : Option ℚ).getD 1 := by norm_num
              rw [h1]
              split at hcall <;> exact hcall
            obtain ⟨amounts, amountOut, hq, hget, hm⟩ :=
              swapEVMBody_min_of_bps senv dex walletAddress fromToken toToken amountIn.units
                (senv.now / 1000 + 60 * 20) 100 (by decide)
                (by norm_num; exact h99) (by norm_num; exact h9900) call hbody a m path hargs
            exact ⟨dex, amounts, amountOut, rfl, hq, hget, hm⟩

/-- Witness for C19: on chain `1` with the slippage unset, a quote of 1000
gives a minimum of 990; on Solana the quote is asked with 50. -/
theorem swap_default_slippage_witness :
    (∀ s ∈ SwapServiceCall.quotedSlippage
        (swap sampleSwapEnv sampleJupiterEnv "solana" "key" (some "native") (some "MintB")
          oneSwapUnit none "1" "bob").calls, s = 50) ∧
    swap sampleSwapEnv sampleJupiterEnv "evm" "key" (some "native") (some "0xTokenB")
        oneSwapUnit none "1" "bob" =
      swap sampleSwapEnv sampleJupiterEnv "evm" "key" (some "native") (some "0xTokenB")
        oneSwapUnit (some 1) "1" "bob" :=
  ⟨(swap_default_slippage sampleSwapEnv sampleJupiterEnv "solana" "key" (some "native")
      (some "MintB") oneSwapUnit "1" "bob").1 rfl,
   ((swap_default_slippage sampleSwapEnv sampleJupiterEnv "evm" "key" (some "native")
      (some "0xTokenB") oneSwapUnit "1" "bob").2 (by decide) rfl rfl).1⟩

/-! ## Theorems: nftService.js -/

/-- The probe over a list of signatures: when the first `n` attempts fail and
attempt `n` succeeds, the attempts made are those for the first `n + 1`
signatures, in order, and the result is the success of attempt `n`. -/
theorem autoMintLoop_first_success (c : MintContract) (walletAddress : String)
    (mintPrice : Int) :
    ∀ (sigs : List MintSignature) (k n : Nat) (hash : String) (hn : n < sigs.length),
      (∀ i (hi : i < sigs.length), i < n →
        ∀ h, ¬ c.mints (k + i) (mintRequest walletAddress mintPrice sigs[i]) h) →
      c.mints (k + n) (mintRequest walletAddress mintPrice sigs[n]) hash →
      (autoMintLoop c walletAddress mintPrice k sigs).1 = ⟨true, some hash, none⟩ ∧
        MintCall.attempts (autoMintLoop c walletAddress mintPrice k sigs).2 =
          (sigs.take (n + 1)).map (mintRequest walletAddress mintPrice) := by
  intro sigs
  induction sigs with
  | nil => intro k n hash hn; simp at hn
  | cons sig rest ih =>
    intro k n hash hn hfail hok
    cases n with
    | zero =>
      obtain ⟨tx, hc, hw⟩ := hok
      simp only [Nat.add_zero, List.getElem_cons_zero] at hc hw
      simp [autoMintLoop, hc, hw, MintCall.attempts]
    | succ j =>
      have hj : j < rest.length := by simpa using hn
      have hfail0 := hfail 0 (by simp) (by omega)
      simp only [Nat.add_zero, List.getElem_cons_zero] at hfail0
      have htail := ih (k + 1) j hash hj
        (fun i hi hij h => by
          have := hfail (i + 1) (by simpa using hi) (by omega) h
          have hk : k + 1 + i = k + (i + 1) := by omega
          rw [hk]; simpa using this)
        (by
          have hk : k + 1 + j = k + (j + 1) := by omega
          rw [hk]; simpa using hok)
      unfold autoMintLoop
      cases hc : c.call k (mintRequest walletAddress mintPrice sig) with
      | error e => simp [hc, htail, MintCall.attempts]
      | ok tx =>
        cases hw : c.wait k tx with
        | error e => simp [hc, hw, htail, MintCall.attempts]
        | ok h => exact absurd ⟨tx, hc, hw⟩ (hfail0 h)

/-- The probe over a list of signatures: when every attempt fails, one attempt
is made for every signature, in order, and the failure object is returned. -/
theorem autoMintLoop_all_fail (c : MintContract) (walletAddress : String) (mintPrice : Int) :
    ∀ (sigs : List MintSignature) (k : Nat),
      (∀ i (hi : i < sigs.length),
        ∀ h, ¬ c.mints (k + i) (mintRequest walletAddress mintPrice sigs[i]) h) →
      (autoMintLoop c walletAddress mintPrice k sigs).1.success = false ∧
        MintCall.attempts (autoMintLoop c walletAddress mintPrice k sigs).2 =
          sigs.map (mintRequest walletAddress mintPrice) := by
  intro sigs
  induction sigs with
  | nil => intro k _; simp [autoMintLoop, MintCall.attempts]
  | cons sig rest ih =>
    intro k hfail
    have hfail0 := hfail 0 (by simp)
    simp only [Nat.add_zero, List.getElem_cons_zero] at hfail0
    have htail := ih (k + 1) (fun i hi h => by
      have := hfail (i + 1) (by simpa using hi) h
      have hk : k + 1 + i = k + (i + 1) := by omega
      rw [hk]; simpa using this)
    unfold autoMintLoop
    cases hc : c.call k (mintRequest walletAddress mintPrice sig) with
    | error e => simp [hc, htail, MintCall.attempts]
    | ok tx =>
      cases hw : c.wait k tx with
      | error e => simp [hc, hw, htail, MintCall.attempts]
      | ok h => exact absurd ⟨tx, hc, hw⟩ (hfail0 h)

/-- C6. Mint signature probing is ordered and short-circuiting.  For every
contract whose first `n` attempts fail and whose attempt `n + 1` succeeds
(`0 ≤ n < 7`), `autoMint` makes exactly `n + 1` call attempts, those for the
first `n + 1` entries of `MINT_SIGNATURES` in list order, and returns success
with the hash of the receipt of that attempt.  When all seven attempts fail it
makes exactly seven attempts, one per entry in list order, and returns
`success = false`. -/
theorem autoMint_probes_in_order (c : MintContract) (walletAddress : String) (mintPrice : Int) :
    MINT_SIGNATURES.length = 7 ∧
    (∀ (n : Nat) (hash : String) (hn : n < MINT_SIGNATURES.length),
      (∀ i (hi : i < MINT_SIGNATURES.length), i < n →
        ∀ h, ¬ c.mints i (mintRequest walletAddress mintPrice MINT_SIGNATURES[i]) h) →
      c.mints n (mintRequest walletAddress mintPrice MINT_SIGNATURES[n]) hash →
      (autoMint c walletAddress mintPrice).1 = ⟨true, some hash, none⟩ ∧
        MintCall.attempts (autoMint c walletAddress mintPrice).2 =
          (MINT_SIGNATURES.take (n + 1)).map (mintRequest walletAddress mintPrice) ∧
        (MintCall.attempts (autoMint c walletAddress mintPrice).2).length = n + 1) ∧
    ((∀ i (hi : i < MINT_SIGNATURES.length),
        ∀ h, ¬ c.mints i (mintRequest walletAddress mintPrice MINT_SIGNATURES[i]) h) →
      (autoMint c walletAddress mintPrice).1.success = false ∧
        MintCall.attempts (autoMint c walletAddress mintPrice).2 =
          MINT_SIGNATURES.map (mintRequest walletAddress mintPrice) ∧
        (MintCall.attempts (autoMint c walletAddress mintPrice).2).length = 7) := by
  refine ⟨rfl, ?_, ?_⟩
  · intro n hash hn hfail hok
    have h := autoMintLoop_first_success c walletAddress mintPrice MINT_SIGNATURES 0 n hash hn
      (fun i hi hin h => by simpa using hfail i hi hin h) (by simpa using hok)
    refine ⟨h.1, h.2, ?_⟩
    unfold autoMint
    rw [h.2, List.length_map, List.length_take]
    omega
  · intro hfail
    have h := autoMintLoop_all_fail c walletAddress mintPrice MINT_SIGNATURES 0
      (fun i hi h => by simpa using hfail i hi h)
    refine ⟨h.1, h.2, ?_⟩
    unfold autoMint
    rw [h.2, List.length_map]
    rfl

/-- Witness for C6: a contract that knows `claim` only fails on the four
entries before `claim()` and succeeds on the fifth: five attempts, in the
order `mint`, `mint`, `publicMint`, `publicMint`, `claim`. -/
theorem autoMint_probes_in_order_witness :
    (MintCall.attempts (autoMint claimOnlyContract "0xWallet" 0).2).map MintRequest.method =
        ["mint", "mint", "publicMint", "publicMint", "claim"] ∧
      (autoMint claimOnlyContract "0xWallet" 0).1 = ⟨true, some "0xTx", none⟩ ∧
      MintCall.attempts (autoMint claimOnlyContract "0xWallet" 0).2 =
        (MINT_SIGNATURES.take (4 + 1)).map (mintRequest "0xWallet" 0) ∧
      (MintCall.attempts (autoMint claimOnlyContract "0xWallet" 0).2).length = 4 + 1 := by
  refine ⟨by decide, ?_⟩
  refine (autoMint_probes_in_order claimOnlyContract "0xWallet" 0).2.1 4 "0xTx" (by decide) ?_ ?_
  · intro i hi hin h
    have hcases : i = 0 ∨ i = 1 ∨ i = 2 ∨ i = 3 := by omega
    rcases hcases with rfl | rfl | rfl | rfl <;>
      · rintro ⟨tx, hc, _⟩
        simp +decide [claimOnlyContract, mintRequest, methodName, MINT_SIGNATURES] at hc
  · exact ⟨"0xTx", rfl, rfl⟩

theorem detectMintPriceLoop_first (read : String → Except String Int) :
    ∀ (fns : List String) (n : Nat) (hn : n < fns.length) (price : Int),
      (∀ i (hi : i < fns.length), i < n → ∃ e, read fns[i] = .error e) →
      read fns[n] = .ok price →
      detectMintPriceLoop read fns = (price, fns.take (n + 1)) := by
  intro fns
  induction fns with
  | nil => intro n hn; simp at hn
  | cons fn rest ih =>
    intro n hn price hfail hok
    cases n with
    | zero =>
      simp only [List.getElem_cons_zero] at hok
      simp [detectMintPriceLoop, hok]
    | succ m =>
      obtain ⟨e, he⟩ := hfail 0 (by simp) (by omega)
      simp only [List.getElem_cons_zero] at he
      have htail := ih m (by simpa using hn) price
        (fun i hi him => by
          have := hfail (i + 1) (by simpa using hi) (by omega)
          simpa using this)
        (by simpa using hok)
      simp [detectMintPriceLoop, he, htail]

theorem detectMintPriceLoop_none (read : String → Except String Int) :
    ∀ (fns : List String), (∀ fn ∈ fns, ∃ e, read fn = .error e) →
      detectMintPriceLoop read fns = (0, fns) := by
  intro fns
  induction fns with
  | nil => intro _; rfl
  | cons fn rest ih =>
    intro hfail
    obtain ⟨e, he⟩ := hfail fn (by simp)
    have htail := ih (fun g hg => hfail g (List.mem_cons_of_mem _ hg))
    simp [detectMintPriceLoop, he, htail]

/-- C26. Mint price detection: the accessors are `price`, `mintPrice`, `cost`,
`PRICE`, `MINT_PRICE`, in this order; when the first `n` of them fail and the
next one returns a value, `detectMintPrice` returns that value after calling
exactly the first `n + 1` accessors; when all five fail it returns `0` after
calling the five of them. -/
theorem detectMintPrice_first_success (read : String → Except String Int) :
    priceFns = ["price", "mintPrice", "cost", "PRICE", "MINT_PRICE"] ∧
    (∀ (n : Nat) (hn : n < priceFns.length) (price : Int),
      (∀ i (hi : i < priceFns.length), i < n → ∃ e, read priceFns[i] = .error e) →
      read priceFns[n] = .ok price →
      detectMintPrice read = (price, priceFns.take (n + 1))) ∧
    ((∀ fn ∈ priceFns, ∃ e, read fn = .error e) → detectMintPrice read = (0, priceFns)) :=
  ⟨rfl, fun n hn price hfail hok => detectMintPriceLoop_first read priceFns n hn price hfail hok,
    fun hfail => detectMintPriceLoop_none read priceFns hfail⟩

/-- Witness for C26: a contract whose `price` and `mintPrice` fail and whose
`cost` returns 5; `PRICE` and `MINT_PRICE` are not called. -/
theorem detectMintPrice_first_success_witness :
    detectMintPrice apesContract.read = (5, ["price", "mintPrice", "cost"]) :=
  (detectMintPrice_first_success apesContract.read).2.1 2 (by decide) 5
    (fun i hi hlt => by
      have h : i = 0 ∨ i = 1 := by omega
      rcases h with h | h <;> subst h <;> exact ⟨"no such function", rfl⟩)
    rfl

theorem erc721_attempts_append (a b : List Erc721Call) :
    Erc721Call.attempts (a ++ b) = Erc721Call.attempts a ++ Erc721Call.attempts b := by
  induction a with
  | nil => rfl
  | cons c cs ih =>
    cases c with
    | name => simp [Erc721Call.attempts, ih]
    | read fn => simp [Erc721Call.attempts, ih]
    | mint call => cases call <;> simp [Erc721Call.attempts, ih]

theorem erc721_attempts_read (fns : List String) :
    Erc721Call.attempts (fns.map Erc721Call.read) = [] := by
  induction fns with
  | nil => rfl
  | cons fn rest ih => simp [Erc721Call.attempts, ih]

theorem erc721_attempts_mint (cs : List MintCall) :
    Erc721Call.attempts (cs.map Erc721Call.mint) = MintCall.attempts cs := by
  induction cs with
  | nil => rfl
  | cons c rest ih => cases c <;> simp [Erc721Call.attempts, MintCall.attempts, ih]

theorem autoMintLoop_attempts_mem (c : MintContract) (walletAddress : String)
    (mintPrice : Int) :
    ∀ (sigs : List MintSignature) (k : Nat),
      ∀ request ∈ MintCall.attempts (autoMintLoop c walletAddress mintPrice k sigs).2,
        ∃ sig ∈ sigs, request = mintRequest walletAddress mintPrice sig := by
  intro sigs
  induction sigs with
  | nil => intro k request h; simp [autoMintLoop, MintCall.attempts] at h
  | cons sig rest ih =>
    intro k request h
    unfold autoMintLoop at h
    simp only [] at h
    split at h
    · simp only [MintCall.attempts, List.mem_cons] at h
      rcases h with h | h
      · exact ⟨sig, by simp, h⟩
      · obtain ⟨s, hs, hr⟩ := ih (k + 1) request h
        exact ⟨s, List.mem_cons_of_mem _ hs, hr⟩
    · split at h
      · simp only [MintCall.attempts, List.mem_cons] at h
        rcases h with h | h
        · exact ⟨sig, by simp, h⟩
        · obtain ⟨s, hs, hr⟩ := ih (k + 1) request h
          exact ⟨s, List.mem_cons_of_mem _ hs, hr⟩
      · simp only [MintCall.attempts, List.mem_cons, List.mem_singleton] at h
        rcases h with h | h
        · exact ⟨sig, by simp, h⟩
        · simp at h

/-- Every attempt of `autoMint` carries the unit price, when it is positive,
and no payment otherwise; its arguments are none, the number `1`, or the
wallet address. -/
theorem autoMint_attempt_shape (c : MintContract) (walletAddress : String) (mintPrice : Int) :
    ∀ request ∈ MintCall.attempts (autoMint c walletAddress mintPrice).2,
      request.value = (if mintPrice > 0 then some mintPrice else none) ∧
      (request.args = [] ∨ request.args = [.number 1] ∨
        request.args = [.string walletAddress]) := by
  intro request h
  obtain ⟨sig, hsig, hr⟩ := autoMintLoop_attempts_mem c walletAddress mintPrice _ _ request h
  subst hr
  simp only [MINT_SIGNATURES, List.mem_cons, List.mem_singleton, List.not_mem_nil,
    or_false] at hsig
  rcases hsig with h | h | h | h | h | h | h <;> subst h <;> simp [mintRequest]

theorem mintERC721Body_automatic (c : Erc721Contract) (walletAddress contractAddress : String)
    (quantity : Nat) (fn : Option String) (hfn : fn = none ∨ fn = some "") :
    Erc721Call.attempts (mintERC721Body c walletAddress contractAddress quantity fn).calls =
      MintCall.attempts (autoMint c.methods walletAddress (detectMintPrice c.read).1).2 ∧
    ∀ r, (mintERC721Body c walletAddress contractAddress quantity fn).out = .ok r →
      (r.success = true →
        r.message = .minted quantity (collectionName c contractAddress)
          ((detectMintPrice c.read).1 * (quantity : Int))) ∧
      (r.success = false → r.message =
        .note (autoMint c.methods walletAddress (detectMintPrice c.read).1).1.message) := by
  have hbody : mintERC721Body c walletAddress contractAddress quantity fn =
      if (autoMint c.methods walletAddress (detectMintPrice c.read).1).1.success = true then
        ⟨.ok ⟨true, (autoMint c.methods walletAddress (detectMintPrice c.read).1).1.txHash,
            .minted quantity (collectionName c contractAddress)
              ((detectMintPrice c.read).1 * (quantity : Int))⟩,
          (.name :: (detectMintPrice c.read).2.map .read) ++
            (autoMint c.methods walletAddress (detectMintPrice c.read).1).2.map .mint⟩
      else
        ⟨.ok ⟨false, (autoMint c.methods walletAddress (detectMintPrice c.read).1).1.txHash,
            .note (autoMint c.methods walletAddress (detectMintPrice c.read).1).1.message⟩,
          (.name :: (detectMintPrice c.read).2.map .read) ++
            (autoMint c.methods walletAddress (detectMintPrice c.read).1).2.map .mint⟩ := by
    rcases hfn with h | h <;> subst h <;> simp [mintERC721Body]
  rw [hbody]
  split_ifs with hs
  · refine ⟨?_, fun r hr => ?_⟩
    · rw [erc721_attempts_append, erc721_attempts_mint]
      simp [Erc721Call.attempts, erc721_attempts_read]
    · simp only [Except.ok.injEq] at hr
      subst hr
      simp
  · refine ⟨?_, fun r hr => ?_⟩
    · rw [erc721_attempts_append, erc721_attempts_mint]
      simp [Erc721Call.attempts, erc721_attempts_read]
    · simp only [Except.ok.injEq] at hr
      subst hr
      simp

theorem mintERC721Body_explicit (c : Erc721Contract) (walletAddress contractAddress : String)
    (quantity : Nat) (fn : String) (hfn : fn ≠ "") :
    Erc721Call.attempts
        (mintERC721Body c walletAddress contractAddress quantity (some fn)).calls =
      [⟨fn, [.number quantity],
        some ((detectMintPrice c.read).1 * (quantity : Int))⟩] := by
  simp only [mintERC721Body, if_neg hfn]
  split
  · rw [erc721_attempts_append]
    simp [Erc721Call.attempts, erc721_attempts_read]
  · split <;>
    · rw [erc721_attempts_append]
      simp [Erc721Call.attempts, erc721_attempts_read]

theorem mintERC721_calls (env : MintEnv) (privateKey contractAddress : String)
    (quantity : Option Nat) (customAbi fn : Option String) (walletAddress : String)
    (abi : List String) (c : Erc721Contract)
    (hw : env.wallet privateKey = .ok walletAddress) (habi : mintAbi env customAbi = .ok abi)
    (hc : env.contract contractAddress abi = .ok c) :
    (mintERC721 env privateKey contractAddress quantity customAbi fn).calls =
      (mintERC721Body c walletAddress contractAddress (quantity.getD 1) fn).calls ∧
    ∀ r, (mintERC721 env privateKey contractAddress quantity customAbi fn).out = .ok r →
      r.success = true →
      (mintERC721Body c walletAddress contractAddress (quantity.getD 1) fn).out = .ok r := by
  unfold mintERC721
  simp only [hw, habi, hc]
  cases hb : (mintERC721Body c walletAddress contractAddress (quantity.getD 1) fn).out with
  | ok r => simp
  | error e =>
    refine ⟨by simp, fun r hr hs => ?_⟩
    simp only [Except.ok.injEq] at hr
    subst hr
    simp at hs

/-- C29. Auto-detected mint ignores the quantity.  With a signer and a
contract, for every quantity `q` and with `p` the price detected: when no
entry point is configured, every mint call `mintERC721` attempts carries `p`
when `p` is positive and no payment otherwise, its arguments are none, the
number `1` or the wallet address, and the attempts are the same for every other
quantity, while the message of a success reports `q` items at the cost
`p * q`; with an entry point configured, the one call attempted has the
argument `q` and carries `p * q`. -/
theorem mintERC721_ignores_quantity (env : MintEnv) (privateKey contractAddress : String)
    (customAbi : Option String) (walletAddress : String) (abi : List String)
    (c : Erc721Contract) (q : Nat)
    (hw : env.wallet privateKey = .ok walletAddress) (habi : mintAbi env customAbi = .ok abi)
    (hc : env.contract contractAddress abi = .ok c) :
    (∀ request ∈ Erc721Call.attempts
        (mintERC721 env privateKey contractAddress (some q) customAbi none).calls,
      request.value =
        (if (detectMintPrice c.read).1 > 0 then some (detectMintPrice c.read).1 else none) ∧
      (request.args = [] ∨ request.args = [.number 1] ∨
        request.args = [.string walletAddress])) ∧
    (∀ q' : Nat,
      Erc721Call.attempts
          (mintERC721 env privateKey contractAddress (some q) customAbi none).calls =
        Erc721Call.attempts
          (mintERC721 env privateKey contractAddress (some q') customAbi none).calls) ∧
    (∀ r, (mintERC721 env privateKey contractAddress (some q) customAbi none).out = .ok r →
      r.success = true →
      r.message = .minted q (collectionName c contractAddress)
        ((detectMintPrice c.read).1 * (q : Int))) ∧
    (∀ fn, fn ≠ "" →
      Erc721Call.attempts
          (mintERC721 env privateKey contractAddress (some q) customAbi (some fn)).calls =
        [⟨fn, [.number q], some ((detectMintPrice c.read).1 * (q : Int))⟩]) := by
  have hcalls := fun (quantity : Option Nat) (fn : Option String) =>
    mintERC721_calls env privateKey contractAddress quantity customAbi fn walletAddress abi c
      hw habi hc
  have hauto := fun (quantity : Nat) =>
    mintERC721Body_automatic c walletAddress contractAddress quantity none (Or.inl rfl)
  refine ⟨?_, ?_, ?_, ?_⟩
  · intro request hr
    rw [(hcalls (some q) none).1, (hauto _).1] at hr
    exact autoMint_attempt_shape c.methods walletAddress _ request hr
  · intro q'
    rw [(hcalls (some q) none).1, (hcalls (some q') none).1, (hauto _).1, (hauto _).1]
  · intro r hr hs
    exact ((hauto q).2 r ((hcalls (some q) none).2 r hr hs)).1 hs
  · intro fn hfn
    rw [(hcalls (some q) (some fn)).1]
    exact mintERC721Body_explicit c walletAddress contractAddress q fn hfn

/-- Witness for C29: three items of a collection whose price is 5 wei; the
probe reaches `claim()` with a payment of 5 wei, and the message reports three
items at 15 wei. -/
theorem mintERC721_ignores_quantity_witness :
    Erc721Call.attempts (mintERC721 sampleMintEnv "key" "0xC0llection" (some 3) none none).calls
      = [⟨"mint", [], some 5⟩, ⟨"mint", [.number 1], some 5⟩, ⟨"publicMint", [], some 5⟩,
         ⟨"publicMint", [.number 1], some 5⟩, ⟨"claim", [], some 5⟩] ∧
    (mintERC721 sampleMintEnv "key" "0xC0llection" (some 3) none none).out =
      .ok ⟨true, some "0xTx", .minted 3 "Apes" 15⟩ ∧
    (∀ request ∈ Erc721Call.attempts
        (mintERC721 sampleMintEnv "key" "0xC0llection" (some 3) none none).calls,
      request.value =
        (if (detectMintPrice apesContract.read).1 > 0 then
          some (detectMintPrice apesContract.read).1 else none) ∧
      (request.args = [] ∨ request.args = [.number 1] ∨
        request.args = [.string "0xWallet"])) :=
  ⟨by decide, rfl,
    (mintERC721_ignores_quantity sampleMintEnv "key" "0xC0llection" none "0xWallet"
      ERC721_MINT_ABI apesContract 3 rfl rfl rfl).1⟩

/-! ## Theorems: taskExecutor.js -/

theorem work_append (a b : List RunnerCall) :
    RunnerCall.work (a ++ b) = RunnerCall.work a ++ RunnerCall.work b := by
  induction a with
  | nil => rfl
  | cons c cs ih => cases c <;> simp [RunnerCall.work, ih]

theorem updates_append (a b : List RunnerCall) :
    RunnerCall.updates (a ++ b) = RunnerCall.updates a ++ RunnerCall.updates b := by
  induction a with
  | nil => rfl
  | cons c cs ih => cases c <;> simp [RunnerCall.updates, ih]

/-- With a key that decrypts, `executeTask` returns a result, whatever the
action behind it does. -/
theorem executeTask_returns (env : RunnerEnv) (k : Nat) (task : String) (w : WalletRow)
    (chainConfig : ChainConfig) (userId pk : String)
    (hkey : env.getPrivateKey w.encrypted_private_key = .ok pk) :
    ∃ r, executeTask env k task w chainConfig userId = .ok r := by
  unfold executeTask
  rw [hkey]
  cases hact : env.runAction k task w chainConfig pk userId with
  | ok r => exact ⟨r, by simp [hact]⟩
  | error e => exact ⟨⟨false, none, "❌ " ++ env.explainError e task⟩, by simp [hact]⟩

theorem returnedFrom_length (env : RunnerEnv) (chainConfig : ChainConfig) (userId : String) :
    ∀ (ps : List (WalletRow × String)) (rs : List TaskResult) (k : Nat),
      returnedFrom env chainConfig userId k ps rs → rs.length = ps.length := by
  intro ps
  induction ps with
  | nil => intro rs k h; cases rs <;> simp_all [returnedFrom]
  | cons p ps ih =>
    intro rs k h
    cases rs with
    | nil => simp [returnedFrom] at h
    | cons r rs => simp [returnedFrom] at h; simp [ih rs (k + 1) h.2]

theorem returnedFrom_append (env : RunnerEnv) (chainConfig : ChainConfig) (userId : String) :
    ∀ (ps qs : List (WalletRow × String)) (rs ss : List TaskResult) (k : Nat),
      returnedFrom env chainConfig userId k ps rs →
      returnedFrom env chainConfig userId (k + ps.length) qs ss →
      returnedFrom env chainConfig userId k (ps ++ qs) (rs ++ ss) := by
  intro ps
  induction ps with
  | nil =>
    intro qs rs ss k h1 h2
    cases rs with
    | nil => simpa using h2
    | cons r rs => simp [returnedFrom] at h1
  | cons p ps ih =>
    intro qs rs ss k h1 h2
    cases rs with
    | nil => simp [returnedFrom] at h1
    | cons r rs =>
      simp only [returnedFrom] at h1
      simp only [List.cons_append, returnedFrom]
      refine ⟨h1.1, ih qs rs ss (k + 1) h1.2 ?_⟩
      have hk : k + 1 + ps.length = k + (p :: ps).length := by simp; omega
      rw [hk]; exact h2

theorem returnedFrom_index (env : RunnerEnv) (chainConfig : ChainConfig) (userId : String) :
    ∀ (ps : List (WalletRow × String)) (rs : List TaskResult) (k : Nat),
      returnedFrom env chainConfig userId k ps rs →
      ∀ (i : Nat) (hp : i < ps.length) (hr : i < rs.length),
        executeTask env (k + i) ps[i].2 ps[i].1 chainConfig userId = .ok rs[i] := by
  intro ps
  induction ps with
  | nil => intro rs k _ i hp; simp at hp
  | cons p ps ih =>
    intro rs k h i hp hr
    cases rs with
    | nil => simp [returnedFrom] at h
    | cons r rs =>
      simp only [returnedFrom] at h
      cases i with
      | zero => simpa using h.1
      | succ j =>
        have := ih rs (k + 1) h.2 j (by simpa using hp) (by simpa using hr)
        have hk : k + 1 + j = k + (j + 1) := by omega
        rw [hk] at this
        simpa using this

/-- The inner loop, for a wallet whose key decrypts: every task is executed in
turn, its history record is written and its result appended. -/
theorem runTasks_spec (env : RunnerEnv) (taskSet : TaskSet) (telegramBot : Bool)
    (chainConfig : ChainConfig) (w : WalletRow) (pk : String)
    (hkey : env.getPrivateKey w.encrypted_private_key = .ok pk) :
    ∀ (tasks : List String) (k : Nat),
      ∃ rs, returnedFrom env chainConfig taskSet.user_id k (tasks.map (fun t => (w, t))) rs ∧
        (runTasks env taskSet telegramBot chainConfig w k tasks).1 =
          .ok (List.zipWith (fun p r => runResult p.1 p.2 r) (tasks.map (fun t => (w, t))) rs) ∧
        RunnerCall.work (runTasks env taskSet telegramBot chainConfig w k tasks).2 =
          (List.zipWith (pairCalls taskSet) (tasks.map (fun t => (w, t))) rs).flatten ∧
        RunnerCall.updates (runTasks env taskSet telegramBot chainConfig w k tasks).2 = [] := by
  intro tasks
  induction tasks with
  | nil => intro k; exact ⟨[], by simp [returnedFrom, runTasks, RunnerCall.work, RunnerCall.updates]⟩
  | cons t ts ih =>
    intro k
    obtain ⟨r, hr⟩ := executeTask_returns env k t w chainConfig taskSet.user_id pk hkey
    obtain ⟨rs, h1, h2, h3, h4⟩ := ih (k + 1)
    refine ⟨r :: rs, ?_, ?_, ?_, ?_⟩
    · simp only [List.map_cons, returnedFrom]
      exact ⟨hr, h1⟩
    · simp only [runTasks, hr, h2, List.map_cons, List.zipWith_cons_cons]
    · simp only [runTasks, hr, List.map_cons, List.zipWith_cons_cons, List.flatten_cons,
        work_append, h3, pairCalls]
      cases telegramBot <;> simp [RunnerCall.work]
    · simp only [runTasks, hr, updates_append, h4]
      cases telegramBot <;> simp [RunnerCall.updates]

/-- The outer loop, for wallets whose keys decrypt: every pair of a wallet and
a task is processed, wallets outer and tasks inner. -/
theorem runWallets_spec (env : RunnerEnv) (taskSet : TaskSet) (telegramBot : Bool)
    (chainConfig : ChainConfig) (tasks : List String) :
    ∀ (wallets : List WalletRow) (k : Nat),
      (∀ w ∈ wallets, ∃ pk, env.getPrivateKey w.encrypted_private_key = .ok pk) →
      ∃ rs, returnedFrom env chainConfig taskSet.user_id k
          (wallets.flatMap (fun w => tasks.map (fun t => (w, t)))) rs ∧
        (runWallets env taskSet telegramBot chainConfig tasks k wallets).1 =
          .ok (List.zipWith (fun p r => runResult p.1 p.2 r)
            (wallets.flatMap (fun w => tasks.map (fun t => (w, t)))) rs) ∧
        RunnerCall.work (runWallets env taskSet telegramBot chainConfig tasks k wallets).2 =
          (List.zipWith (pairCalls taskSet)
            (wallets.flatMap (fun w => tasks.map (fun t => (w, t)))) rs).flatten ∧
        RunnerCall.updates (runWallets env taskSet telegramBot chainConfig tasks k wallets).2
          = [] := by
  intro wallets
  induction wallets with
  | nil =>
    intro k _
    exact ⟨[], by simp [returnedFrom, runWallets, RunnerCall.work, RunnerCall.updates]⟩
  | cons w ws ih =>
    intro k hkeys
    obtain ⟨pk, hpk⟩ := hkeys w (by simp)
    obtain ⟨rs, h1, h2, h3, h4⟩ := runTasks_spec env taskSet telegramBot chainConfig w pk hpk tasks k
    obtain ⟨ss, g1, g2, g3, g4⟩ := ih (k + tasks.length) (fun v hv => hkeys v (by simp [hv]))
    have hlen := returnedFrom_length env chainConfig taskSet.user_id _ rs k h1
    have hlen2 : (tasks.map (fun t => (w, t))).length = rs.length := hlen.symm
    refine ⟨rs ++ ss, ?_, ?_, ?_, ?_⟩
    · rw [List.flatMap_cons]
      refine returnedFrom_append env chainConfig taskSet.user_id _ _ rs ss k h1 ?_
      simpa using g1
    · rw [List.flatMap_cons, List.zipWith_append _ _ _ _ _ hlen2]
      simp only [runWallets, h2, g2]
    · rw [List.flatMap_cons, List.zipWith_append _ _ _ _ _ hlen2, List.flatten_append]
      simp only [runWallets, h2, work_append, h3, g3]
    · simp only [runWallets, h2, updates_append, h4, g4, List.append_nil]

theorem taskPairs_length (accounts : List WalletRow) (tasks : List String) :
    (taskPairs accounts tasks).length = min accounts.length 5 * tasks.length := by
  unfold taskPairs
  have h : ∀ ws : List WalletRow,
      (ws.flatMap (fun w => tasks.map (fun t => (w, t)))).length = ws.length * tasks.length := by
    intro ws
    induction ws with
    | nil => simp
    | cons w ws ih => rw [List.flatMap_cons, List.length_append, ih]; simp; ring
  rw [h, List.length_take, Nat.min_comm]

/-- When every key of the first five accounts decrypts, the calls of
`runTaskSet` other than notifications are: the read of the accounts, then for
every pair the invocation and its history record, then one final update. -/
theorem runTaskSet_calls (env : RunnerEnv) (taskSet : TaskSet) (telegramBot : Bool)
    (chainConfig : ChainConfig) (accounts : List WalletRow)
    (hcfg : taskSet.chain_info = some chainConfig)
    (hws : env.getUserWallets taskSet.user_id = .ok accounts) (hne : accounts ≠ [])
    (hkey : ∀ w ∈ accounts.take 5, ∃ pk, env.getPrivateKey w.encrypted_private_key = .ok pk) :
    ∃ rs, returnedFrom env chainConfig taskSet.user_id 0
        (taskPairs accounts (taskSet.tasks.getD [])) rs ∧
      RunnerCall.work (runTaskSet env taskSet telegramBot).calls =
        .getUserWallets taskSet.user_id ::
          (List.zipWith (pairCalls taskSet) (taskPairs accounts (taskSet.tasks.getD []))
            rs).flatten ++
          [.updateTaskSet taskSet.id (env.clock 1)
            (getNextRun taskSet.repeat_schedule (env.clock 0))] ∧
      RunnerCall.updates (runTaskSet env taskSet telegramBot).calls =
        [.updateTaskSet taskSet.id (env.clock 1)
          (getNextRun taskSet.repeat_schedule (env.clock 0))] ∧
      ∀ u, env.updateTaskSet taskSet.id (env.clock 1)
          (getNextRun taskSet.repeat_schedule (env.clock 0)) = .ok u →
        (runTaskSet env taskSet telegramBot).out =
          .ok (List.zipWith (fun p r => runResult p.1 p.2 r)
            (taskPairs accounts (taskSet.tasks.getD [])) rs) := by
  obtain ⟨rs, h1, h2, h3, h4⟩ :=
    runWallets_spec env taskSet telegramBot chainConfig (taskSet.tasks.getD [])
      (accounts.take 5) 0 hkey
  have hlen : accounts.length ≠ 0 := by
    intro h; exact hne (List.length_eq_zero.mp h)
  refine ⟨rs, h1, ?_, ?_, ?_⟩
  · unfold runTaskSet
    simp only [hcfg, hws, if_neg hlen, h2]
    cases env.updateTaskSet taskSet.id (env.clock 1)
        (getNextRun taskSet.repeat_schedule (env.clock 0)) <;>
      simp [RunnerCall.work, work_append, h3, taskPairs]
  · unfold runTaskSet
    simp only [hcfg, hws, if_neg hlen, h2]
    cases env.updateTaskSet taskSet.id (env.clock 1)
        (getNextRun taskSet.repeat_schedule (env.clock 0)) <;>
      simp [RunnerCall.updates, updates_append, h4]
  · intro u hu
    unfold runTaskSet
    simp only [hcfg, hws, if_neg hlen, h2, hu, taskPairs]

/-- C7. Run order and count of a task set.  For every task set with a network
snapshot, a non-empty account list `A` whose keys decrypt, and the task list
`T`: `runTaskSet` invokes `executeTask` once for every pair of one of the first
`min(|A|, 5)` accounts and a task, accounts outer and tasks inner in list
order; after each invocation it writes the history record of that result,
whose status is `success` exactly when the result's flag is true; and, the
final update done, it returns one result per pair in the same order, each with
the flag of its invocation.  There are `min(|A|, 5) * |T|` pairs. -/
theorem runTaskSet_order_and_count (env : RunnerEnv) (taskSet : TaskSet) (telegramBot : Bool)
    (chainConfig : ChainConfig) (accounts : List WalletRow)
    (hcfg : taskSet.chain_info = some chainConfig)
    (hws : env.getUserWallets taskSet.user_id = .ok accounts) (hne : accounts ≠ [])
    (hkey : ∀ w ∈ accounts.take 5, ∃ pk, env.getPrivateKey w.encrypted_private_key = .ok pk) :
    ∃ rs : List TaskResult,
      rs.length = (taskPairs accounts (taskSet.tasks.getD [])).length ∧
      (taskPairs accounts (taskSet.tasks.getD [])).length =
        min accounts.length 5 * (taskSet.tasks.getD []).length ∧
      (∀ (k : Nat) (hp : k < (taskPairs accounts (taskSet.tasks.getD [])).length)
          (hr : k < rs.length),
        executeTask env k (taskPairs accounts (taskSet.tasks.getD []))[k].2
            (taskPairs accounts (taskSet.tasks.getD []))[k].1 chainConfig taskSet.user_id =
          .ok rs[k] ∧
        ((historyRecord taskSet (taskPairs accounts (taskSet.tasks.getD []))[k].1
            (taskPairs accounts (taskSet.tasks.getD []))[k].2 rs[k]).status = "success" ↔
          rs[k].success = true) ∧
        (runResult (taskPairs accounts (taskSet.tasks.getD []))[k].1
            (taskPairs accounts (taskSet.tasks.getD []))[k].2 rs[k]).success =
          rs[k].success) ∧
      RunnerCall.work (runTaskSet env taskSet telegramBot).calls =
        .getUserWallets taskSet.user_id ::
          (List.zipWith
            (fun p r => [RunnerCall.executeTask p.2 p.1,
              RunnerCall.logTaskHistory taskSet.user_id (historyRecord taskSet p.1 p.2 r)])
            (taskPairs accounts (taskSet.tasks.getD [])) rs).flatten ++
          [.updateTaskSet taskSet.id (env.clock 1)
            (getNextRun taskSet.repeat_schedule (env.clock 0))] ∧
      ∀ u, env.updateTaskSet taskSet.id (env.clock 1)
          (getNextRun taskSet.repeat_schedule (env.clock 0)) = .ok u →
        (runTaskSet env taskSet telegramBot).out =
          .ok (List.zipWith (fun p r => runResult p.1 p.2 r)
            (taskPairs accounts (taskSet.tasks.getD [])) rs) := by
  obtain ⟨rs, h1, h2, _, h4⟩ :=
    runTaskSet_calls env taskSet telegramBot chainConfig accounts hcfg hws hne hkey
  refine ⟨rs, returnedFrom_length env chainConfig taskSet.user_id _ rs 0 h1,
    taskPairs_length accounts _, ?_, h2, h4⟩
  intro k hp hr
  refine ⟨?_, ?_, rfl⟩
  · simpa using returnedFrom_index env chainConfig taskSet.user_id _ rs 0 h1 k hp hr
  · unfold historyRecord
    cases rs[k].success <;> simp

/-- Witness for C7: two accounts and two tasks give four results, in the order
(account 1, task 1), (account 1, task 2), (account 2, task 1), (account 2,
task 2); the task `swap` fails inside the `try` block and its result says so. -/
theorem runTaskSet_order_and_count_witness :
    (runTaskSet (sampleRunnerEnv "") sampleTaskSet false).out.toOption.map
        (fun rs => rs.map (fun r => (r.wallet, r.task, r.success))) =
      some [(some "0xAlice000", some "check balance", true),
        (some "0xAlice000", some "swap", false),
        (some "0xBob00000", some "check balance", true),
        (some "0xBob00000", some "swap", false)] ∧
    ∃ rs : List TaskResult,
      rs.length = (taskPairs [⟨"0xAlice000001", "evm", "keyA"⟩, ⟨"0xBob00000002", "evm", "keyB"⟩]
        ["check balance", "swap"]).length ∧
      (taskPairs [⟨"0xAlice000001", "evm", "keyA"⟩, ⟨"0xBob00000002", "evm", "keyB"⟩]
        ["check balance", "swap"]).length = min 2 5 * 2 := by
  refine ⟨by decide, ?_⟩
  obtain ⟨rs, hlen, hcount, _⟩ :=
    runTaskSet_order_and_count (sampleRunnerEnv "") sampleTaskSet false
      ⟨some "https://rpc", none, some "1", none, some "ETH", none, false, false, none, none⟩
      [⟨"0xAlice000001", "evm", "keyA"⟩, ⟨"0xBob00000002", "evm", "keyB"⟩] rfl rfl
      (by simp)
      (by
        intro w hw
        simp at hw
        rcases hw with rfl | rfl
        · exact ⟨"keyA", rfl⟩
        · exact ⟨"keyB", rfl⟩)
  exact ⟨rs, hlen, hcount⟩

/-- C8, at the failing input. The second account's key does not decrypt:
`executeTask` raises before its `try` block, `runTaskSet` raises with it
after the first account's two history records were written, and `last_run`
and `next_run` are never persisted. -/
theorem runTaskSet_key_failure_skips_update :
    (runTaskSet (sampleRunnerEnv "keyB") sampleTaskSet false).out.toOption = none ∧
    RunnerCall.updates (runTaskSet (sampleRunnerEnv "keyB") sampleTaskSet false).calls = [] ∧
    RunnerCall.work (runTaskSet (sampleRunnerEnv "keyB") sampleTaskSet false).calls =
      [.getUserWallets "42",
       .executeTask "check balance" ⟨"0xAlice000001", "evm", "keyA"⟩,
       .logTaskHistory "42"
         ⟨"set-1", "0xAlice000001", "check balance", "success", "done", none⟩,
       .executeTask "swap" ⟨"0xAlice000001", "evm", "keyA"⟩,
       .logTaskHistory "42"
         ⟨"set-1", "0xAlice000001", "swap", "failed", "❌ Something went wrong.", none⟩,
       .executeTask "check balance" ⟨"0xBob00000002", "evm", "keyB"⟩] := by
  refine ⟨by decide, by decide, by decide⟩

/-- C9. Next-run durations: at every instant `t` (epoch milliseconds),
`getNextRun` returns `t + 86400000` for `daily`, `t + 604800000` for `weekly`
and `t + 3600000` for `hourly`. -/
theorem getNextRun_durations (t : Int) :
    getNextRun (some "daily") t = some (t + 86400000) ∧
      getNextRun (some "weekly") t = some (t + 604800000) ∧
      getNextRun (some "hourly") t = some (t + 3600000) := by
  refine ⟨?_, ?_, ?_⟩ <;> simp [getNextRun]

/-- C10, counterexample. The unknown schedule `monthly` is not answered with
null: the next run is set one day ahead. -/
theorem getNextRun_unknown_counterexample :
    getNextRun (some "monthly") 1700000000000 = some 1700086400000 ∧
      getNextRun (some "monthly") 1700000000000 ≠ none := by
  refine ⟨by decide, by decide⟩

/-- C10, amended. For a schedule that is `none`, missing or empty,
`getNextRun` returns null; for every other schedule that is neither `hourly`
nor `weekly`, an unknown string included, it returns the instant one day
ahead, as for `daily`. -/
theorem getNextRun_unschedulable (t : Int) :
    getNextRun none t = none ∧ getNextRun (some "") t = none ∧
      getNextRun (some "none") t = none ∧
      ∀ s : String, s ≠ "" → s ≠ "none" → s ≠ "hourly" → s ≠ "weekly" →
        getNextRun (some s) t = some (t + 86400000) := by
  refine ⟨rfl, by simp [getNextRun], by simp [getNextRun], ?_⟩
  intro s h1 h2 h3 h4
  simp [getNextRun, h1, h2, h3, h4]

/-- Witness for C10: the unknown schedule `monthly` at the instant 0. -/
theorem getNextRun_unschedulable_witness :
    getNextRun (some "monthly") 0 = some (0 + 86400000) :=
  (getNextRun_unschedulable 0).2.2.2 "monthly" (by decide) (by decide) (by decide) (by decide)

/-! ### The `try` block of `executeTask` -/

theorem swapTask_calls (env : ActionEnv) (task : String) (w : WalletRow)
    (pk rpcUrl chainId userId : String) :
    (swapTask env task w pk rpcUrl chainId userId).calls =
      [.swap (swapTaskArgs task w pk rpcUrl chainId userId)] := by
  unfold swapTask
  split <;> rfl

theorem mintTask_calls (env : ActionEnv) (task t pk rpcUrl chainId userId : String) :
    (mintTask env task t pk rpcUrl chainId userId).calls =
      [.mint (mintTaskArgs task t pk rpcUrl chainId userId)] := by
  unfold mintTask
  split <;> rfl

theorem balanceTask_calls (env : ActionEnv) (w : WalletRow) (chainConfig : ChainConfig)
    (rpcUrl : String) :
    (balanceTask env w chainConfig rpcUrl).calls = [.getBalance w.address w.chain rpcUrl] := by
  unfold balanceTask
  split <;> rfl

theorem faucetTask_cases (env : ActionEnv) (w : WalletRow) (chainConfig : ChainConfig)
    (rpcUrl : String) :
    (w.chain = "solana" ∧
      (faucetTask env w chainConfig rpcUrl).calls = [.requestSolanaAirdrop w.address rpcUrl]) ∨
    (w.chain = "aptos" ∧ (chainConfig.isTestnet = true ∨ chainConfig.is_testnet = true) ∧
      (faucetTask env w chainConfig rpcUrl).calls = [.fundAptosTestnet w.address]) ∨
    (¬ w.chain = "solana" ∧
      ¬ (w.chain = "aptos" ∧ (chainConfig.isTestnet = true ∨ chainConfig.is_testnet = true)) ∧
      faucetTask env w chainConfig rpcUrl =
        ⟨.ok ⟨false, none, "⚠️ EVM faucet needs contract address"⟩, []⟩) := by
  unfold faucetTask
  by_cases hs : w.chain = "solana"
  · left
    refine ⟨hs, ?_⟩
    rw [if_pos hs]
    split <;> rfl
  · by_cases ha : w.chain = "aptos" ∧
        (chainConfig.isTestnet = true ∨ chainConfig.is_testnet = true)
    · right; left
      refine ⟨ha.1, ha.2, ?_⟩
      rw [if_neg hs, if_pos ha]
      split <;> rfl
    · right; right
      refine ⟨hs, ha, ?_⟩
      rw [if_neg hs, if_neg ha]

theorem sendTask_missing (env : ActionEnv) (task : String) (w : WalletRow) (pk rpcUrl : String)
    (h : matchAmount task.data = none ∨ matchTo task.data = none) :
    sendTask env task w pk rpcUrl =
      ⟨.ok ⟨false, none, "⚠️ Specify amount and destination for send"⟩, []⟩ := by
  unfold sendTask
  rcases h with h | h
  · rw [h]
  · rw [h]
    cases matchAmount task.data <;> rfl

theorem sendTask_calls (env : ActionEnv) (task : String) (w : WalletRow) (pk rpcUrl : String)
    (amount destination : List Char) (ha : matchAmount task.data = some amount)
    (hd : matchTo task.data = some destination) :
    (sendTask env task w pk rpcUrl).calls =
      [if w.chain = "solana" then
          .sendSolanaTokens pk (String.mk destination) (String.mk amount) rpcUrl
        else .sendEVMTokens pk (String.mk destination) (String.mk amount) rpcUrl] := by
  unfold sendTask
  rw [ha, hd]
  by_cases hs : w.chain = "solana"
  · simp only [if_pos hs]
    split <;> rfl
  · simp only [if_neg hs]
    split <;> rfl

theorem sendTask_kind (env : ActionEnv) (task : String) (w : WalletRow) (pk rpcUrl : String) :
    ∀ call ∈ (sendTask env task w pk rpcUrl).calls, call.kind = .send := by
  cases ha : matchAmount task.data with
  | none => simp [sendTask_missing env task w pk rpcUrl (Or.inl ha)]
  | some amount =>
    cases hd : matchTo task.data with
    | none => simp [sendTask_missing env task w pk rpcUrl (Or.inr hd)]
    | some destination =>
      rw [sendTask_calls env task w pk rpcUrl amount destination ha hd]
      by_cases hs : w.chain = "solana" <;> simp [hs, ActionCall.kind]

theorem faucetTask_kind (env : ActionEnv) (w : WalletRow) (chainConfig : ChainConfig)
    (rpcUrl : String) :
    ∀ call ∈ (faucetTask env w chainConfig rpcUrl).calls, call.kind = .faucet := by
  rcases faucetTask_cases env w chainConfig rpcUrl with h | h | h
  · simp [h.2, ActionCall.kind]
  · simp [h.2.2, ActionCall.kind]
  · simp [h.2.2]

theorem matchAmount_eq_none_iff (cs : List Char) :
    matchAmount cs = none ↔ ∀ c ∈ cs, c.isDigit = false := by
  induction cs with
  | nil => simp [matchAmount]
  | cons c cs ih =>
    by_cases h : c.isDigit = true
    · simp [matchAmount, h]
    · simp [matchAmount, h, ih]

theorem hexAddressAt_no_digit (ignoreCase : Bool) (cs : List Char)
    (h : ∀ c ∈ cs, c.isDigit = false) : hexAddressAt ignoreCase cs = none := by
  unfold hexAddressAt
  split
  · exact absurd (h '0' (by simp)) (by decide)
  · rfl

theorem afterKeyword_mem (keyword cs rest : List Char) (h : afterKeyword keyword cs = some rest) :
    ∀ c ∈ rest, c ∈ cs := by
  unfold afterKeyword at h
  split at h
  · split at h
    next s tail hdrop =>
      split at h
      · cases h
        intro c hc
        have h1 : c ∈ tail := (List.dropWhile_sublist _).subset hc
        have h2 : c ∈ List.drop keyword.length cs := by rw [hdrop]; exact List.mem_cons_of_mem _ h1
        exact List.mem_of_mem_drop h2
      · cases h
    · cases h
  · cases h

theorem matchFor_no_digit (cs : List Char) (h : ∀ c ∈ cs, c.isDigit = false) :
    matchFor cs = none := by
  induction cs with
  | nil => rfl
  | cons c cs ih =>
    have hk : (afterKeyword ['f', 'o', 'r'] (c :: cs)).bind (hexAddressAt true) = none := by
      cases hr : afterKeyword ['f', 'o', 'r'] (c :: cs) with
      | none => rfl
      | some rest =>
        exact hexAddressAt_no_digit true rest
          (fun d hd => h d (afterKeyword_mem _ _ _ hr d hd))
    unfold matchFor
    rw [hk]
    exact ih (fun d hd => h d (List.mem_cons_of_mem _ hd))

/-- C13. For every task text, the `try` block of `executeTask` takes the action
of the first rule that matches the lower-cased text, in the order swap, mint,
faucet, balance, send: every call it makes belongs to that action, the swap
and mint executors and the balance query are called exactly once, and a text
that matches no rule makes no call and, the key of the wallet being readable,
`executeTask` returns success, no transaction id and the message that the task
was noted and may need browser automation. -/
theorem executeTask_classification (base : RunnerEnv) (actions : Nat → ActionEnv) (k : Nat)
    (task : String) (w : WalletRow) (chainConfig : ChainConfig) (pk userId : String)
    (hkey : base.getPrivateKey w.encrypted_private_key = .ok pk) :
    (∀ call ∈ (executeTaskBody (actions k) task w chainConfig pk userId).calls,
      call.kind = classify ((actions k).toLowerCase task)) ∧
    (classify ((actions k).toLowerCase task) = .swap →
      (executeTaskBody (actions k) task w chainConfig pk userId).calls =
        [.swap (swapTaskArgs task w pk (taskRpcUrl chainConfig) (taskChainId chainConfig)
          userId)]) ∧
    (classify ((actions k).toLowerCase task) = .mint →
      (executeTaskBody (actions k) task w chainConfig pk userId).calls =
        [.mint (mintTaskArgs task ((actions k).toLowerCase task) pk (taskRpcUrl chainConfig)
          (taskChainId chainConfig) userId)]) ∧
    (classify ((actions k).toLowerCase task) = .faucet →
      executeTaskBody (actions k) task w chainConfig pk userId =
        faucetTask (actions k) w chainConfig (taskRpcUrl chainConfig)) ∧
    (classify ((actions k).toLowerCase task) = .balance →
      (executeTaskBody (actions k) task w chainConfig pk userId).calls =
        [.getBalance w.address w.chain (taskRpcUrl chainConfig)]) ∧
    (classify ((actions k).toLowerCase task) = .send →
      executeTaskBody (actions k) task w chainConfig pk userId =
        sendTask (actions k) task w pk (taskRpcUrl chainConfig)) ∧
    (classify ((actions k).toLowerCase task) = .generic →
      (executeTaskBody (actions k) task w chainConfig pk userId).calls = [] ∧
      executeTask (actionRunner base actions) k task w chainConfig userId =
        .ok ⟨true, none,
          "✅ Task noted: \"" ++ task ++ "\" — may need browser automation (V2 feature)"⟩) := by
  simp only [executeTaskBody, classify]
  split_ifs with h1 h2 h3 h4 h5
  · simp [swapTask_calls, ActionCall.kind]
  · simp [mintTask_calls, ActionCall.kind]
  · simpa using faucetTask_kind (actions k) w chainConfig (taskRpcUrl chainConfig)
  · simp [balanceTask_calls, ActionCall.kind]
  · simpa using sendTask_kind (actions k) task w pk (taskRpcUrl chainConfig)
  · simp [executeTask, actionRunner, hkey, executeTaskBody, h1, h2, h3, h4, h5]

theorem executeTaskBody_of_swap (env : ActionEnv) (task : String) (w : WalletRow)
    (chainConfig : ChainConfig) (pk userId : String)
    (h : classify (env.toLowerCase task) = .swap) :
    executeTaskBody env task w chainConfig pk userId =
      swapTask env task w pk (taskRpcUrl chainConfig) (taskChainId chainConfig) userId := by
  simp only [classify] at h
  simp only [executeTaskBody]
  split_ifs at h ⊢
  rfl

theorem executeTaskBody_of_send (env : ActionEnv) (task : String) (w : WalletRow)
    (chainConfig : ChainConfig) (pk userId : String)
    (h : classify (env.toLowerCase task) = .send) :
    executeTaskBody env task w chainConfig pk userId =
      sendTask env task w pk (taskRpcUrl chainConfig) := by
  simp only [classify] at h
  simp only [executeTaskBody]
  split_ifs at h ⊢
  rfl

theorem executeTask_of_body (base : RunnerEnv) (actions : Nat → ActionEnv) (k : Nat)
    (task : String) (w : WalletRow) (chainConfig : ChainConfig) (pk userId : String)
    (hkey : base.getPrivateKey w.encrypted_private_key = .ok pk) :
    executeTask (actionRunner base actions) k task w chainConfig userId =
      match (executeTaskBody (actions k) task w chainConfig pk userId).out with
      | .ok r => .ok r
      | .error err => .ok ⟨false, none, "❌ " ++ base.explainError err task⟩ := by
  simp [executeTask, actionRunner, hkey]

theorem swapTaskArgs_no_digit (task : String) (w : WalletRow) (pk rpcUrl chainId userId : String)
    (hnum : ∀ c ∈ task.data, c.isDigit = false) :
    swapTaskArgs task w pk rpcUrl chainId userId =
      ⟨w.chain, pk, "native", "native", .preset, 1, rpcUrl, chainId, userId⟩ := by
  simp [swapTaskArgs, matchFor_no_digit _ hnum, (matchAmount_eq_none_iff _).2 hnum]

/-- Witness of C13: the text `CLAIM the NFT, then Swap` matches the rules of the
faucet, of the mint and of the swap, and the swap executor is the one called;
the text `Join the Discord` matches no rule and is noted as a success. -/
theorem executeTask_classification_witness :
    classify (sampleActionEnv.toLowerCase "CLAIM the NFT, then Swap") = .swap ∧
    (executeTaskBody sampleActionEnv "CLAIM the NFT, then Swap" sampleWallet sampleChainConfig
        "keyA" "42").calls =
      [.swap (swapTaskArgs "CLAIM the NFT, then Swap" sampleWallet "keyA"
        (taskRpcUrl sampleChainConfig) (taskChainId sampleChainConfig) "42")] ∧
    classify (sampleActionEnv.toLowerCase "Join the Discord") = .generic ∧
    (executeTaskBody sampleActionEnv "Join the Discord" sampleWallet sampleChainConfig
        "keyA" "42").calls = [] ∧
    executeTask (actionRunner (sampleRunnerEnv "") (fun _ => sampleActionEnv)) 0
        "Join the Discord" sampleWallet sampleChainConfig "42" =
      .ok ⟨true, none,
        "✅ Task noted: \"" ++ "Join the Discord" ++
          "\" — may need browser automation (V2 feature)"⟩ :=
  ⟨by decide,
    (executeTask_classification (sampleRunnerEnv "") (fun _ => sampleActionEnv) 0
      "CLAIM the NFT, then Swap" sampleWallet sampleChainConfig "keyA" "42" rfl).2.1
      (by decide),
    by decide,
    ((executeTask_classification (sampleRunnerEnv "") (fun _ => sampleActionEnv) 0
      "Join the Discord" sampleWallet sampleChainConfig "keyA" "42" rfl).2.2.2.2.2.2
      (by decide)).1,
    ((executeTask_classification (sampleRunnerEnv "") (fun _ => sampleActionEnv) 0
      "Join the Discord" sampleWallet sampleChainConfig "keyA" "42" rfl).2.2.2.2.2.2
      (by decide)).2⟩

/-- C14. For every task text classified as a send, the key of the wallet being
readable: when the pattern of the amount or the pattern of the destination
after `to` finds nothing in the text, the `try` block makes no call and
`executeTask` returns a failure with the message asking for amount and
destination; when both find something, the `try` block makes exactly one call,
the native transfer of the wallet's family, to the destination found and of the
amount found. -/
theorem executeTask_send_fails_closed (base : RunnerEnv) (actions : Nat → ActionEnv) (k : Nat)
    (task : String) (w : WalletRow) (chainConfig : ChainConfig) (pk userId : String)
    (hkey : base.getPrivateKey w.encrypted_private_key = .ok pk)
    (hsend : classify ((actions k).toLowerCase task) = .send) :
    ((matchAmount task.data = none ∨ matchTo task.data = none) →
      (executeTaskBody (actions k) task w chainConfig pk userId).calls = [] ∧
      executeTask (actionRunner base actions) k task w chainConfig userId =
        .ok ⟨false, none, "⚠️ Specify amount and destination for send"⟩) ∧
    (∀ amount destination, matchAmount task.data = some amount →
      matchTo task.data = some destination →
      (executeTaskBody (actions k) task w chainConfig pk userId).calls =
        [if w.chain = "solana" then
            .sendSolanaTokens pk (String.mk destination) (String.mk amount)
              (taskRpcUrl chainConfig)
          else .sendEVMTokens pk (String.mk destination) (String.mk amount)
              (taskRpcUrl chainConfig)]) := by
  refine ⟨fun hmiss => ?_, fun amount destination ha hd => ?_⟩
  · have hbody := executeTaskBody_of_send (actions k) task w chainConfig pk userId hsend
    rw [sendTask_missing _ _ _ _ _ hmiss] at hbody
    refine ⟨by rw [hbody], ?_⟩
    rw [executeTask_of_body base actions k task w chainConfig pk userId hkey, hbody]
  · rw [executeTaskBody_of_send (actions k) task w chainConfig pk userId hsend]
    exact sendTask_calls _ _ _ _ _ amount destination ha hd

/-- Witness of C14: `send some ETH to bob` has neither amount nor destination
and is refused without a call; `Send 0.5 ETH to 0x…` makes one transfer of
`0.5` to the address. -/
theorem executeTask_send_fails_closed_witness :
    (sampleRunnerEnv "").getPrivateKey sampleWallet.encrypted_private_key = .ok "keyA" ∧
    classify (sampleActionEnv.toLowerCase "send some ETH to bob") = .send ∧
    (matchAmount "send some ETH to bob".data = none ∨
      matchTo "send some ETH to bob".data = none) ∧
    (executeTaskBody sampleActionEnv "send some ETH to bob" sampleWallet sampleChainConfig
        "keyA" "42").calls = [] ∧
    executeTask (actionRunner (sampleRunnerEnv "") (fun _ => sampleActionEnv)) 0
        "send some ETH to bob" sampleWallet sampleChainConfig "42" =
      .ok ⟨false, none, "⚠️ Specify amount and destination for send"⟩ ∧
    (executeTaskBody sampleActionEnv
        "Send 0.5 ETH to 0x52908400098527886E0F7030069857D2E4169EE7 today" sampleWallet
        sampleChainConfig "keyA" "42").calls =
      [.sendEVMTokens "keyA" "0x52908400098527886E0F7030069857D2E4169EE7" "0.5"
        "https://rpc"] :=
  ⟨rfl, by decide, Or.inl (by decide),
    ((executeTask_send_fails_closed (sampleRunnerEnv "") (fun _ => sampleActionEnv) 0
      "send some ETH to bob" sampleWallet sampleChainConfig "keyA" "42" rfl (by decide)).1
      (Or.inl (by decide))).1,
    ((executeTask_send_fails_closed (sampleRunnerEnv "") (fun _ => sampleActionEnv) 0
      "send some ETH to bob" sampleWallet sampleChainConfig "keyA" "42" rfl (by decide)).1
      (Or.inl (by decide))).2,
    by
      have h := (executeTask_send_fails_closed (sampleRunnerEnv "")
        (fun _ => sampleActionEnv) 0
        "Send 0.5 ETH to 0x52908400098527886E0F7030069857D2E4169EE7 today" sampleWallet
        sampleChainConfig "keyA" "42" rfl (by decide)).2
        "0.5".data "0x52908400098527886E0F7030069857D2E4169EE7".data (by decide) (by decide)
      simpa [sampleWallet, sampleChainConfig, taskRpcUrl, orElse] using h⟩

/-- Counterexample to C15: the text `swap ETH for USDC` is classified as a
swap and holds no digit, and the swap executor is called, with the amount
`0.001` the source supplies when the text has none. -/
theorem executeTask_swap_amount_counterexample :
    classify (sampleActionEnv.toLowerCase "swap ETH for USDC") = .swap ∧
    (∀ c ∈ "swap ETH for USDC".data, c.isDigit = false) ∧
    (executeTaskBody sampleActionEnv "swap ETH for USDC" sampleWallet sampleChainConfig
        "keyA" "42").calls =
      [.swap ⟨"evm", "keyA", "native", "native", .preset, 1, "https://rpc", "1", "42"⟩] := by
  refine ⟨by decide, by decide, ?_⟩
  rw [executeTaskBody_of_swap _ _ _ _ _ _ (by decide), swapTask_calls,
    swapTaskArgs_no_digit _ _ _ _ _ _ (by decide)]
  rfl

/-- C15, amended. For every task text classified as a swap that holds no
digit, the key of the wallet being readable, the `try` block calls the swap
executor exactly once, from the native token to the native token with the
amount `0.001` and a slippage of `1`, and `executeTask` returns the success
flag, the transaction id and the message of the swap executor; it returns a
failure when the swap executor returns nothing or raises. -/
theorem executeTask_swap_default_amount (base : RunnerEnv) (actions : Nat → ActionEnv)
    (k : Nat) (task : String) (w : WalletRow) (chainConfig : ChainConfig) (pk userId : String)
    (hkey : base.getPrivateKey w.encrypted_private_key = .ok pk)
    (hswap : classify ((actions k).toLowerCase task) = .swap)
    (hnum : ∀ c ∈ task.data, c.isDigit = false) :
    (executeTaskBody (actions k) task w chainConfig pk userId).calls =
      [.swap ⟨w.chain, pk, "native", "native", .preset, 1, taskRpcUrl chainConfig,
        taskChainId chainConfig, userId⟩] ∧
    (∀ r, (actions k).swap ⟨w.chain, pk, "native", "native", .preset, 1, taskRpcUrl chainConfig,
        taskChainId chainConfig, userId⟩ = .ok (some r) →
      executeTask (actionRunner base actions) k task w chainConfig userId =
        .ok ⟨r.success, r.txHash, r.message⟩) ∧
    ((actions k).swap ⟨w.chain, pk, "native", "native", .preset, 1, taskRpcUrl chainConfig,
        taskChainId chainConfig, userId⟩ = .ok none →
      executeTask (actionRunner base actions) k task w chainConfig userId =
        .ok ⟨false, none, "❌ " ++ base.explainError
          "Cannot read properties of undefined (reading 'success')" task⟩) ∧
    (∀ e, (actions k).swap ⟨w.chain, pk, "native", "native", .preset, 1, taskRpcUrl chainConfig,
        taskChainId chainConfig, userId⟩ = .error e →
      executeTask (actionRunner base actions) k task w chainConfig userId =
        .ok ⟨false, none, "❌ " ++ base.explainError e task⟩) := by
  have hbody := executeTaskBody_of_swap (actions k) task w chainConfig pk userId hswap
  have hargs := swapTaskArgs_no_digit task w pk (taskRpcUrl chainConfig)
    (taskChainId chainConfig) userId hnum
  have hexec := executeTask_of_body base actions k task w chainConfig pk userId hkey
  rw [hbody] at hexec ⊢
  refine ⟨by rw [swapTask_calls, hargs], fun r hr => ?_, fun hr => ?_, fun e hr => ?_⟩
  all_goals
    rw [hexec]
    unfold swapTask
    rw [hargs, hr]

/-- Witness of C15, amended: `swap ETH for USDC` calls the swap executor with
the amount `0.001`; the executor of the example returns nothing and the task is
reported as failed. -/
theorem executeTask_swap_default_amount_witness :
    (sampleRunnerEnv "").getPrivateKey sampleWallet.encrypted_private_key = .ok "keyA" ∧
    classify (sampleActionEnv.toLowerCase "swap ETH for USDC") = .swap ∧
    (∀ c ∈ "swap ETH for USDC".data, c.isDigit = false) ∧
    executeTask (actionRunner (sampleRunnerEnv "") (fun _ => sampleActionEnv)) 0
        "swap ETH for USDC" sampleWallet sampleChainConfig "42" =
      .ok ⟨false, none, "❌ " ++ (sampleRunnerEnv "").explainError
        "Cannot read properties of undefined (reading 'success')" "swap ETH for USDC"⟩ :=
  ⟨rfl, by decide, by decide,
    (executeTask_swap_default_amount (sampleRunnerEnv "") (fun _ => sampleActionEnv) 0
      "swap ETH for USDC" sampleWallet sampleChainConfig "keyA" "42" rfl (by decide)
      (by decide)).2.2.1 rfl⟩

/-! ### Preconditions and notifications of `runTaskSet` -/

/-- C24. Runner preconditions: for a task set without network snapshot, or
whose owner has no wallet, `runTaskSet` returns exactly one result, a failure;
the only call it can have made is the read of the wallets, so no task is
executed, no history record written, no notification sent and no final update
made. -/
theorem runTaskSet_preconditions (env : RunnerEnv) (taskSet : TaskSet) (telegramBot : Bool)
    (h : taskSet.chain_info = none ∨
      ((∃ chainConfig, taskSet.chain_info = some chainConfig) ∧
        env.getUserWallets taskSet.user_id = .ok [])) :
    (∃ r, (runTaskSet env taskSet telegramBot).out = .ok [r] ∧ r.success = false) ∧
    (∀ call ∈ (runTaskSet env taskSet telegramBot).calls,
      call = .getUserWallets taskSet.user_id) ∧
    RunnerCall.updates (runTaskSet env taskSet telegramBot).calls = [] := by
  rcases h with h | ⟨⟨chainConfig, hcfg⟩, hws⟩
  · unfold runTaskSet
    rw [h]
    exact ⟨⟨_, rfl, rfl⟩, by simp, rfl⟩
  · unfold runTaskSet
    simp only [hcfg, hws, List.length_nil, if_true]
    exact ⟨⟨_, rfl, rfl⟩, by simp, rfl⟩

/-- Witness for C24: the sample task set without its network snapshot. -/
theorem runTaskSet_preconditions_witness :
    (∃ r, (runTaskSet (sampleRunnerEnv "") { sampleTaskSet with chain_info := none } true).out =
      .ok [r] ∧ r.success = false) ∧
    (∀ call ∈ (runTaskSet (sampleRunnerEnv "") { sampleTaskSet with chain_info := none }
        true).calls, call = .getUserWallets "42") ∧
    RunnerCall.updates (runTaskSet (sampleRunnerEnv "")
      { sampleTaskSet with chain_info := none } true).calls = [] :=
  runTaskSet_preconditions (sampleRunnerEnv "") { sampleTaskSet with chain_info := none } true
    (Or.inl rfl)

theorem notify_promise (send : Nat → SendOutcome) (hsend : ∀ n e, send n ≠ .raised e)
    (n : Nat) (userId : String) (text : Notification) :
    notify (some send) n userId text = (.ok (), [.sendMessage userId text]) := by
  unfold notify
  cases hs : send n with
  | fulfilled => simp [hs]
  | rejected reason => simp [hs]
  | raised e => exact absurd hs (hsend n e)

theorem runTasksVia_none (env : RunnerEnv) (taskSet : TaskSet) (chainConfig : ChainConfig)
    (w : WalletRow) :
    ∀ (tasks : List String) (k : Nat),
      runTasksVia env taskSet none chainConfig w k tasks =
        runTasks env taskSet false chainConfig w k tasks := by
  intro tasks
  induction tasks with
  | nil => intro k; rfl
  | cons t ts ih =>
    intro k
    unfold runTasksVia runTasks
    simp only [notify]
    cases executeTask env k t w chainConfig taskSet.user_id with
    | error e => simp
    | ok r => simp [ih (k + 1)]

theorem runTasksVia_promise (env : RunnerEnv) (taskSet : TaskSet) (send : Nat → SendOutcome)
    (hsend : ∀ n e, send n ≠ .raised e) (chainConfig : ChainConfig) (w : WalletRow) :
    ∀ (tasks : List String) (k : Nat),
      runTasksVia env taskSet (some send) chainConfig w k tasks =
        runTasks env taskSet true chainConfig w k tasks := by
  intro tasks
  induction tasks with
  | nil => intro k; rfl
  | cons t ts ih =>
    intro k
    unfold runTasksVia runTasks
    simp only [notify_promise send hsend]
    cases executeTask env k t w chainConfig taskSet.user_id with
    | error e => simp
    | ok r => simp [ih (k + 1)]

theorem runWalletsVia_none (env : RunnerEnv) (taskSet : TaskSet) (chainConfig : ChainConfig)
    (tasks : List String) :
    ∀ (wallets : List WalletRow) (k : Nat),
      runWalletsVia env taskSet none chainConfig tasks k wallets =
        runWallets env taskSet false chainConfig tasks k wallets := by
  intro wallets
  induction wallets with
  | nil => intro k; rfl
  | cons w ws ih =>
    intro k
    unfold runWalletsVia runWallets
    simp only [runTasksVia_none, ih]

theorem runWalletsVia_promise (env : RunnerEnv) (taskSet : TaskSet) (send : Nat → SendOutcome)
    (hsend : ∀ n e, send n ≠ .raised e) (chainConfig : ChainConfig) (tasks : List String) :
    ∀ (wallets : List WalletRow) (k : Nat),
      runWalletsVia env taskSet (some send) chainConfig tasks k wallets =
        runWallets env taskSet true chainConfig tasks k wallets := by
  intro wallets
  induction wallets with
  | nil => intro k; rfl
  | cons w ws ih =>
    intro k
    unfold runWalletsVia runWallets
    simp only [runTasksVia_promise env taskSet send hsend, ih]

/-- Without a bot, the run with notification outcomes is the run without
notifications. -/
theorem runTaskSetVia_none (env : RunnerEnv) (taskSet : TaskSet) :
    runTaskSetVia env taskSet none = runTaskSet env taskSet false := by
  unfold runTaskSetVia runTaskSet
  simp only [runWalletsVia_none]

/-- With a bot whose every send returns a promise, fulfilled or rejected, the
run is the one in which only the sending is recorded. -/
theorem runTaskSetVia_promise (env : RunnerEnv) (taskSet : TaskSet) (send : Nat → SendOutcome)
    (hsend : ∀ n e, send n ≠ .raised e) :
    runTaskSetVia env taskSet (some send) = runTaskSet env taskSet true := by
  unfold runTaskSetVia runTaskSet
  simp only [runWalletsVia_promise env taskSet send hsend]

theorem runTasks_bot (env : RunnerEnv) (taskSet : TaskSet) (chainConfig : ChainConfig)
    (w : WalletRow) :
    ∀ (tasks : List String) (k : Nat),
      (runTasks env taskSet true chainConfig w k tasks).1 =
        (runTasks env taskSet false chainConfig w k tasks).1 ∧
      RunnerCall.work (runTasks env taskSet true chainConfig w k tasks).2 =
        (runTasks env taskSet false chainConfig w k tasks).2 ∧
      RunnerCall.work (runTasks env taskSet false chainConfig w k tasks).2 =
        (runTasks env taskSet false chainConfig w k tasks).2 := by
  intro tasks
  induction tasks with
  | nil => intro k; exact ⟨rfl, rfl, rfl⟩
  | cons t ts ih =>
    intro k
    obtain ⟨h1, h2, h3⟩ := ih (k + 1)
    unfold runTasks
    cases executeTask env k t w chainConfig taskSet.user_id with
    | error e => simp [RunnerCall.work]
    | ok r => simp [RunnerCall.work, work_append, h1, h2, h3]

theorem runWallets_bot (env : RunnerEnv) (taskSet : TaskSet) (chainConfig : ChainConfig)
    (tasks : List String) :
    ∀ (wallets : List WalletRow) (k : Nat),
      (runWallets env taskSet true chainConfig tasks k wallets).1 =
        (runWallets env taskSet false chainConfig tasks k wallets).1 ∧
      RunnerCall.work (runWallets env taskSet true chainConfig tasks k wallets).2 =
        (runWallets env taskSet false chainConfig tasks k wallets).2 ∧
      RunnerCall.work (runWallets env taskSet false chainConfig tasks k wallets).2 =
        (runWallets env taskSet false chainConfig tasks k wallets).2 := by
  intro wallets
  induction wallets with
  | nil => intro k; exact ⟨rfl, rfl, rfl⟩
  | cons w ws ih =>
    intro k
    obtain ⟨h1, h2, h3⟩ := ih (k + tasks.length)
    obtain ⟨g1, g2, g3⟩ := runTasks_bot env taskSet chainConfig w tasks k
    unfold runWallets
    simp only [g1]
    cases (runTasks env taskSet false chainConfig w k tasks).1 with
    | error e => simp [g2, g3]
    | ok rs => simp [work_append, g2, g3, h1, h2, h3]

/-- The run with a bot and the run without one return the same value and make
the same calls other than notifications. -/
theorem runTaskSet_bot (env : RunnerEnv) (taskSet : TaskSet) :
    (runTaskSet env taskSet true).out = (runTaskSet env taskSet false).out ∧
    RunnerCall.work (runTaskSet env taskSet true).calls =
      RunnerCall.work (runTaskSet env taskSet false).calls := by
  unfold runTaskSet
  cases taskSet.chain_info with
  | none => exact ⟨rfl, rfl⟩
  | some chainConfig =>
    cases env.getUserWallets taskSet.user_id with
    | error e => exact ⟨rfl, rfl⟩
    | ok wallets =>
      obtain ⟨h1, h2, h3⟩ :=
        runWallets_bot env taskSet chainConfig (taskSet.tasks.getD []) (wallets.take 5) 0
      by_cases hw : wallets.length = 0
      · simp [hw]
      · simp only [hw, if_false, h1]
        cases (runWallets env taskSet false chainConfig (taskSet.tasks.getD []) 0
            (wallets.take 5)).1 with
        | error e => simp [RunnerCall.work, h2, h3]
        | ok results =>
          cases env.updateTaskSet taskSet.id (env.clock 1)
              (getNextRun taskSet.repeat_schedule (env.clock 0)) <;>
            simp [RunnerCall.work, work_append, h2, h3]

/-- Rejected notifications do not affect the run: with a bot whose every send
returns a promise, whatever sends are rejected, `runTaskSet` returns what it
returns without a bot and with a bot whose sends all succeed, and makes the
same calls other than notifications (tasks, history records, final update). -/
theorem runTaskSetVia_rejections_swallowed (env : RunnerEnv) (taskSet : TaskSet)
    (send : Nat → SendOutcome) (hsend : ∀ n e, send n ≠ .raised e) :
    runTaskSetVia env taskSet (some send) =
      runTaskSetVia env taskSet (some (fun _ => .fulfilled)) ∧
    (runTaskSetVia env taskSet (some send)).out = (runTaskSetVia env taskSet none).out ∧
    RunnerCall.work (runTaskSetVia env taskSet (some send)).calls =
      RunnerCall.work (runTaskSetVia env taskSet none).calls := by
  rw [runTaskSetVia_promise env taskSet send hsend,
    runTaskSetVia_promise env taskSet (fun _ => .fulfilled) (by intro n e h; cases h),
    runTaskSetVia_none]
  exact ⟨rfl, (runTaskSet_bot env taskSet).1, (runTaskSet_bot env taskSet).2⟩

/-- C25, at the failing input. The scheduler hands its `Telegraf` instance to
`runTaskSet`; the first notification raises, and the run of the sample task
set ends after the read of the wallets, with no task executed, no history
record and no final update, while the same run without a bot, or with a bot
whose sends are rejected, returns four results and makes the final update.
The tick logs the error. -/
theorem runTaskSet_notification_raises :
    (runTaskSetVia (sampleRunnerEnv "") sampleTaskSet (some telegrafBot)).out =
      .error "telegramBot.sendMessage is not a function" ∧
    (runTaskSetVia (sampleRunnerEnv "") sampleTaskSet (some telegrafBot)).calls =
      [.getUserWallets "42"] ∧
    ((runTaskSetVia (sampleRunnerEnv "") sampleTaskSet none).out.toOption.map
      (fun rs => rs.map RunResult.success)) = some [true, false, true, false] ∧
    ((runTaskSetVia (sampleRunnerEnv "") sampleTaskSet (some flakyChannel)).out.toOption.map
      (fun rs => rs.map RunResult.success)) = some [true, false, true, false] ∧
    RunnerCall.updates (runTaskSetVia (sampleRunnerEnv "") sampleTaskSet none).calls =
      [.updateTaskSet "set-1" 1700000000001 (some (1700000000000 + 86400000))] ∧
    runTaskSetWith (sampleRunnerEnv "") sampleTaskSet (some ⟨false⟩) =
      runTaskSetVia (sampleRunnerEnv "") sampleTaskSet (some telegrafBot) ∧
    schedulerTick ⟨.ok [sampleTaskSet], fun _ => sampleRunnerEnv ""⟩ (some ⟨false⟩) =
      [.getActiveDueTaskSets, .sendMessage "42" (.running sampleTaskSet),
        .runTaskSet sampleTaskSet [.getUserWallets "42"],
        .logError "telegramBot.sendMessage is not a function"] := by
  refine ⟨rfl, by decide, by decide, by decide, by decide, ?_, by decide⟩
  rfl

/-! ### The swap executor behind `executeTask` -/

theorem swapEVMBody_native_native (env : SwapEnv) (dex : Dex) (walletAddress : String)
    (amountIn : AmountIn) (slippage : ℚ) (deadline : Nat) :
    swapEVMBody env dex walletAddress (some "native") (some "native") amountIn slippage
      deadline = ⟨.ok none, []⟩ := by
  have hn : isNative (some "native") = true := by decide
  simp [swapEVMBody, hn]

theorem swapEVM_native_native (env : SwapEnv) (privateKey : String) (amountIn : AmountIn)
    (slippage : Option ℚ) (chainId userId : String) :
    (swapEVM env privateKey (some "native") (some "native") amountIn slippage chainId
      userId).calls = [] ∧
    (∀ walletAddress dex, env.wallet privateKey = .ok walletAddress →
      resolveDex env chainId userId = .ok (some dex) →
      (swapEVM env privateKey (some "native") (some "native") amountIn slippage chainId
        userId).out = .ok none) ∧
    (∀ r, (swapEVM env privateKey (some "native") (some "native") amountIn slippage chainId
        userId).out = .ok (some r) → r.success = false ∧ r.txHash = none) := by
  unfold swapEVM
  cases hw : env.wallet privateKey with
  | error e => simp
  | ok walletAddress =>
    cases hd : resolveDex env chainId userId with
    | error e => simp
    | ok found =>
      cases found with
      | none =>
        refine ⟨rfl, by simp, ?_⟩
        intro r hr
        simp only [Except.ok.injEq, Option.some.injEq] at hr
        subst hr
        exact ⟨rfl, rfl⟩
      | some dex => simp [swapEVMBody_native_native]

theorem quoteAndSwap_needsDexInfo (env : SwapEnv) (dex : Dex) (amountInWei : Int)
    (path : List (Option String)) (index : Nat) (slippage : ℚ) (mkSwap : Int → SwapCall)
    (shape : TradeShape) :
    ∀ r, (quoteAndSwap env dex amountInWei path index slippage mkSwap shape).out =
      .ok (some r) → r.needsDexInfo = false := by
  intro r hr
  unfold quoteAndSwap at hr
  split at hr
  · cases hr
  · split at hr
    · cases hr
    · split at hr
      · cases hr
      · split at hr
        · cases hr
        · simp only [Except.ok.injEq, Option.some.injEq] at hr
          subst hr
          rfl

theorem swapFromToken_needsDexInfo (env : SwapEnv) (dex : Dex) (walletAddress token : String)
    (amountIn : AmountIn) (path : List (Option String)) (index : Nat) (slippage : ℚ)
    (mkSwap : Int → Int → SwapCall) (shape : TradeShape) :
    ∀ r, (swapFromToken env dex walletAddress token amountIn path index slippage mkSwap
      shape).out = .ok (some r) → r.needsDexInfo = false := by
  intro r hr
  unfold swapFromToken at hr
  split at hr
  · cases hr
  · split at hr
    · cases hr
    · split at hr
      · cases hr
      · exact quoteAndSwap_needsDexInfo _ _ _ _ _ _ _ _ r hr

theorem swapEVMBody_needsDexInfo (env : SwapEnv) (dex : Dex) (walletAddress : String)
    (fromToken toToken : Option String) (amountIn : AmountIn) (slippage : ℚ) (deadline : Nat) :
    ∀ r, (swapEVMBody env dex walletAddress fromToken toToken amountIn slippage deadline).out =
      .ok (some r) → r.needsDexInfo = false := by
  intro r hr
  unfold swapEVMBody at hr
  split_ifs at hr
  · split at hr
    · cases hr
    · exact quoteAndSwap_needsDexInfo _ _ _ _ _ _ _ _ r hr
  · exact swapFromToken_needsDexInfo _ _ _ _ _ _ _ _ _ _ r hr
  · exact swapFromToken_needsDexInfo _ _ _ _ _ _ _ _ _ _ r hr
  · cases hr

/-- With a resolved router, no result of `swapEVM` asks for router
information. -/
theorem swapEVM_needsDexInfo_of_dex (env : SwapEnv) (privateKey : String)
    (fromToken toToken : Option String) (amountIn : AmountIn) (slippage : Option ℚ)
    (chainId userId : String) (dex : Dex)
    (hdex : resolveDex env chainId userId = .ok (some dex)) :
    ∀ r, (swapEVM env privateKey fromToken toToken amountIn slippage chainId userId).out =
      .ok (some r) → r.needsDexInfo = false := by
  intro r hr
  unfold swapEVM at hr
  cases hw : env.wallet privateKey with
  | error e => simp [hw] at hr
  | ok walletAddress =>
    simp only [hw, hdex] at hr
    split at hr
    next v hv =>
      simp only [Except.ok.injEq] at hr
      subst hr
      exact swapEVMBody_needsDexInfo _ _ _ _ _ _ _ _ r hv
    next e he =>
      simp only [Except.ok.injEq, Option.some.injEq] at hr
      subst hr
      rfl

theorem swapTaskArgs_tokens (task : String) (w : WalletRow) (pk rpcUrl chainId userId : String)
    (hnone : matchFor task.data = none) :
    (swapTaskArgs task w pk rpcUrl chainId userId).fromToken = "native" ∧
    (swapTaskArgs task w pk rpcUrl chainId userId).toToken = "native" ∧
    (swapTaskArgs task w pk rpcUrl chainId userId).chain = w.chain ∧
    (swapTaskArgs task w pk rpcUrl chainId userId).chainId = chainId := by
  simp [swapTaskArgs, hnone]

theorem swapRun_evm (senv : SwapEnv) (jenv : JupiterEnv) (reader : AmountReader)
    (args : SwapTaskArgs) (hevm : args.chain ≠ "solana") :
    (swapRun senv jenv reader args).calls =
      (swapEVM senv args.privateKey (some args.fromToken) (some args.toToken)
        (reader.amount args.amountIn).units (some args.slippage) args.chainId
        args.userId).calls.map SwapServiceCall.evm ∧
    (swapRun senv jenv reader args).out =
      match (swapEVM senv args.privateKey (some args.fromToken) (some args.toToken)
        (reader.amount args.amountIn).units (some args.slippage) args.chainId
        args.userId).out with
      | .ok v => .ok (.evm v)
      | .error e => .error e := by
  simp [swapRun, swap, hevm]

/-- C28. Swap task without a destination token on an EVM account.  For every
task text whose lower case contains `swap` and that holds no token after
`for`, on a wallet of another family than Solana whose key decrypts:
`executeTask` asks the swap executor for a swap from `native` to `native`;
`swap` makes no quote, approval or swap call; with a signer and a resolved
router `swapEVM` matches none of its three trade shapes and returns nothing;
and `executeTask` returns a failure without transaction id. -/
theorem executeTask_swap_without_token (base : RunnerEnv) (senv : SwapEnv) (jenv : JupiterEnv)
    (reader : AmountReader) (other : Nat → ActionEnv) (k : Nat) (task : String)
    (w : WalletRow) (chainConfig : ChainConfig) (pk userId : String)
    (hkey : base.getPrivateKey w.encrypted_private_key = .ok pk)
    (hswap : includes ((other k).toLowerCase task) "swap" = true)
    (hnone : matchFor task.data = none) (hevm : w.chain ≠ "solana") :
    (swapTaskArgs task w pk (taskRpcUrl chainConfig) (taskChainId chainConfig)
      userId).fromToken = "native" ∧
    (swapTaskArgs task w pk (taskRpcUrl chainConfig) (taskChainId chainConfig)
      userId).toToken = "native" ∧
    (executeTaskBody (swapAction senv jenv reader (other k)) task w chainConfig pk
      userId).calls =
      [.swap (swapTaskArgs task w pk (taskRpcUrl chainConfig) (taskChainId chainConfig)
        userId)] ∧
    (swapRun senv jenv reader (swapTaskArgs task w pk (taskRpcUrl chainConfig)
      (taskChainId chainConfig) userId)).calls = [] ∧
    (∀ walletAddress dex, senv.wallet pk = .ok walletAddress →
      resolveDex senv (taskChainId chainConfig) userId = .ok (some dex) →
      (swapRun senv jenv reader (swapTaskArgs task w pk (taskRpcUrl chainConfig)
        (taskChainId chainConfig) userId)).out = .ok (.evm none)) ∧
    ∃ r, executeTask (actionRunner base (fun i => swapAction senv jenv reader (other i))) k
        task w chainConfig userId = .ok r ∧ r.success = false ∧ r.txHash = none := by
  obtain ⟨hfrom, hto, hchain, hid⟩ := swapTaskArgs_tokens task w pk (taskRpcUrl chainConfig)
    (taskChainId chainConfig) userId hnone
  have hkind : classify ((swapAction senv jenv reader (other k)).toLowerCase task) = .swap := by
    show classify ((other k).toLowerCase task) = .swap
    simp [classify, hswap]
  have hbody := executeTaskBody_of_swap (swapAction senv jenv reader (other k)) task w
    chainConfig pk userId hkind
  have hrun := swapRun_evm senv jenv reader
    (swapTaskArgs task w pk (taskRpcUrl chainConfig) (taskChainId chainConfig) userId)
    (by rw [hchain]; exact hevm)
  rw [hfrom, hto] at hrun
  have hnn := swapEVM_native_native senv
    (swapTaskArgs task w pk (taskRpcUrl chainConfig) (taskChainId chainConfig)
      userId).privateKey
    (reader.amount (swapTaskArgs task w pk (taskRpcUrl chainConfig) (taskChainId chainConfig)
      userId).amountIn).units
    (some (swapTaskArgs task w pk (taskRpcUrl chainConfig) (taskChainId chainConfig)
      userId).slippage)
    (swapTaskArgs task w pk (taskRpcUrl chainConfig) (taskChainId chainConfig) userId).chainId
    (swapTaskArgs task w pk (taskRpcUrl chainConfig) (taskChainId chainConfig) userId).userId
  refine ⟨hfrom, hto, by rw [hbody, swapTask_calls], by rw [hrun.1, hnn.1]; rfl, ?_, ?_⟩
  · intro walletAddress dex hw hdex
    rw [hrun.2, hnn.2.1 walletAddress dex hw (by rw [hid]; exact hdex)]
  · have hexec := executeTask_of_body base (fun i => swapAction senv jenv reader (other i)) k
      task w chainConfig pk userId hkey
    rw [hexec, hbody]
    unfold swapTask
    have hswapField : (swapAction senv jenv reader (other k)).swap
        (swapTaskArgs task w pk (taskRpcUrl chainConfig) (taskChainId chainConfig) userId) =
        match (swapRun senv jenv reader (swapTaskArgs task w pk (taskRpcUrl chainConfig)
          (taskChainId chainConfig) userId)).out with
        | .ok value => .ok (swapResultOf (reader.text (swapTaskArgs task w pk
            (taskRpcUrl chainConfig) (taskChainId chainConfig) userId).amountIn) value)
        | .error e => .error e := rfl
    rw [hswapField, hrun.2]
    cases hout : (swapEVM senv
        (swapTaskArgs task w pk (taskRpcUrl chainConfig) (taskChainId chainConfig)
          userId).privateKey (some "native") (some "native")
        (reader.amount (swapTaskArgs task w pk (taskRpcUrl chainConfig)
          (taskChainId chainConfig) userId).amountIn).units
        (some (swapTaskArgs task w pk (taskRpcUrl chainConfig) (taskChainId chainConfig)
          userId).slippage)
        (swapTaskArgs task w pk (taskRpcUrl chainConfig) (taskChainId chainConfig)
          userId).chainId
        (swapTaskArgs task w pk (taskRpcUrl chainConfig) (taskChainId chainConfig)
          userId).userId).out with
    | error e => exact ⟨_, rfl, rfl, rfl⟩
    | ok v =>
      cases v with
      | none => exact ⟨_, rfl, rfl, rfl⟩
      | some r =>
        obtain ⟨hs, ht⟩ := hnn.2.2 r hout
        exact ⟨_, rfl, hs, ht⟩

/-- Witness for C28: the task `Swap some ETH` on the EVM wallet of the
examples, for user `alice` on a snapshot without chain id. -/
theorem executeTask_swap_without_token_witness :
    (sampleRunnerEnv "").getPrivateKey sampleWallet.encrypted_private_key = .ok "keyA" ∧
    includes (sampleActionEnv.toLowerCase "Swap some ETH") "swap" = true ∧
    matchFor "Swap some ETH".data = none ∧
    (swapRun sampleSwapEnv sampleJupiterEnv sampleReader
      (swapTaskArgs "Swap some ETH" sampleWallet "keyA" (taskRpcUrl sampleChainConfig)
        (taskChainId sampleChainConfig) "alice")).calls = [] ∧
    ∃ r, executeTask (actionRunner (sampleRunnerEnv "")
        (fun _ => swapAction sampleSwapEnv sampleJupiterEnv sampleReader sampleActionEnv)) 0
        "Swap some ETH" sampleWallet sampleChainConfig "alice" = .ok r ∧
      r.success = false ∧ r.txHash = none :=
  ⟨rfl, by decide, by decide,
    (executeTask_swap_without_token (sampleRunnerEnv "") sampleSwapEnv sampleJupiterEnv
      sampleReader (fun _ => sampleActionEnv) 0 "Swap some ETH" sampleWallet sampleChainConfig
      "keyA" "alice" rfl (by decide) (by decide) (by decide)).2.2.2.1,
    (executeTask_swap_without_token (sampleRunnerEnv "") sampleSwapEnv sampleJupiterEnv
      sampleReader (fun _ => sampleActionEnv) 0 "Swap some ETH" sampleWallet sampleChainConfig
      "keyA" "alice" rfl (by decide) (by decide) (by decide)).2.2.2.2.2⟩

/-- C30. Chain id fallback: for every network snapshot that has neither
`chainId` nor `chain_id`, `executeTask` computes the chain id `1` and puts it
in the argument object of the swap executor; `resolveDex` answers the chain id
`1` with the built-in Uniswap V2 router of Ethereum mainnet, whatever the
store holds; and no result of `swap` for that argument object asks for router
information. -/
theorem executeTask_chain_id_fallback (senv : SwapEnv) (jenv : JupiterEnv)
    (reader : AmountReader) (task : String) (w : WalletRow) (chainConfig : ChainConfig)
    (pk userId : String)
    (hid : chainConfig.chainId = none ∧ chainConfig.chain_id = none) :
    taskChainId chainConfig = "1" ∧
    (swapTaskArgs task w pk (taskRpcUrl chainConfig) (taskChainId chainConfig)
      userId).chainId = "1" ∧
    resolveDex senv "1" userId =
      .ok (some ⟨"Uniswap V2", "0x7a250d5630B4cF539739dF2C5dAcb4c659F2488D",
        some "0xC02aaA39b223FE8D0A0e5C4F27eAD9083C756Cc2", UNISWAP_V2_ROUTER_ABI⟩) ∧
    (∀ r, (swapRun senv jenv reader (swapTaskArgs task w pk (taskRpcUrl chainConfig)
        (taskChainId chainConfig) userId)).out = .ok (.evm (some r)) →
      r.needsDexInfo = false) := by
  have hone : taskChainId chainConfig = "1" := by
    simp [taskChainId, orElse, hid.1, hid.2]
  have hdex : resolveDex senv "1" userId =
      .ok (some ⟨"Uniswap V2", "0x7a250d5630B4cF539739dF2C5dAcb4c659F2488D",
        some "0xC02aaA39b223FE8D0A0e5C4F27eAD9083C756Cc2", UNISWAP_V2_ROUTER_ABI⟩) := by
    simp +decide [resolveDex, BUILTIN_DEX, List.lookup]
  refine ⟨hone, by simp [swapTaskArgs, hone], hdex, ?_⟩
  intro r hr
  by_cases hsol : (swapTaskArgs task w pk (taskRpcUrl chainConfig) (taskChainId chainConfig)
      userId).chain = "solana"
  · simp [swapRun, swap, hsol] at hr
  · rw [(swapRun_evm senv jenv reader _ hsol).2] at hr
    have hargs : (swapTaskArgs task w pk (taskRpcUrl chainConfig) (taskChainId chainConfig)
        userId).chainId = "1" := by simp [swapTaskArgs, hone]
    rw [hargs] at hr
    split at hr
    next v hv =>
      simp only [Except.ok.injEq, SwapOutcome.evm.injEq] at hr
      subst hr
      exact swapEVM_needsDexInfo_of_dex _ _ _ _ _ _ _ _ _ hdex r hv
    next e he => cases hr

/-- Witness for C30: the snapshot of the examples has no chain id; user `bob`,
who saved no router, swaps for a token and gets the built-in router. -/
theorem executeTask_chain_id_fallback_witness :
    (sampleChainConfig.chainId = none ∧ sampleChainConfig.chain_id = none) ∧
    taskChainId sampleChainConfig = "1" ∧
    (∀ r, (swapRun sampleSwapEnv sampleJupiterEnv sampleReader
        (swapTaskArgs "swap 1 for 0x52908400098527886E0F7030069857D2E4169EE7" sampleWallet
          "keyA" (taskRpcUrl sampleChainConfig) (taskChainId sampleChainConfig) "bob")).out =
        .ok (.evm (some r)) → r.needsDexInfo = false) :=
  ⟨⟨rfl, rfl⟩,
    (executeTask_chain_id_fallback sampleSwapEnv sampleJupiterEnv sampleReader
      "swap 1 for 0x52908400098527886E0F7030069857D2E4169EE7" sampleWallet sampleChainConfig
      "keyA" "bob" ⟨rfl, rfl⟩).1,
    (executeTask_chain_id_fallback sampleSwapEnv sampleJupiterEnv sampleReader
      "swap 1 for 0x52908400098527886E0F7030069857D2E4169EE7" sampleWallet sampleChainConfig
      "keyA" "bob" ⟨rfl, rfl⟩).2.2.2⟩

/-! ## Theorems: scheduler.js -/

theorem handed_append (a b : List SchedulerCall) :
    SchedulerCall.handed (a ++ b) = SchedulerCall.handed a ++ SchedulerCall.handed b := by
  induction a with
  | nil => rfl
  | cons c cs ih => cases c <;> simp [SchedulerCall.handed, ih]

/-- C11. Scheduler idle tick: when the query for the due task sets returns
none, the tick consists of that query alone: `runTaskSet` is invoked zero
times, no notification is sent, and no call is made inside a run (no task is
executed, so no chain call). -/
theorem schedulerTick_idle (env : SchedulerEnv) (bot : Option BotObject)
    (hdue : env.getActiveDueTaskSets = .ok []) :
    schedulerTick env bot = [.getActiveDueTaskSets] ∧
      SchedulerCall.handed (schedulerTick env bot) = [] ∧
      SchedulerCall.notices (schedulerTick env bot) = [] ∧
      SchedulerCall.runnerCalls (schedulerTick env bot) = [] := by
  have h : schedulerTick env bot = [.getActiveDueTaskSets] := by
    unfold schedulerTick
    rw [hdue]
    rfl
  rw [h]
  exact ⟨rfl, rfl, rfl, rfl⟩

/-- Witness for C11: a tick with nothing due, with and without a bot. -/
theorem schedulerTick_idle_witness :
    schedulerTick ⟨.ok [], fun _ => failingWalletsEnv⟩ (some ⟨false⟩) =
        [.getActiveDueTaskSets] ∧
      SchedulerCall.handed (schedulerTick ⟨.ok [], fun _ => failingWalletsEnv⟩ (some ⟨false⟩))
        = [] ∧
      SchedulerCall.notices (schedulerTick ⟨.ok [], fun _ => failingWalletsEnv⟩ (some ⟨false⟩))
        = [] ∧
      SchedulerCall.runnerCalls
        (schedulerTick ⟨.ok [], fun _ => failingWalletsEnv⟩ (some ⟨false⟩)) = [] :=
  schedulerTick_idle ⟨.ok [], fun _ => failingWalletsEnv⟩ (some ⟨false⟩) rfl

/-- When every run of a tick returns, every due task set is handed to
`runTaskSet`, in order. -/
theorem tickLoop_hands_all (env : SchedulerEnv) (bot : Option BotObject) :
    ∀ (due : List TaskSet) (n : Nat),
      (∀ i (hi : i < due.length),
        ∃ results, (runTaskSetWith (env.runner (n + i)) due[i] bot).out = .ok results) →
      SchedulerCall.handed (tickLoop env bot n due).2 = due := by
  intro due
  induction due with
  | nil => intro n _; rfl
  | cons ts rest ih =>
    intro n hall
    obtain ⟨results, hres⟩ := hall 0 (by simp)
    simp only [Nat.add_zero, List.getElem_cons_zero] at hres
    have htail := ih (n + 1) (fun i hi => by
      have := hall (i + 1) (by simpa using hi)
      have hk : n + 1 + i = n + (i + 1) := by omega
      rw [hk]; simpa using this)
    unfold tickLoop
    simp only [hres, handed_append, htail]
    cases bot <;> simp [SchedulerCall.handed]

/-- When the run of a due task set raises, the loop of the tick ends with it:
the task sets after it are not handed to `runTaskSet`. -/
theorem tickLoop_stops_at_raise (env : SchedulerEnv) (bot : Option BotObject) (n : Nat)
    (taskSet : TaskSet) (rest : List TaskSet) (e : String)
    (hraise : (runTaskSetWith (env.runner n) taskSet bot).out = .error e) :
    SchedulerCall.handed (tickLoop env bot n (taskSet :: rest)).2 = [taskSet] ∧
      (tickLoop env bot n (taskSet :: rest)).1 = .error e := by
  unfold tickLoop
  simp only [hraise, handed_append]
  cases bot <;> simp [SchedulerCall.handed]

/-- C12, at the failing input. Two task sets are due; the wallets of the
owner of the first cannot be read, so `runTaskSet` raises for it; the `catch`
around the whole loop logs the error and the second task set is never handed
to `runTaskSet`. -/
theorem schedulerTick_stops_after_raise :
    sampleSchedulerEnv.getActiveDueTaskSets = .ok sampleDueSets ∧
    sampleDueSets.map TaskSet.id = ["set-0", "set-1"] ∧
    (SchedulerCall.handed (schedulerTick sampleSchedulerEnv none)).map TaskSet.id = ["set-0"] ∧
    (SchedulerCall.handed (schedulerTick sampleSchedulerEnv (some ⟨true⟩))).map TaskSet.id =
      ["set-0"] ∧
    (schedulerTick sampleSchedulerEnv none).getLast? = some (.logError "connection refused") := by
  refine ⟨rfl, by decide, by decide, by decide, by decide⟩

/-! ## Theorems: the entry point of fundingService.js -/

theorem destinations_append (xs ys : List FundingCall) :
    FundingCall.destinations (xs ++ ys) =
      FundingCall.destinations xs ++ FundingCall.destinations ys := by
  induction xs with
  | nil => rfl
  | cons c cs ih =>
    cases c with
    | evm call => cases call <;> simp [FundingCall.destinations, ih]
    | solana call => cases call <;> simp [FundingCall.destinations, ih]
    | getWalletByAddress u a => simp [FundingCall.destinations, ih]
    | getUserWallets u c => simp [FundingCall.destinations, ih]

theorem destinations_evm (cs : List EvmCall) :
    FundingCall.destinations (cs.map FundingCall.evm) =
      (EvmCall.transfers cs).map TxRequest.toAddress := by
  induction cs with
  | nil => rfl
  | cons c cs ih => cases c <;> simp [FundingCall.destinations, EvmCall.transfers, ih]

theorem cascadeFundEVM_destinations (p : EvmProvider) (key : String) (targets : List String)
    (mode : String) (apw total : JsAmount) :
    ∀ tx ∈ EvmCall.transfers (cascadeFundEVM p key targets mode apw total).calls,
      tx.toAddress ∈ targets := by
  intro tx htx
  unfold cascadeFundEVM at htx
  cases hw : p.wallet key with
  | error e => simp [hw, EvmCall.transfers] at htx
  | ok master =>
    cases hb : p.getBalance master with
    | error e => simp [hw, hb, EvmCall.transfers] at htx
    | ok balance =>
      have hq := (sendAmountEVM_transfers p mode apw total targets.length).1
      cases ha : (sendAmountEVM p mode apw total targets.length).1 with
      | error e => simp [hw, hb, ha, EvmCall.transfers, hq] at htx
      | ok sendAmount =>
        simp only [hw, hb, ha] at htx
        split_ifs at htx with hlt
        · simp [EvmCall.transfers, hq] at htx
        · have happ : EvmCall.transfers
              (EvmCall.getBalance master :: (sendAmountEVM p mode apw total targets.length).2 ++
                (fundLoopEVM p master sendAmount 0 targets).2) =
              EvmCall.transfers (fundLoopEVM p master sendAmount 0 targets).2 := by
            rw [List.cons_append]
            simp [EvmCall.transfers, transfers_append, hq]
          rw [happ] at htx
          exact (fundLoopEVM_transfers p master sendAmount targets 0).1.subset
            (List.mem_map_of_mem _ htx)

theorem cascadeFundTargets_fallback (env : FundingEnv) (userId master : String)
    (targetChain : Option String) (given : Option (List String))
    (h : given = none ∨ given = some []) :
    FundingCall.destinations (cascadeFundTargets env userId master targetChain given).2 = [] ∧
    ∀ ts, (cascadeFundTargets env userId master targetChain given).1 = .ok ts → master ∉ ts := by
  have hdef : cascadeFundTargets env userId master targetChain given =
      match env.getUserWallets userId targetChain with
      | .error e => (.error e, [.getUserWallets userId targetChain])
      | .ok allWallets =>
        (.ok ((allWallets.filter (fun w => w.address != master)).map WalletRow.address),
          [.getUserWallets userId targetChain]) := by
    rcases h with h | h <;> rw [h] <;> rfl
  rw [hdef]
  cases env.getUserWallets userId targetChain with
  | error e => simp [FundingCall.destinations]
  | ok allWallets =>
    refine ⟨by simp [FundingCall.destinations], ?_⟩
    intro ts hts
    simp only [Except.ok.injEq] at hts
    subst hts
    simp

/-- Without a target list in the request, `cascadeFund` on an account of the
EVM family submits no transfer to the master address of the request: the
addresses read from the store are filtered. -/
theorem cascadeFund_fallback_excludes_source (env : FundingEnv)
    (userId master mode : String) (apw total : JsAmount) (targetChain : Option String)
    (rpcUrl : String) (given : Option (List String))
    (h : given = none ∨ given = some [])
    (hevm : ∀ w, env.getWalletByAddress userId master = some w → w.chain ≠ "solana") :
    master ∉ FundingCall.destinations
      (cascadeFund env userId master mode apw total targetChain rpcUrl given).calls := by
  obtain ⟨hpre, hts⟩ := cascadeFundTargets_fallback env userId master targetChain given h
  unfold cascadeFund
  cases hw : env.getWalletByAddress userId master with
  | none => simp [FundingCall.destinations]
  | some w =>
    cases hk : env.getPrivateKey w.encrypted_private_key with
    | error e => simp [hk, FundingCall.destinations]
    | ok key =>
      cases hf : (cascadeFundTargets env userId master targetChain given).1 with
      | error e => simp [hk, hf, FundingCall.destinations, hpre]
      | ok ts =>
        cases ts with
        | nil => simp [hk, hf, FundingCall.destinations, hpre]
        | cons t ts =>
          simp only [hk, hf, if_neg (hevm w hw)]
          have hcons : ∀ (u a : String) (cs : List FundingCall),
              FundingCall.destinations (.getWalletByAddress u a :: cs) =
                FundingCall.destinations cs := fun _ _ _ => rfl
          rw [List.cons_append, hcons, destinations_append, hpre, destinations_evm]
          intro hmem
          simp only [List.nil_append, List.mem_map] at hmem
          obtain ⟨tx, htx, hto⟩ := hmem
          have := cascadeFundEVM_destinations _ _ _ _ _ _ tx htx
          rw [hto] at this
          exact hts _ hf this

theorem handlerTargets_excludes (wallets : List WalletRow) (masterAddress : String)
    (masterWallet : WalletRow) :
    ∀ w ∈ handlerTargets wallets masterAddress masterWallet, w.address ≠ masterAddress := by
  intro w hw
  simp only [handlerTargets, List.mem_filter, Bool.and_eq_true, bne_iff_ne] at hw
  exact hw.2.1

/-- A master address that differs from the stored address of the master wallet,
as it does when only the letter case differs, leaves the master wallet among the
targets `handleCascadeFund` hands to `cascadeFund`. -/
theorem handlerTargets_keeps_master (wallets : List WalletRow) (masterAddress : String)
    (masterWallet : WalletRow)
    (hfind : findMasterWallet wallets masterAddress = some masterWallet)
    (hne : masterWallet.address ≠ masterAddress) :
    masterWallet ∈ handlerTargets wallets masterAddress masterWallet := by
  have hmem : masterWallet ∈ wallets := List.mem_of_find?_eq_some hfind
  simp [handlerTargets, List.mem_filter, hmem, hne]

/-- The request `fund from 0xmaster`, in lower case, for the stored wallet
`0xMaster`: the handler finds the master wallet, keeps its stored address among
the targets, and `cascadeFund`, whose store looks the address up exactly, raises
before any transfer. -/
theorem handleCascadeFund_letter_case :
    findMasterWallet sampleWallets "0xmaster" = some ⟨"0xMaster", "evm", "keyM"⟩ ∧
    (handlerTargets sampleWallets "0xmaster" ⟨"0xMaster", "evm", "keyM"⟩).map
      WalletRow.address = ["0xMaster", "0xBob"] ∧
    (handleCascadeFund sampleFundingEnv "42"
      (some ⟨some "0xmaster", some "fixed", JsAmount.ofWei 3, JsAmount.undefined⟩)).out =
      .error "Master wallet not found. Make sure the address belongs to your account." ∧
    FundingCall.destinations (handleCascadeFund sampleFundingEnv "42"
      (some ⟨some "0xmaster", some "fixed", JsAmount.ofWei 3, JsAmount.undefined⟩)).calls =
      [] := by
  refine ⟨by decide, by decide, rfl, by decide⟩

/-- The request `fund from 0xMaster`, with the stored address: the handler
leaves the master out of the targets and the only transfer goes to `0xBob`. -/
theorem handleCascadeFund_exact_address :
    FundingCall.destinations (handleCascadeFund sampleFundingEnv "42"
      (some ⟨some "0xMaster", some "fixed", JsAmount.ofWei 3, JsAmount.undefined⟩)).calls =
      ["0xBob"] := by
  decide

/-- C20. A request to `cascadeFund` from the master `0xMaster` with the explicit
target list `0xMaster`, `0xBob` submits a transfer to `0xMaster`, the address
of the signer: the list of the request is not filtered. -/
theorem cascadeFund_explicit_list_funds_source :
    sampleFundingEnv.getWalletByAddress "42" "0xMaster" = some ⟨"0xMaster", "evm", "keyM"⟩ ∧
    (sampleFundingEnv.provider "https://rpc").wallet "keyM" = .ok "0xMaster" ∧
    FundingCall.destinations (cascadeFund sampleFundingEnv "42" "0xMaster" "fixed"
      (JsAmount.ofWei 3) JsAmount.undefined (some "evm") "https://rpc"
      (some ["0xMaster", "0xBob"])).calls = ["0xMaster", "0xBob"] ∧
    (cascadeFund sampleFundingEnv "42" "0xMaster" "fixed"
      (JsAmount.ofWei 3) JsAmount.undefined (some "evm") "https://rpc"
      (some ["0xMaster", "0xBob"])).out =
      .ok [.funded "0xMaster" 3 "0xMaster", .funded "0xBob" 3 "0xBob"] := by
  refine ⟨by decide, rfl, by decide, ?_⟩
  simp +decide [cascadeFund, cascadeFundTargets, sampleFundingEnv, sampleWallets,
    cascadeFundEVM, sampleProvider, sendAmountEVM, JsAmount.ofWei, fundLoopEVM, fundTargetEVM]

theorem fundLoopSolana_results_length (c : SolanaConnection) (lamportsEach : ℚ) :
    ∀ (targets : List String) (k : Nat),
      (fundLoopSolana c lamportsEach k targets).1.length = targets.length := by
  intro targets
  induction targets with
  | nil => intro k; rfl
  | cons t ts ih => intro k; simp [fundLoopSolana, ih]

/-- With a signer, a balance and an amount, `cascadeFundEVM` returns: one
result when the balance is too small, and one result per target otherwise. -/
theorem cascadeFundEVM_returns (p : EvmProvider) (key : String) (targets : List String)
    (mode : String) (apw total : JsAmount) (signer : String) (balance : Nat) (amount : Int)
    (hw : p.wallet key = .ok signer) (hb : p.getBalance signer = .ok balance)
    (ha : (sendAmountEVM p mode apw total targets.length).1 = .ok amount) :
    ∃ results, (cascadeFundEVM p key targets mode apw total).out = .ok results ∧
      (results.length = 1 ∨ results.length = targets.length) := by
  unfold cascadeFundEVM
  simp only [hw, hb, ha]
  split_ifs
  · exact ⟨_, rfl, Or.inl rfl⟩
  · exact ⟨_, rfl, Or.inr (fundLoopEVM_length p signer amount targets 0)⟩

/-- With a key pair and a balance, `cascadeFundSolana` returns: one result when
the balance is too small, and one result per target otherwise. -/
theorem cascadeFundSolana_returns (c : SolanaConnection) (key : String) (targets : List String)
    (mode : String) (apw total : JsAmount) (signer : String) (balance : Nat)
    (hw : c.fromSecretKey key = .ok signer) (hb : c.getBalance signer = .ok balance) :
    ∃ results, (cascadeFundSolana c key targets mode apw total).out = .ok results ∧
      (results.length = 1 ∨ results.length = targets.length) := by
  unfold cascadeFundSolana
  simp only [hw, hb]
  split_ifs
  · exact ⟨_, rfl, Or.inl rfl⟩
  · exact ⟨_, rfl, Or.inr (fundLoopSolana_results_length c _ targets 0)⟩

theorem cascadeFundTargets_of_fallback (env : FundingEnv) (userId master : String)
    (targetChain : Option String) (given : Option (List String))
    (h : given = none ∨ given = some []) (all : List WalletRow)
    (hall : env.getUserWallets userId targetChain = .ok all) :
    cascadeFundTargets env userId master targetChain given =
      (.ok ((all.filter (fun w => w.address != master)).map WalletRow.address),
        [.getUserWallets userId targetChain]) := by
  rcases h with h | h <;> rw [h] <;> simp [cascadeFundTargets, hall]

/-- C21, counterexample. A request whose source `0xStranger` is not among the
wallets of the owner: `cascadeFund` raises instead of returning results. -/
theorem cascadeFund_unknown_source_counterexample :
    sampleFundingEnv.getWalletByAddress "42" "0xStranger" = none ∧
    (cascadeFund sampleFundingEnv "42" "0xStranger" "fixed" (JsAmount.ofWei 3)
      JsAmount.undefined (some "evm") "https://rpc" (some ["0xBob"])).out =
      .error "Master wallet not found. Make sure the address belongs to your account." ∧
    (cascadeFund sampleFundingEnv "42" "0xStranger" "fixed" (JsAmount.ofWei 3)
      JsAmount.undefined (some "evm") "https://rpc" (some ["0xBob"])).out.toOption = none := by
  refine ⟨by decide, rfl, rfl⟩

/-- C21, amended. For a request whose source is not found among the wallets of
the owner, `cascadeFund` raises the error `Master wallet not found` after the
lookup, with no other call.  For a request whose source is found, whose key
decrypts and whose targets are given or can be read, it returns the single
result `noTargets` when there is no target, and otherwise, once the signer is
built, the balance read and (on the EVM path) the amount computed, it returns
one result or one result per target. -/
theorem cascadeFund_returns_or_raises (env : FundingEnv) (userId master mode : String)
    (apw total : JsAmount) (targetChain : Option String) (rpcUrl : String)
    (given : Option (List String)) :
    (env.getWalletByAddress userId master = none →
      cascadeFund env userId master mode apw total targetChain rpcUrl given =
        ⟨.error "Master wallet not found. Make sure the address belongs to your account.",
          [.getWalletByAddress userId master]⟩) ∧
    (∀ (w : WalletRow) (key : String) (targets : List String),
      env.getWalletByAddress userId master = some w →
      env.getPrivateKey w.encrypted_private_key = .ok key →
      (cascadeFundTargets env userId master targetChain given).1 = .ok targets →
      (targets = [] →
        (cascadeFund env userId master mode apw total targetChain rpcUrl given).out =
          .ok [FundingResult.noTargets]) ∧
      (targets ≠ [] → w.chain ≠ "solana" →
        ∀ (signer : String) (balance : Nat) (amount : Int),
          (env.provider rpcUrl).wallet key = .ok signer →
          (env.provider rpcUrl).getBalance signer = .ok balance →
          (sendAmountEVM (env.provider rpcUrl) mode apw total targets.length).1 = .ok amount →
          ∃ results,
            (cascadeFund env userId master mode apw total targetChain rpcUrl given).out =
              .ok results ∧
            (results.length = 1 ∨ results.length = targets.length)) ∧
      (targets ≠ [] → w.chain = "solana" →
        ∀ (signer : String) (balance : Nat),
          (env.connection rpcUrl).fromSecretKey key = .ok signer →
          (env.connection rpcUrl).getBalance signer = .ok balance →
          ∃ results,
            (cascadeFund env userId master mode apw total targetChain rpcUrl given).out =
              .ok results ∧
            (results.length = 1 ∨ results.length = targets.length))) := by
  refine ⟨fun hnone => ?_, fun w key targets hw hk ht => ⟨fun hnil => ?_, fun hne hevm => ?_,
    fun hne hsol => ?_⟩⟩
  · unfold cascadeFund
    rw [hnone]
  · subst hnil
    unfold cascadeFund
    simp only [hw, hk, ht]
  · intro signer balance amount hs hb ha
    cases targets with
    | nil => exact absurd rfl hne
    | cons t ts =>
      unfold cascadeFund
      simp only [hw, hk, ht, if_neg hevm]
      exact cascadeFundEVM_returns _ _ _ _ _ _ signer balance amount hs hb ha
  · intro signer balance hs hb
    cases targets with
    | nil => exact absurd rfl hne
    | cons t ts =>
      unfold cascadeFund
      simp only [hw, hk, ht, if_pos hsol]
      exact cascadeFundSolana_returns _ _ _ _ _ _ signer balance hs hb

/-- Witness for C21, amended: the source `0xStranger` raises; the source
`0xMaster` with the target `0xBob` returns one result. -/
theorem cascadeFund_returns_or_raises_witness :
    cascadeFund sampleFundingEnv "42" "0xStranger" "fixed" (JsAmount.ofWei 3)
        JsAmount.undefined (some "evm") "https://rpc" (some ["0xBob"]) =
      ⟨.error "Master wallet not found. Make sure the address belongs to your account.",
        [.getWalletByAddress "42" "0xStranger"]⟩ ∧
    ∃ results, (cascadeFund sampleFundingEnv "42" "0xMaster" "fixed" (JsAmount.ofWei 3)
        JsAmount.undefined (some "evm") "https://rpc" (some ["0xBob"])).out = .ok results ∧
      (results.length = 1 ∨ results.length = ["0xBob"].length) :=
  ⟨(cascadeFund_returns_or_raises sampleFundingEnv "42" "0xStranger" "fixed" (JsAmount.ofWei 3)
      JsAmount.undefined (some "evm") "https://rpc" (some ["0xBob"])).1 (by decide),
    ((cascadeFund_returns_or_raises sampleFundingEnv "42" "0xMaster" "fixed" (JsAmount.ofWei 3)
      JsAmount.undefined (some "evm") "https://rpc" (some ["0xBob"])).2
      ⟨"0xMaster", "evm", "keyM"⟩ "keyM" ["0xBob"] (by decide) rfl rfl).2.1
      (by decide) (by decide) "0xMaster" 100 3 rfl rfl
      (by simp [sendAmountEVM, JsAmount.ofWei])⟩

/-- C27. No division by zero in equal mode.  When the request names no target
and every wallet read for the owner has the master address, `cascadeFund`
returns the single result `noTargets` after the two store calls, without a
call on the chain.  And for every request, either `cascadeFund` makes store
calls only, or its run is the run of `cascadeFundEVM` or `cascadeFundSolana` on
a target list `t :: ts`, whose length, the divisor of the equal mode, is at
least one. -/
theorem cascadeFund_divisor_positive (env : FundingEnv) (userId master mode : String)
    (apw total : JsAmount) (targetChain : Option String) (rpcUrl : String)
    (given : Option (List String)) :
    (∀ (w : WalletRow) (key : String) (all : List WalletRow),
      (given = none ∨ given = some []) →
      env.getWalletByAddress userId master = some w →
      env.getPrivateKey w.encrypted_private_key = .ok key →
      env.getUserWallets userId targetChain = .ok all →
      (∀ x ∈ all, x.address = master) →
      cascadeFund env userId master mode apw total targetChain rpcUrl given =
        ⟨.ok [FundingResult.noTargets],
          [.getWalletByAddress userId master, .getUserWallets userId targetChain]⟩) ∧
    ((∀ call ∈ (cascadeFund env userId master mode apw total targetChain rpcUrl given).calls,
        call = .getWalletByAddress userId master ∨
        call = .getUserWallets userId targetChain) ∨
      ∃ (key t : String) (ts : List String), 1 ≤ (t :: ts).length ∧
        (cascadeFundTargets env userId master targetChain given).1 = .ok (t :: ts) ∧
        (cascadeFund env userId master mode apw total targetChain rpcUrl given =
            ⟨(cascadeFundEVM (env.provider rpcUrl) key (t :: ts) mode apw total).out,
              .getWalletByAddress userId master ::
                (cascadeFundTargets env userId master targetChain given).2 ++
                (cascadeFundEVM (env.provider rpcUrl) key (t :: ts) mode apw total).calls.map
                  FundingCall.evm⟩ ∨
          cascadeFund env userId master mode apw total targetChain rpcUrl given =
            ⟨(cascadeFundSolana (env.connection rpcUrl) key (t :: ts) mode apw total).out,
              .getWalletByAddress userId master ::
                (cascadeFundTargets env userId master targetChain given).2 ++
                (cascadeFundSolana (env.connection rpcUrl) key (t :: ts) mode apw
                  total).calls.map FundingCall.solana⟩)) := by
  have hstore : ∀ call ∈ (cascadeFundTargets env userId master targetChain given).2,
      call = FundingCall.getWalletByAddress userId master ∨
      call = FundingCall.getUserWallets userId targetChain := by
    intro call hcall
    unfold cascadeFundTargets at hcall
    split at hcall
    · simp at hcall
    · split at hcall <;> simp at hcall <;> exact Or.inr hcall
  refine ⟨fun w key all hgiven hw hk hall hsame => ?_, ?_⟩
  · have hfilter : (all.filter (fun x => x.address != master)).map WalletRow.address = [] := by
      rw [List.map_eq_nil_iff, List.filter_eq_nil_iff]
      intro x hx
      simp [hsame x hx]
    unfold cascadeFund
    simp only [hw, hk, cascadeFundTargets_of_fallback env userId master targetChain given
      hgiven all hall, hfilter]
  · unfold cascadeFund
    cases hw : env.getWalletByAddress userId master with
    | none => left; simp
    | some w =>
      cases hk : env.getPrivateKey w.encrypted_private_key with
      | error e => left; simp [hk]
      | ok key =>
        cases ht : (cascadeFundTargets env userId master targetChain given).1 with
        | error e =>
          left
          simp only [hk, ht]
          intro call hcall
          rcases List.mem_cons.1 hcall with h | h
          · exact Or.inl h
          · exact hstore call h
        | ok targets =>
          cases targets with
          | nil =>
            left
            simp only [hk, ht]
            intro call hcall
            rcases List.mem_cons.1 hcall with h | h
            · exact Or.inl h
            · exact hstore call h
          | cons t ts =>
            right
            refine ⟨key, t, ts, by simp, rfl, ?_⟩
            simp only [hk, ht]
            by_cases hsol : w.chain = "solana"
            · right; simp only [if_pos hsol]
            · left; simp only [if_neg hsol]

/-- Witness for C27: the owner has no Solana wallet, so a request for that
chain without target list ends with the single result `noTargets`. -/
theorem cascadeFund_divisor_positive_witness :
    cascadeFund sampleFundingEnv "42" "0xMaster" "equal" JsAmount.undefined (JsAmount.ofWei 9)
        (some "solana") "https://rpc" none =
      ⟨.ok [FundingResult.noTargets],
        [.getWalletByAddress "42" "0xMaster", .getUserWallets "42" (some "solana")]⟩ :=
  (cascadeFund_divisor_positive sampleFundingEnv "42" "0xMaster" "equal" JsAmount.undefined
    (JsAmount.ofWei 9) (some "solana") "https://rpc" none).1
    ⟨"0xMaster", "evm", "keyM"⟩ "keyM" [] (Or.inl rfl) (by decide) rfl rfl
    (by simp)

end Blockbot
